import Mathlib

/-!
# Colisoes.cpp — fixed-step billiard physics

A shallow embedding of `src/src/Colisoes.cpp` (`updateSpatialGrid`, `SimularColisoes`) and of the
glm helpers it calls, followed by theorems about it.

Conventions of the embedding

* `float` is an arbitrary linearly ordered field `K` with a floor function ("exact arithmetic");
  the definitions are computable for `K = ℚ`.  Division is the field division (`x / 0 = 0`).
* The pair step, the segment responses, the cell coordinates and the integrator without its
  rolling block are embedded a second time with `float` as IEEE 754 binary32 (`Binary32`,
  definitions with suffix `32`): every operation is rounded to nearest, ties to even, with
  gradual underflow, overflow to infinity and NaN.  The theorems of the form "(counterexample)"
  are about these definitions; the properties that hold only in exact arithmetic are proved
  about the definitions over `K`.
* `sqrt`, `sin`, `cos` come from the C math library; they are passed as a record `MathLib K`.
  `MathLib.Exact` says that `sqrt` is the exact non-negative square root.
* `std::vector` is `List`; `balls[i]` is `balls[i]?` and a write is `List.set`.  An index that is
  out of range (undefined behaviour in C++) leaves the state unchanged.
* `static float physics_accumulator` is the field `physics_accumulator` of `SimState`.
* `static_cast<int>` truncates toward zero into an unbounded `Int`.
* `std::cout` output is not modelled.
-/

set_option autoImplicit false

namespace Colisoes

/-! ## glm -/

/-- Elementary functions of the C math library used through glm. -/
structure MathLib (K : Type) where
  sqrt : K → K
  sin : K → K
  cos : K → K

/-- Exact arithmetic for `sqrt`: on non-negative input it returns the non-negative root. -/
def MathLib.Exact {K : Type} [LinearOrderedField K] (m : MathLib K) : Prop :=
  ∀ x : K, 0 ≤ x → 0 ≤ m.sqrt x ∧ m.sqrt x * m.sqrt x = x

/-- The type `glm::vec2`. -/
@[ext]
structure Vec2 (K : Type) where
  x : K
  y : K
deriving DecidableEq, Repr

/-- The type `glm::vec3`. -/
@[ext]
structure Vec3 (K : Type) where
  x : K
  y : K
  z : K
deriving DecidableEq, Repr

/-- The type `glm::quat` (w, x, y, z). -/
structure Quat (K : Type) where
  w : K
  x : K
  y : K
  z : K
deriving DecidableEq, Repr

section Glm

variable {K : Type} [LinearOrderedField K]

/-- Componentwise `a + b`. -/
def Vec2.add (a b : Vec2 K) : Vec2 K := ⟨a.x + b.x, a.y + b.y⟩

/-- Componentwise `a - b`. -/
def Vec2.sub (a b : Vec2 K) : Vec2 K := ⟨a.x - b.x, a.y - b.y⟩

/-- Scaling `v * s` (also `s * v`). -/
def Vec2.scale (v : Vec2 K) (s : K) : Vec2 K := ⟨v.x * s, v.y * s⟩

/-- The function `glm::dot` on `vec2`. -/
def Vec2.dot (a b : Vec2 K) : K := a.x * b.x + a.y * b.y

/-- The function `glm::length` on `vec2`: `sqrt(dot(v, v))`. -/
def Vec2.length (m : MathLib K) (v : Vec2 K) : K := m.sqrt (v.dot v)

/-- The function `glm::normalize` on `vec2`: `v * inversesqrt(dot(v, v))`. -/
def Vec2.normalize (m : MathLib K) (v : Vec2 K) : Vec2 K := v.scale (1 / m.sqrt (v.dot v))

/-- Componentwise `a + b`. -/
def Vec3.add (a b : Vec3 K) : Vec3 K := ⟨a.x + b.x, a.y + b.y, a.z + b.z⟩

/-- Componentwise `a - b`. -/
def Vec3.sub (a b : Vec3 K) : Vec3 K := ⟨a.x - b.x, a.y - b.y, a.z - b.z⟩

/-- Scaling `v * s` (also `s * v`). -/
def Vec3.scale (v : Vec3 K) (s : K) : Vec3 K := ⟨v.x * s, v.y * s, v.z * s⟩

/-- Division `v / s` by a scalar. -/
def Vec3.divs (v : Vec3 K) (s : K) : Vec3 K := ⟨v.x / s, v.y / s, v.z / s⟩

/-- The function `glm::dot` on `vec3`. -/
def Vec3.dot (a b : Vec3 K) : K := a.x * b.x + a.y * b.y + a.z * b.z

/-- The function `glm::cross`. -/
def Vec3.cross (a b : Vec3 K) : Vec3 K :=
  ⟨a.y * b.z - b.y * a.z, a.z * b.x - b.z * a.x, a.x * b.y - b.x * a.y⟩

/-- The function `glm::length` on `vec3`: `sqrt(dot(v, v))`. -/
def Vec3.length (m : MathLib K) (v : Vec3 K) : K := m.sqrt (v.dot v)

/-- The function `glm::normalize` on `vec3`: `v * inversesqrt(dot(v, v))`. -/
def Vec3.normalize (m : MathLib K) (v : Vec3 K) : Vec3 K := v.scale (1 / m.sqrt (v.dot v))

/-- The constructor `glm::vec3(s)`: all components equal. -/
def Vec3.splat (s : K) : Vec3 K := ⟨s, s, s⟩

/-- The function `glm::angleAxis(angle, axis)`. -/
def Quat.angleAxis (m : MathLib K) (angle : K) (v : Vec3 K) : Quat K :=
  let s := m.sin (angle * (1 / 2))
  ⟨m.cos (angle * (1 / 2)), v.x * s, v.y * s, v.z * s⟩

/-- Quaternion product `p * q`. -/
def Quat.mul (p q : Quat K) : Quat K :=
  ⟨p.w * q.w - p.x * q.x - p.y * q.y - p.z * q.z,
   p.w * q.x + p.x * q.w + p.y * q.z - p.z * q.y,
   p.w * q.y + p.y * q.w + p.z * q.x - p.x * q.z,
   p.w * q.z + p.z * q.w + p.x * q.y - p.y * q.x⟩

/-- The function `glm::normalize` on quaternions (identity quaternion when the length is `<= 0`). -/
def Quat.normalize (m : MathLib K) (q : Quat K) : Quat K :=
  let len := m.sqrt (q.x * q.x + q.y * q.y + q.z * q.z + q.w * q.w)
  if len ≤ 0 then ⟨1, 0, 0, 0⟩
  else ⟨q.w * (1 / len), q.x * (1 / len), q.y * (1 / len), q.z * (1 / len)⟩

/-- The function `glm::clamp(x, lo, hi)` = `min(max(x, lo), hi)`. -/
def clamp {α : Type} [LinearOrder α] (x lo hi : α) : α := min (max x lo) hi

/-- The conversion `static_cast<int>(x)`: truncation toward zero. -/
def truncToInt [FloorRing K] (x : K) : Int := if 0 ≤ x then ⌊x⌋ else ⌈x⌉

end Glm

/-! ## game_objects.h -/

/-- The struct `GameBall`. -/
structure GameBall (K : Type) where
  position : Vec3 K
  velocity : Vec3 K
  radius : K
  active : Bool
  object_name : String
  object_id : Int
  texture_unit_index : Int
  shader_object_id : Int
  orientation : Quat K
  angular_velocity : Vec3 K
deriving DecidableEq, Repr

/-- The struct `BoundingSegment`. -/
structure BoundingSegment (K : Type) where
  p1 : Vec3 K
  p2 : Vec3 K
deriving DecidableEq, Repr

/-- The struct `Pocket`. -/
structure Pocket (K : Type) where
  position : Vec3 K
  radius : K
deriving DecidableEq, Repr

/-! ## Constants of Colisoes.cpp (lines 12–26) -/

section Constants

variable {K : Type} [LinearOrderedField K]

/-- Constant `const float BALL_Y_AXIS = -0.2667f` -/
def BALL_Y_AXIS : K := -(2667 / 10000)

/-- Constant `const float BALL_VIRTUAL_RADIUS = 0.02625f` -/
def BALL_VIRTUAL_RADIUS : K := 2625 / 100000

/-- Constant `const float TABLE_WIDTH = 1.0415f` -/
def TABLE_WIDTH : K := 10415 / 10000

/-- Constant `const float TABLE_DEPTH = 2.2845f` -/
def TABLE_DEPTH : K := 22845 / 10000

/-- Constant `const float TABLE_HALF_WIDTH = TABLE_WIDTH / 2` -/
def TABLE_HALF_WIDTH : K := TABLE_WIDTH / 2

/-- Constant `const float TABLE_HALF_DEPTH = TABLE_DEPTH / 2` -/
def TABLE_HALF_DEPTH : K := TABLE_DEPTH / 2

/-- Constant `const float GRID_CELL_SIZE = BALL_VIRTUAL_RADIUS * 4.0f` -/
def GRID_CELL_SIZE : K := BALL_VIRTUAL_RADIUS * 4

/-- Constant `const float FELT_SURFACE_Y_ACTUAL = BALL_Y_AXIS - BALL_VIRTUAL_RADIUS` -/
def FELT_SURFACE_Y_ACTUAL : K := BALL_Y_AXIS - BALL_VIRTUAL_RADIUS

/-- Constant `const float GRAVITY = 9.8f` -/
def GRAVITY : K := 98 / 10

/-- Constant `const float RESTITUTION_COEFF = 0.8f` -/
def RESTITUTION_COEFF : K := 8 / 10

/-- Constant `const float BALL_FRICTION_FACTOR = 0.99f` -/
def BALL_FRICTION_FACTOR : K := 99 / 100

/-- Constant `const float VELOCITY_STOP_THRESHOLD = 0.01f` -/
def VELOCITY_STOP_THRESHOLD : K := 1 / 100

/-- Constant `const float FIXED_PHYSICS_DELTA_TIME = 1.0f / 120.0f` -/
def FIXED_PHYSICS_DELTA_TIME : K := 1 / 120

end Constants

/-- Constant `const int GRID_COLS = static_cast<int>(TABLE_WIDTH / GRID_CELL_SIZE) + 1` -/
def GRID_COLS : Int := truncToInt ((TABLE_WIDTH : ℚ) / GRID_CELL_SIZE) + 1

/-- Constant `const int GRID_ROWS = static_cast<int>(TABLE_DEPTH / GRID_CELL_SIZE) + 1` -/
def GRID_ROWS : Int := truncToInt ((TABLE_DEPTH : ℚ) / GRID_CELL_SIZE) + 1

/-! ## Colisoes.cpp: `updateSpatialGrid` -/

section Program

variable {K : Type} [LinearOrderedField K] [FloorRing K]

/-- The type `std::vector<std::vector<std::vector<size_t>>>` of the spatial grid. -/
abbrev Grid := List (List (List Nat))

/-- Lines 33, 35 (and 98, 100): clamped column of a position. -/
def cellCol (p : Vec3 K) : Int :=
  clamp (truncToInt ((p.x + TABLE_HALF_WIDTH) / GRID_CELL_SIZE)) 0 (GRID_COLS - 1)

/-- Lines 34, 36 (and 99, 101): clamped row of a position. -/
def cellRow (p : Vec3 K) : Int :=
  clamp (truncToInt ((p.z + TABLE_HALF_DEPTH) / GRID_CELL_SIZE)) 0 (GRID_ROWS - 1)

/-- Line 37: `spatialGrid[col][row].push_back(i)`. -/
def gridPush (g : Grid) (col row : Int) (i : Nat) : Grid :=
  g.modify (fun column => column.modify (fun bucket => bucket ++ [i]) row.toNat) col.toNat

/-- Line 108: the bucket `spatialGrid[c][r]`. -/
def gridBucket (g : Grid) (c r : Int) : List Nat := (g.getD c.toNat []).getD r.toNat []

/-- Line 30: `spatialGrid.assign(GRID_COLS, std::vector<std::vector<size_t>>(GRID_ROWS))`. -/
def emptyGrid : Grid := List.replicate GRID_COLS.toNat (List.replicate GRID_ROWS.toNat [])

/-- Lines 29–39: `updateSpatialGrid`. -/
def updateSpatialGrid (balls : List (GameBall K)) : Grid :=
  (List.range balls.length).foldl
    (fun g i =>
      match balls[i]? with
      | none => g
      | some b =>
        if !b.active then g
        else gridPush g (cellCol b.position) (cellRow b.position) i)
    emptyGrid

/-! ## Colisoes.cpp: `SimularColisoes`, the body of the loop over the balls -/

/-- Lines 62–63: gravity on the vertical velocity, then `position += velocity * dt`. -/
def applyGravityAndMove (b : GameBall K) : GameBall K :=
  let velocity : Vec3 K :=
    ⟨b.velocity.x, b.velocity.y - GRAVITY * FIXED_PHYSICS_DELTA_TIME, b.velocity.z⟩
  { b with velocity := velocity,
           position := b.position.add (velocity.scale FIXED_PHYSICS_DELTA_TIME) }

/-- Lines 64–71: horizontal friction and the stop-threshold snap. -/
def applyFriction (m : MathLib K) (b : GameBall K) : GameBall K :=
  let vx := b.velocity.x * BALL_FRICTION_FACTOR
  let vz := b.velocity.z * BALL_FRICTION_FACTOR
  if Vec2.length m ⟨vx, vz⟩ < VELOCITY_STOP_THRESHOLD then
    { b with velocity := ⟨0, b.velocity.y, 0⟩ }
  else
    { b with velocity := ⟨vx, b.velocity.y, vz⟩ }

/-- Lines 73–86: angular velocity and orientation derived from the horizontal velocity. -/
def applyRolling (m : MathLib K) (b : GameBall K) : GameBall K :=
  let linear_velocity_xz : Vec3 K := ⟨b.velocity.x, 0, b.velocity.z⟩
  let linear_speed_xz := linear_velocity_xz.length m
  if linear_speed_xz > VELOCITY_STOP_THRESHOLD then
    let surface_normal : Vec3 K := ⟨0, 1, 0⟩
    let angular_velocity := (surface_normal.cross linear_velocity_xz).divs b.radius
    let frame_rotation :=
      Quat.angleAxis m (angular_velocity.length m * FIXED_PHYSICS_DELTA_TIME)
        (angular_velocity.normalize m)
    { b with angular_velocity := angular_velocity,
             orientation := Quat.normalize m (frame_rotation.mul b.orientation) }
  else
    { b with angular_velocity := Vec3.splat 0 }

/-- Lines 88–96: collision with the felt. -/
def floorCollision (b : GameBall K) : GameBall K :=
  if b.position.y - b.radius < FELT_SURFACE_Y_ACTUAL then
    let vy := b.velocity.y * -RESTITUTION_COEFF
    { b with position := ⟨b.position.x, FELT_SURFACE_Y_ACTUAL + b.radius, b.position.z⟩,
             velocity := ⟨b.velocity.x, if |vy| < VELOCITY_STOP_THRESHOLD then 0 else vy,
                          b.velocity.z⟩ }
  else b

/-- Lines 62–96: the integrator part of the loop body. -/
def integrate (m : MathLib K) (b : GameBall K) : GameBall K :=
  floorCollision (applyRolling m (applyFriction m (applyGravityAndMove b)))

/-- Lines 114–130: overlap test and resolution of the pair `(ball_A, ball_B)`. -/
def sphereSphere (m : MathLib K) (ball_A ball_B : GameBall K) : GameBall K × GameBall K :=
  let d := ball_A.position.sub ball_B.position
  let dist := d.length m
  let sum_r := ball_A.radius + ball_B.radius
  if dist < sum_r then
    let n := d.normalize m
    let penetration := sum_r - dist
    let A1 := { ball_A with position := ball_A.position.add (n.scale (penetration / 2)) }
    let B1 := { ball_B with position := ball_B.position.sub (n.scale (penetration / 2)) }
    let rel_vel := A1.velocity.sub B1.velocity
    let proj := rel_vel.dot n
    if proj > 0 then (A1, B1)
    else
      let impulse := n.scale (-(1 + RESTITUTION_COEFF) * proj / 2)
      ({ A1 with velocity := A1.velocity.add impulse },
       { B1 with velocity := B1.velocity.sub impulse })
  else (ball_A, ball_B)

/-- Lines 109–131: body of the loop over a bucket, `ball_A = balls[i]`, `ball_B = balls[j_idx]`. -/
def resolvePair (m : MathLib K) (i : Nat) (balls : List (GameBall K)) (j_idx : Nat) :
    List (GameBall K) :=
  if j_idx ≤ i then balls
  else
    match balls[i]?, balls[j_idx]? with
    | some ball_A, some ball_B =>
      if !ball_B.active then balls
      else
        let r := sphereSphere m ball_A ball_B
        (balls.set i r.1).set j_idx r.2
    | _, _ => balls

/-- Lines 98–132: the 3×3 neighbourhood loops around the cell of `balls[i]`. -/
def sphereCollisions (m : MathLib K) (grid : Grid) (i : Nat) (balls : List (GameBall K)) :
    List (GameBall K) :=
  match balls[i]? with
  | none => balls
  | some ball_A =>
    let col_A := cellCol ball_A.position
    let row_A := cellRow ball_A.position
    ([-1, 0, 1] : List Int).foldl
      (fun bs dc =>
        ([-1, 0, 1] : List Int).foldl
          (fun bs dr =>
            let c := col_A + dc
            let r := row_A + dr
            if 0 ≤ c ∧ c < GRID_COLS ∧ 0 ≤ r ∧ r < GRID_ROWS then
              (gridBucket grid c r).foldl (resolvePair m i) bs
            else bs)
          bs)
      balls

/-- Lines 135–156: response of `ball_A` to one segment of `pocketSegments`. -/
def pocketSegmentResponse (m : MathLib K) (ball_A : GameBall K) (seg : BoundingSegment K) :
    GameBall K :=
  let s : Vec2 K := ⟨seg.p2.x - seg.p1.x, seg.p2.z - seg.p1.z⟩
  let b : Vec2 K := ⟨ball_A.position.x - seg.p1.x, ball_A.position.z - seg.p1.z⟩
  let t := clamp (b.dot s / s.dot s) 0 1
  let cp := (Vec2.mk seg.p1.x seg.p1.z).add (s.scale t)
  let n := (Vec2.mk ball_A.position.x ball_A.position.z).sub cp
  let d := n.length m
  if d < ball_A.radius then
    let dir := n.normalize m
    let pen := ball_A.radius - d
    let position : Vec3 K :=
      ⟨ball_A.position.x + dir.x * pen, ball_A.position.y, ball_A.position.z + dir.y * pen⟩
    let v : Vec2 K := ⟨ball_A.velocity.x, ball_A.velocity.z⟩
    let dot := v.dot dir
    if dot < 0 then
      let rv := (v.sub (dir.scale (2 * dot))).scale RESTITUTION_COEFF
      { ball_A with position := position, velocity := ⟨rv.x, ball_A.velocity.y, rv.y⟩ }
    else { ball_A with position := position }
  else ball_A

/-- Lines 161–182: response of `ball_A` to one segment of `tableSegments`. -/
def tableSegmentResponse (m : MathLib K) (ball_A : GameBall K) (seg : BoundingSegment K) :
    GameBall K :=
  let s : Vec2 K := ⟨seg.p2.x - seg.p1.x, seg.p2.z - seg.p1.z⟩
  let b : Vec2 K := ⟨ball_A.position.x - seg.p1.x, ball_A.position.z - seg.p1.z⟩
  let t := clamp (b.dot s / s.dot s) 0 1
  let cp := (Vec2.mk seg.p1.x seg.p1.z).add (s.scale t)
  let n := (Vec2.mk ball_A.position.x ball_A.position.z).sub cp
  let d := n.length m
  if d < ball_A.radius then
    let dir := n.normalize m
    let pen := ball_A.radius - d
    let position : Vec3 K :=
      ⟨ball_A.position.x + dir.x * pen, ball_A.position.y, ball_A.position.z + dir.y * pen⟩
    let v : Vec2 K := ⟨ball_A.velocity.x, ball_A.velocity.z⟩
    let dot := v.dot dir
    if dot < 0 then
      let rv := (v.sub (dir.scale (2 * dot))).scale RESTITUTION_COEFF
      { ball_A with position := position, velocity := ⟨rv.x, ball_A.velocity.y, rv.y⟩ }
    else { ball_A with position := position }
  else ball_A

/-- Lines 135–140 (and 161–166): distance in the XZ plane from `position` to the closest point of
the segment, with the projection parameter clamped to `[0, 1]`. -/
def segmentDistance (m : MathLib K) (position : Vec3 K) (seg : BoundingSegment K) : K :=
  let s : Vec2 K := ⟨seg.p2.x - seg.p1.x, seg.p2.z - seg.p1.z⟩
  let b : Vec2 K := ⟨position.x - seg.p1.x, position.z - seg.p1.z⟩
  let t := clamp (b.dot s / s.dot s) 0 1
  let cp := (Vec2.mk seg.p1.x seg.p1.z).add (s.scale t)
  let n := (Vec2.mk position.x position.z).sub cp
  n.length m

/-- Line 188: the capture test `glm::length(ball_A.position - pocket.position) <=
ball_A.radius + pocket.radius`. -/
def inPocket (m : MathLib K) (ball_A : GameBall K) (pocket : Pocket K) : Prop :=
  (ball_A.position.sub pocket.position).length m ≤ ball_A.radius + pocket.radius

instance (m : MathLib K) (ball_A : GameBall K) (pocket : Pocket K) :
    Decidable (inPocket m ball_A pocket) := by
  unfold inPocket; infer_instance

/-- Lines 190–206: the effect of a capture on the ball and on `cueBallPositioningMode`. -/
def capture (ball_A : GameBall K) (cueBallPositioningMode : Bool) : GameBall K × Bool :=
  if ball_A.texture_unit_index = 0 then
    ({ ball_A with position := ⟨-(20 / 10000), BALL_Y_AXIS, 5680 / 10000⟩,
                   velocity := Vec3.splat 0 }, true)
  else
    ({ ball_A with active := false, position := Vec3.splat 1000, velocity := Vec3.splat 0 },
     cueBallPositioningMode)

/-- Lines 185–209: the loop over the pockets, left at the first capture (`break`). -/
def pocketLoop (m : MathLib K) :
    List (Pocket K) → GameBall K → Bool → GameBall K × Bool
  | [], ball_A, cueBallPositioningMode => (ball_A, cueBallPositioningMode)
  | pocket :: rest, ball_A, cueBallPositioningMode =>
    if inPocket m ball_A pocket then capture ball_A cueBallPositioningMode
    else pocketLoop m rest ball_A cueBallPositioningMode

/-- The read-only arguments `tableSegments`, `pocketSegments`, `pockets`. -/
structure Scene (K : Type) where
  tableSegments : List (BoundingSegment K)
  pocketSegments : List (BoundingSegment K)
  pockets : List (Pocket K)

/-- The mutable arguments `balls`, `spatialGrid`, `cueBallPositioningMode`. -/
structure World (K : Type) where
  balls : List (GameBall K)
  spatialGrid : Grid
  cueBallPositioningMode : Bool

/-- Lines 62–183 for `ball_A = balls[i]`: integrator, sphere–sphere loops, pocket-entry segments,
table segments.  The result is the ball list with `balls[i]` as it stands before the pocket loop. -/
def moveAndCollide (m : MathLib K) (sc : Scene K) (grid : Grid) (i : Nat)
    (balls : List (GameBall K)) : List (GameBall K) :=
  match balls[i]? with
  | none => balls
  | some ball_A =>
    let balls := sphereCollisions m grid i (balls.set i (integrate m ball_A))
    match balls[i]? with
    | none => balls
    | some ball_A =>
      let ball_A := sc.pocketSegments.foldl (pocketSegmentResponse m) ball_A
      let ball_A := sc.tableSegments.foldl (tableSegmentResponse m) ball_A
      balls.set i ball_A

/-- Lines 185–209 for `ball_A = balls[i]`. -/
def pocketPhase (m : MathLib K) (sc : Scene K) (i : Nat) (w : World K) : World K :=
  match w.balls[i]? with
  | none => w
  | some ball_A =>
    let r := pocketLoop m sc.pockets ball_A w.cueBallPositioningMode
    { w with balls := w.balls.set i r.1, cueBallPositioningMode := r.2 }

/-- Lines 59–209: one iteration of `for (size_t i = 0; i < balls.size(); ++i)`. -/
def processBall (m : MathLib K) (sc : Scene K) (w : World K) (i : Nat) : World K :=
  match w.balls[i]? with
  | none => w
  | some ball_A =>
    if !ball_A.active then w
    else
      pocketPhase m sc i { w with balls := moveAndCollide m sc w.spatialGrid i w.balls }

/-- Lines 56–210: one physics sub-step (the body of the `while` loop without the accumulator). -/
def subStep (m : MathLib K) (sc : Scene K) (w : World K) : World K :=
  (List.range w.balls.length).foldl (processBall m sc)
    { w with spatialGrid := updateSpatialGrid w.balls }

/-- The world inside a sub-step just before the iteration `i` of the loop over the balls: the grid
is rebuilt and the iterations `0 .. i-1` are done.  `subStep` is `stateBefore` at `balls.size()`. -/
def stateBefore (m : MathLib K) (sc : Scene K) (w : World K) (i : Nat) : World K :=
  (List.range i).foldl (processBall m sc) { w with spatialGrid := updateSpatialGrid w.balls }

/-- Observation of one iteration of the loop over the balls: `balls[i]` is active, and at the
pocket loop (after lines 62–183) it has texture unit 0 and passes the capture test of line 188
for some pocket. -/
def cueCaptureAt (m : MathLib K) (sc : Scene K) (w : World K) (i : Nat) : Bool :=
  match w.balls[i]? with
  | none => false
  | some ball_A =>
    ball_A.active &&
      match (moveAndCollide m sc w.spatialGrid i w.balls)[i]? with
      | none => false
      | some ball_A =>
        decide (ball_A.texture_unit_index = 0) &&
          sc.pockets.any (fun pocket => decide (inPocket m ball_A pocket))

end Program

/-! ## Colisoes.cpp: `SimularColisoes`, the fixed-step loop -/

section Scheduler

variable {K : Type} [LinearOrderedField K]

/-- Lines 54–55 and 212–213: `while (physics_accumulator >= FIXED_PHYSICS_DELTA_TIME)
{ step; physics_accumulator -= FIXED_PHYSICS_DELTA_TIME; }` for an arbitrary loop body `step`. -/
def fixedStepLoop [FloorRing K] {σ : Type} (step : σ → σ) (acc : K) (s : σ) : K × σ :=
  if h : (FIXED_PHYSICS_DELTA_TIME : K) ≤ acc then
    fixedStepLoop step (acc - FIXED_PHYSICS_DELTA_TIME) (step s)
  else (acc, s)
termination_by (⌊acc / (FIXED_PHYSICS_DELTA_TIME : K)⌋).toNat
decreasing_by
  have hdt : (0 : K) < FIXED_PHYSICS_DELTA_TIME := by unfold FIXED_PHYSICS_DELTA_TIME; norm_num
  have e : (acc - FIXED_PHYSICS_DELTA_TIME) / (FIXED_PHYSICS_DELTA_TIME : K)
      = acc / FIXED_PHYSICS_DELTA_TIME - 1 := by
    field_simp
  have h1 : (1 : K) ≤ acc / FIXED_PHYSICS_DELTA_TIME := by
    rw [le_div_iff₀ hdt]; simpa using h
  have h2 : (1 : Int) ≤ ⌊acc / (FIXED_PHYSICS_DELTA_TIME : K)⌋ := by
    rw [Int.le_floor]; exact_mod_cast h1
  rw [e, Int.floor_sub_one]
  omega

/-- The state that persists between calls: the static accumulator and the caller's world. -/
structure SimState (K : Type) where
  physics_accumulator : K
  world : World K

/-- Lines 42–214: `SimularColisoes`. -/
def SimularColisoes [FloorRing K] (m : MathLib K) (sc : Scene K) (deltaTime : K) (st : SimState K) :
    SimState K :=
  let r := fixedStepLoop (subStep m sc) (st.physics_accumulator + deltaTime) st.world
  { physics_accumulator := r.1, world := r.2 }

end Scheduler

/-! ## Observations of the execution used to state theorems -/

section Observations

variable {K : Type} [LinearOrderedField K]

/-- A sequence of calls of `SimularColisoes` with the elapsed times of the list, in order. -/
def runCalls [FloorRing K] (m : MathLib K) (sc : Scene K) : List K → SimState K → SimState K
  | [], st => st
  | e :: es, st => runCalls m sc es (SimularColisoes m sc e st)

/-- The pockets whose test of line 188 is evaluated by the loop of lines 185–209, in order: the
loop is left (`break`) after the first pocket that passes. -/
def pocketLoopTested (m : MathLib K) : List (Pocket K) → GameBall K → List (Pocket K)
  | [], _ => []
  | pocket :: rest, ball_A =>
    if inPocket m ball_A pocket then [pocket] else pocket :: pocketLoopTested m rest ball_A

/-- Lines 135–146 (and 161–172): the position written by a segment response whose test
`d < radius` has passed: the centre pushed by `radius - d` along the unit vector from the closest
point of the segment. -/
def pushedPosition (m : MathLib K) (position : Vec3 K) (radius : K) (seg : BoundingSegment K) :
    Vec3 K :=
  let s : Vec2 K := ⟨seg.p2.x - seg.p1.x, seg.p2.z - seg.p1.z⟩
  let b : Vec2 K := ⟨position.x - seg.p1.x, position.z - seg.p1.z⟩
  let t := clamp (b.dot s / s.dot s) 0 1
  let cp := (Vec2.mk seg.p1.x seg.p1.z).add (s.scale t)
  let n := (Vec2.mk position.x position.z).sub cp
  let d := n.length m
  let dir := n.normalize m
  let pen := radius - d
  ⟨position.x + dir.x * pen, position.y, position.z + dir.y * pen⟩

/-- The bucket of the cell `(c, r)` of a grid, with natural numbers as coordinates. -/
def bucketAt (g : Grid) (c r : Nat) : List Nat := (g.getD c []).getD r []

/-- Whether `balls[i]` exists, is active and has `(c, r)` as clamped cell coordinates. -/
def inCell [FloorRing K] (balls : List (GameBall K)) (c r : Nat) (i : Nat) : Bool :=
  match balls[i]? with
  | none => false
  | some b =>
    b.active && decide (cellCol b.position = (c : Int)) && decide (cellRow b.position = (r : Int))

/-- Lines 32–37: the body of the loop of `updateSpatialGrid` for the index `i`. -/
def gridStep [FloorRing K] (balls : List (GameBall K)) (g : Grid) (i : Nat) : Grid :=
  match balls[i]? with
  | none => g
  | some b =>
    if !b.active then g
    else gridPush g (cellCol b.position) (cellRow b.position) i

/-- Lines 103–106: the cells `(col_A + dc, row_A + dr)` in the order of the two loops. -/
def neighbourCells (col_A row_A : Int) : List (Int × Int) :=
  ([-1, 0, 1] : List Int).flatMap
    (fun dc => ([-1, 0, 1] : List Int).map (fun dr => (col_A + dc, row_A + dr)))

/-- Lines 103–108: the cells whose bucket is read, those that pass the test of line 107. -/
def visitedCells (col_A row_A : Int) : List (Int × Int) :=
  (neighbourCells col_A row_A).filter
    (fun cr => decide (0 ≤ cr.1 ∧ cr.1 < GRID_COLS ∧ 0 ≤ cr.2 ∧ cr.2 < GRID_ROWS))

/-- Lines 103–108: the indices `j_idx` met by the loops, in order. -/
def candidates (grid : Grid) (col_A row_A : Int) : List Nat :=
  (visitedCells col_A row_A).flatMap (fun cr => gridBucket grid cr.1 cr.2)

/-- The pairs `(i, j_idx)` for which lines 114–130 (overlap test and resolution) are executed
while the loops for `ball_A = balls[i]` run over the indices of the list: those that pass the
two `continue` of lines 110 and 112. -/
def pairTests (m : MathLib K) (i : Nat) : List Nat → List (GameBall K) → List (Nat × Nat)
  | [], _ => []
  | j_idx :: rest, balls =>
    (if j_idx ≤ i then []
     else
      match balls[i]?, balls[j_idx]? with
      | some _, some ball_B => if !ball_B.active then [] else [(i, j_idx)]
      | _, _ => []) ++ pairTests m i rest (resolvePair m i balls j_idx)

/-- The pairs for which lines 114–130 are executed in the iteration `i` of the loop over the
balls, started in the world `w`. -/
def iterationPairTests [FloorRing K] (m : MathLib K) (w : World K) (i : Nat) :
    List (Nat × Nat) :=
  match w.balls[i]? with
  | none => []
  | some ball_A =>
    if !ball_A.active then []
    else
      pairTests m i
        (candidates w.spatialGrid (cellCol (integrate m ball_A).position)
          (cellRow (integrate m ball_A).position))
        (w.balls.set i (integrate m ball_A))

/-- The pairs for which lines 114–130 are executed in one sub-step, in order of execution. -/
def subStepPairTests [FloorRing K] (m : MathLib K) (sc : Scene K) (w : World K) :
    List (Nat × Nat) :=
  (List.range w.balls.length).flatMap
    (fun i => iterationPairTests m (stateBefore m sc w i) i)

/-- The order of the system overview of the specification for the segment responses of one
ball: the table (cushion) segments first, then the pocket-entry segments. -/
def segmentsCushionFirst (m : MathLib K) (sc : Scene K) (ball_A : GameBall K) : GameBall K :=
  sc.pocketSegments.foldl (pocketSegmentResponse m)
    (sc.tableSegments.foldl (tableSegmentResponse m) ball_A)

/-- Lines 135–138 (and 161–164): the closest point `cp` of the segment in the XZ plane. -/
def closestPoint (position : Vec3 K) (seg : BoundingSegment K) : Vec2 K :=
  let s : Vec2 K := ⟨seg.p2.x - seg.p1.x, seg.p2.z - seg.p1.z⟩
  let b : Vec2 K := ⟨position.x - seg.p1.x, position.z - seg.p1.z⟩
  let t := clamp (b.dot s / s.dot s) 0 1
  (Vec2.mk seg.p1.x seg.p1.z).add (s.scale t)

end Observations

/-- Lines 62 and 91 for a ball that hits the felt in every sub-step: the vertical velocity after
`n` sub-steps when it starts at 0 (`velocity.y -= GRAVITY * FIXED_PHYSICS_DELTA_TIME`, then
`velocity.y *= -RESTITUTION_COEFF`). -/
def reboundVelocity {K : Type} [LinearOrderedField K] : Nat → K
  | 0 => 0
  | n + 1 => (reboundVelocity n - GRAVITY * FIXED_PHYSICS_DELTA_TIME) * -RESTITUTION_COEFF

/-! ## Binary32 arithmetic

The type `float` of the program is IEEE 754 binary32.  The definitions of this section compute
with it as the hardware does in the default rounding mode: every operation returns the
representable number nearest to the exact result, ties to the even mantissa, with gradual
underflow, overflow to infinity and NaN.  The sign of zero is not represented.  The glm functions
are the generic ones of glm (`dot` adds the products from left to right, `length` is
`sqrt(dot(v, v))`, `normalize` is `v * (1 / sqrt(dot(v, v)))`); no operations are fused.
-/

/-- A value of the type `float`: the finite number `m * 2^e`, an infinity, or NaN.  The results
of the operations are in canonical form: `|m| < 2^24` and `-149 ≤ e ≤ 104`, with
`2^23 ≤ |m|` unless `e = -149` (subnormal numbers), and zero is `finite 0 0`. -/
inductive Binary32 where
  | finite (m e : Int)
  | inf (negative : Bool)
  | nan
deriving DecidableEq, Repr

/-- Number of binary digits of a natural number below `2^fuel`. -/
def bitLengthAux : Nat → Nat → Nat
  | 0, _ => 0
  | fuel + 1, n => if n = 0 then 0 else bitLengthAux fuel (n / 2) + 1

/-- Number of binary digits of a natural number below `2^400`. -/
def bitLength (n : Nat) : Nat := bitLengthAux 400 n

/-- The quotient `n / 2^sh` rounded to the nearest integer, ties to even. -/
def roundHalfEven (n sh : Nat) : Nat :=
  let q := n / 2 ^ sh
  let r := n % 2 ^ sh
  let half := 2 ^ (sh - 1)
  if r < half then q else if half < r then q + 1 else if q % 2 = 0 then q else q + 1

/-- The binary32 number nearest to `m * 2^e`, ties to even: 24 significant bits, the last place
not below `2^(-149)`, infinity from `2^128 - 2^103` on. -/
def Binary32.round (m e : Int) : Binary32 :=
  let len := bitLength m.natAbs
  let e1 : Int := max (e + (len : Int) - 24) (-149)
  let q : Nat :=
    if e1 ≤ e then m.natAbs * 2 ^ (e - e1).toNat else roundHalfEven m.natAbs (e1 - e).toNat
  let q2 : Nat := if q = 2 ^ 24 then 2 ^ 23 else q
  let e2 : Int := if q = 2 ^ 24 then e1 + 1 else e1
  if q2 = 0 then .finite 0 0
  else if 104 < e2 then .inf (decide (m < 0))
  else .finite (if m < 0 then -(q2 : Int) else (q2 : Int)) e2

/-- The number 0. -/
def Binary32.zero : Binary32 := .finite 0 0

/-- The conversion of an integer (an `int` operand of a `float` operation, or a literal such as
`2.0f`). -/
def Binary32.ofInt (n : Int) : Binary32 := Binary32.round n 0

/-- The operation `a + b` of binary32. -/
def Binary32.add : Binary32 → Binary32 → Binary32
  | .finite m1 e1, .finite m2 e2 =>
    Binary32.round (m1 * 2 ^ (e1 - min e1 e2).toNat + m2 * 2 ^ (e2 - min e1 e2).toNat) (min e1 e2)
  | .finite _ _, .inf s => .inf s
  | .inf s, .finite _ _ => .inf s
  | .inf s, .inf t => if s = t then .inf s else .nan
  | .nan, _ => .nan
  | .finite _ _, .nan => .nan
  | .inf _, .nan => .nan

/-- The operation `-a` of binary32. -/
def Binary32.neg : Binary32 → Binary32
  | .finite m e => .finite (-m) e
  | .inf s => .inf (!s)
  | .nan => .nan

/-- The operation `a - b` of binary32. -/
def Binary32.sub (a b : Binary32) : Binary32 := a.add b.neg

/-- The operation `a * b` of binary32. -/
def Binary32.mul : Binary32 → Binary32 → Binary32
  | .finite m1 e1, .finite m2 e2 => Binary32.round (m1 * m2) (e1 + e2)
  | .finite m _, .inf s => if m = 0 then .nan else .inf (xor (decide (m < 0)) s)
  | .inf s, .finite m _ => if m = 0 then .nan else .inf (xor s (decide (m < 0)))
  | .inf s, .inf t => .inf (xor s t)
  | .nan, _ => .nan
  | .finite _ _, .nan => .nan
  | .inf _, .nan => .nan

/-- The operation `a / b` of binary32: the quotient of the mantissas is computed with a sticky
bit and rounded once; `x / 0` is an infinity for `x ≠ 0` and NaN for `x = 0`. -/
def Binary32.div : Binary32 → Binary32 → Binary32
  | .finite m1 e1, .finite m2 e2 =>
    if m2 = 0 then (if m1 = 0 then .nan else .inf (decide (m1 < 0)))
    else
      let k := 27 + bitLength m2.natAbs
      let num := m1.natAbs * 2 ^ k
      let q := num / m2.natAbs
      let sticky : Nat := if num % m2.natAbs = 0 then 0 else 1
      let n : Int := ((2 * q + sticky : Nat) : Int)
      Binary32.round (if decide (m1 < 0) = decide (m2 < 0) then n else -n)
        (e1 - e2 - (k : Int) - 1)
  | .finite _ _, .inf _ => .finite 0 0
  | .inf s, .finite m _ => .inf (xor s (decide (m < 0)))
  | .inf _, .inf _ => .nan
  | .nan, _ => .nan
  | .finite _ _, .nan => .nan
  | .inf _, .nan => .nan

/-- Integer square root, one binary digit at a time. -/
def isqrtAux (n : Nat) : Nat → Nat → Nat
  | 0, r => r
  | b + 1, r => if (r + 2 ^ b) * (r + 2 ^ b) ≤ n then isqrtAux n b (r + 2 ^ b) else isqrtAux n b r

/-- Integer square root: the largest `s` with `s * s ≤ n`. -/
def isqrt (n : Nat) : Nat := isqrtAux n (bitLength n / 2 + 1) 0

/-- The function `sqrt` of binary32, correctly rounded; NaN for a negative argument. -/
def Binary32.sqrt : Binary32 → Binary32
  | .finite m e =>
    if m < 0 then .nan
    else
      let k : Nat := if (e - 60) % 2 = 0 then 60 else 61
      let n := m.natAbs * 2 ^ k
      let s := isqrt n
      let sticky : Nat := if s * s = n then 0 else 1
      Binary32.round ((2 * s + sticky : Nat) : Int) ((e - (k : Int)) / 2 - 1)
  | .inf s => if s then .nan else .inf false
  | .nan => .nan

/-- The comparison `a < b` (false when an operand is NaN). -/
def Binary32.lt : Binary32 → Binary32 → Bool
  | .finite m1 e1, .finite m2 e2 =>
    decide (m1 * 2 ^ (e1 - min e1 e2).toNat < m2 * 2 ^ (e2 - min e1 e2).toNat)
  | .finite _ _, .inf s => !s
  | .inf s, .finite _ _ => s
  | .inf s, .inf t => s && !t
  | .nan, _ => false
  | .finite _ _, .nan => false
  | .inf _, .nan => false

/-- The comparison `a <= b` (false when an operand is NaN). -/
def Binary32.le : Binary32 → Binary32 → Bool
  | .finite m1 e1, .finite m2 e2 =>
    decide (m1 * 2 ^ (e1 - min e1 e2).toNat ≤ m2 * 2 ^ (e2 - min e1 e2).toNat)
  | .finite _ _, .inf s => !s
  | .inf s, .finite _ _ => s
  | .inf s, .inf t => s || !t
  | .nan, _ => false
  | .finite _ _, .nan => false
  | .inf _, .nan => false

/-- The function `glm::max(a, b)`: `(a < b) ? b : a`. -/
def Binary32.fmax (a b : Binary32) : Binary32 := if a.lt b then b else a

/-- The function `glm::min(a, b)`: `(b < a) ? b : a`. -/
def Binary32.fmin (a b : Binary32) : Binary32 := if b.lt a then b else a

/-- The function `glm::clamp(x, lo, hi)` = `min(max(x, lo), hi)`. -/
def Binary32.clamp (x lo hi : Binary32) : Binary32 := (x.fmax lo).fmin hi

/-- The exact value of a finite binary32 number (0 for an infinity and for NaN). -/
def Binary32.toRat : Binary32 → ℚ
  | .finite m e => (m : ℚ) * (2 : ℚ) ^ e
  | .inf _ => 0
  | .nan => 0

/-- The conversion `static_cast<int>`: truncation toward zero; `none` (undefined behaviour) when
the truncated value is outside the range of `int`, for an infinity and for NaN. -/
def Binary32.toInt : Binary32 → Option Int
  | .finite m e =>
    let t : Int :=
      if 0 ≤ e then m * 2 ^ e.toNat
      else if 0 ≤ m then ((m.natAbs / 2 ^ (-e).toNat : Nat) : Int)
      else -((m.natAbs / 2 ^ (-e).toNat : Nat) : Int)
    if -2147483648 ≤ t ∧ t ≤ 2147483647 then some t else none
  | .inf _ => none
  | .nan => none

/-- The decimal literal `p / q` with suffix `f` (`0.02625f` is `lit 2625 100000`): the binary32
number nearest to the quotient of the integers `p` and `q > 0`. -/
def Binary32.lit (p q : Int) : Binary32 := Binary32.div (.finite p 0) (.finite q 0)

/-- A number, as opposed to an infinity or NaN. -/
def Binary32.isFinite : Binary32 → Bool
  | .finite _ _ => true
  | .inf _ => false
  | .nan => false

/-- A positive number in canonical form (the last place is not below `2^(-149)`), or `+inf`. -/
def Binary32.isPositive : Binary32 → Bool
  | .finite m e => decide (0 < m) && decide (-149 ≤ e)
  | .inf s => !s
  | .nan => false

/-! ## Colisoes.cpp in binary32 -/

/-- Constant `const float BALL_VIRTUAL_RADIUS = 0.02625f` -/
def BALL_VIRTUAL_RADIUS32 : Binary32 := Binary32.lit 2625 100000

/-- Constant `const float TABLE_WIDTH = 1.0415f` -/
def TABLE_WIDTH32 : Binary32 := Binary32.lit 10415 10000

/-- Constant `const float TABLE_DEPTH = 2.2845f` -/
def TABLE_DEPTH32 : Binary32 := Binary32.lit 22845 10000

/-- Constant `const float TABLE_HALF_WIDTH = TABLE_WIDTH / 2` -/
def TABLE_HALF_WIDTH32 : Binary32 := TABLE_WIDTH32.div (Binary32.ofInt 2)

/-- Constant `const float TABLE_HALF_DEPTH = TABLE_DEPTH / 2` -/
def TABLE_HALF_DEPTH32 : Binary32 := TABLE_DEPTH32.div (Binary32.ofInt 2)

/-- Constant `const float GRID_CELL_SIZE = BALL_VIRTUAL_RADIUS * 4.0f` -/
def GRID_CELL_SIZE32 : Binary32 := BALL_VIRTUAL_RADIUS32.mul (Binary32.ofInt 4)

/-- Constant `const float RESTITUTION_COEFF = 0.8f` -/
def RESTITUTION_COEFF32 : Binary32 := Binary32.lit 8 10

/-- Constant `const int GRID_COLS = static_cast<int>(TABLE_WIDTH / GRID_CELL_SIZE) + 1` -/
def GRID_COLS32 : Option Int := (TABLE_WIDTH32.div GRID_CELL_SIZE32).toInt.map (fun c => c + 1)

/-- Constant `const int GRID_ROWS = static_cast<int>(TABLE_DEPTH / GRID_CELL_SIZE) + 1` -/
def GRID_ROWS32 : Option Int := (TABLE_DEPTH32.div GRID_CELL_SIZE32).toInt.map (fun c => c + 1)

/-- Componentwise `a + b` on `glm::vec3`. -/
def Vec3.add32 (a b : Vec3 Binary32) : Vec3 Binary32 := ⟨a.x.add b.x, a.y.add b.y, a.z.add b.z⟩

/-- Componentwise `a - b` on `glm::vec3`. -/
def Vec3.sub32 (a b : Vec3 Binary32) : Vec3 Binary32 := ⟨a.x.sub b.x, a.y.sub b.y, a.z.sub b.z⟩

/-- Scaling `v * s` on `glm::vec3`. -/
def Vec3.scale32 (v : Vec3 Binary32) (s : Binary32) : Vec3 Binary32 :=
  ⟨v.x.mul s, v.y.mul s, v.z.mul s⟩

/-- Scaling `s * v` on `glm::vec3`. -/
def Vec3.lscale32 (s : Binary32) (v : Vec3 Binary32) : Vec3 Binary32 :=
  ⟨s.mul v.x, s.mul v.y, s.mul v.z⟩

/-- The function `glm::dot` on `vec3`: `a.x * b.x + a.y * b.y + a.z * b.z`, added from left to
right. -/
def Vec3.dot32 (a b : Vec3 Binary32) : Binary32 :=
  ((a.x.mul b.x).add (a.y.mul b.y)).add (a.z.mul b.z)

/-- The function `glm::length` on `vec3`: `sqrt(dot(v, v))`. -/
def Vec3.length32 (v : Vec3 Binary32) : Binary32 := (v.dot32 v).sqrt

/-- The function `glm::normalize` on `vec3`: `v * inversesqrt(dot(v, v))`, where
`inversesqrt(x)` is `1 / sqrt(x)`. -/
def Vec3.normalize32 (v : Vec3 Binary32) : Vec3 Binary32 :=
  v.scale32 ((Binary32.ofInt 1).div (v.dot32 v).sqrt)

/-- The exact values of the components. -/
def Vec3.toRat (v : Vec3 Binary32) : Vec3 ℚ := ⟨v.x.toRat, v.y.toRat, v.z.toRat⟩

/-- The exact square of the distance between two points. -/
def Vec3.distSq32 (a b : Vec3 Binary32) : ℚ := (a.toRat.sub b.toRat).dot (a.toRat.sub b.toRat)

/-- The exact values of the end points. -/
def BoundingSegment.toRat (seg : BoundingSegment Binary32) : BoundingSegment ℚ :=
  ⟨seg.p1.toRat, seg.p2.toRat⟩

/-- The exact square of the distance in the XZ plane from a position to the closest point of a
segment (projection parameter clamped to [0, 1]). -/
def segmentDistSq32 (position : Vec3 Binary32) (seg : BoundingSegment Binary32) : ℚ :=
  ((Vec2.mk position.toRat.x position.toRat.z).sub (closestPoint position.toRat seg.toRat)).dot
    ((Vec2.mk position.toRat.x position.toRat.z).sub (closestPoint position.toRat seg.toRat))

/-- Componentwise `a + b` on `glm::vec2`. -/
def Vec2.add32 (a b : Vec2 Binary32) : Vec2 Binary32 := ⟨a.x.add b.x, a.y.add b.y⟩

/-- Componentwise `a - b` on `glm::vec2`. -/
def Vec2.sub32 (a b : Vec2 Binary32) : Vec2 Binary32 := ⟨a.x.sub b.x, a.y.sub b.y⟩

/-- Scaling `v * s` on `glm::vec2`. -/
def Vec2.scale32 (v : Vec2 Binary32) (s : Binary32) : Vec2 Binary32 := ⟨v.x.mul s, v.y.mul s⟩

/-- Scaling `s * v` on `glm::vec2`. -/
def Vec2.lscale32 (s : Binary32) (v : Vec2 Binary32) : Vec2 Binary32 := ⟨s.mul v.x, s.mul v.y⟩

/-- The function `glm::dot` on `vec2`: `a.x * b.x + a.y * b.y`. -/
def Vec2.dot32 (a b : Vec2 Binary32) : Binary32 := (a.x.mul b.x).add (a.y.mul b.y)

/-- The function `glm::length` on `vec2`: `sqrt(dot(v, v))`. -/
def Vec2.length32 (v : Vec2 Binary32) : Binary32 := (v.dot32 v).sqrt

/-- The function `glm::normalize` on `vec2`: `v * inversesqrt(dot(v, v))`. -/
def Vec2.normalize32 (v : Vec2 Binary32) : Vec2 Binary32 :=
  v.scale32 ((Binary32.ofInt 1).div (v.dot32 v).sqrt)

/-- Lines 114–130 in binary32: overlap test and resolution of the pair `(ball_A, ball_B)`. -/
def sphereSphere32 (ball_A ball_B : GameBall Binary32) :
    GameBall Binary32 × GameBall Binary32 :=
  let d := ball_A.position.sub32 ball_B.position
  let dist := d.length32
  let sum_r := ball_A.radius.add ball_B.radius
  if dist.lt sum_r then
    let n := d.normalize32
    let penetration := sum_r.sub dist
    let A1 := { ball_A with
      position := ball_A.position.add32 (n.scale32 (penetration.div (Binary32.ofInt 2))) }
    let B1 := { ball_B with
      position := ball_B.position.sub32 (n.scale32 (penetration.div (Binary32.ofInt 2))) }
    let rel_vel := A1.velocity.sub32 B1.velocity
    let proj := rel_vel.dot32 n
    if Binary32.zero.lt proj then (A1, B1)
    else
      let impulse := Vec3.lscale32
        ((((Binary32.ofInt 1).add RESTITUTION_COEFF32).neg.mul proj).div (Binary32.ofInt 2)) n
      ({ A1 with velocity := A1.velocity.add32 impulse },
       { B1 with velocity := B1.velocity.sub32 impulse })
  else (ball_A, ball_B)

/-- Lines 109–131 in binary32: body of the loop over a bucket, `ball_A = balls[i]`,
`ball_B = balls[j_idx]`. -/
def resolvePair32 (i : Nat) (balls : List (GameBall Binary32)) (j_idx : Nat) :
    List (GameBall Binary32) :=
  if j_idx ≤ i then balls
  else
    match balls[i]?, balls[j_idx]? with
    | some ball_A, some ball_B =>
      if !ball_B.active then balls
      else
        let r := sphereSphere32 ball_A ball_B
        (balls.set i r.1).set j_idx r.2
    | _, _ => balls

/-- Lines 135–140 (and 161–166) in binary32: the distance `d` from the position to the closest
point of the segment. -/
def segmentDistance32 (position : Vec3 Binary32) (seg : BoundingSegment Binary32) : Binary32 :=
  let s : Vec2 Binary32 := ⟨seg.p2.x.sub seg.p1.x, seg.p2.z.sub seg.p1.z⟩
  let b : Vec2 Binary32 := ⟨position.x.sub seg.p1.x, position.z.sub seg.p1.z⟩
  let t := Binary32.clamp ((b.dot32 s).div (s.dot32 s)) (Binary32.ofInt 0) (Binary32.ofInt 1)
  let cp := (Vec2.mk seg.p1.x seg.p1.z).add32 (Vec2.lscale32 t s)
  let n := (Vec2.mk position.x position.z).sub32 cp
  n.length32

/-- Lines 135–156 in binary32: response of `ball_A` to one segment of `pocketSegments`. -/
def pocketSegmentResponse32 (ball_A : GameBall Binary32) (seg : BoundingSegment Binary32) :
    GameBall Binary32 :=
  let s : Vec2 Binary32 := ⟨seg.p2.x.sub seg.p1.x, seg.p2.z.sub seg.p1.z⟩
  let b : Vec2 Binary32 := ⟨ball_A.position.x.sub seg.p1.x, ball_A.position.z.sub seg.p1.z⟩
  let t := Binary32.clamp ((b.dot32 s).div (s.dot32 s)) (Binary32.ofInt 0) (Binary32.ofInt 1)
  let cp := (Vec2.mk seg.p1.x seg.p1.z).add32 (Vec2.lscale32 t s)
  let n := (Vec2.mk ball_A.position.x ball_A.position.z).sub32 cp
  let d := n.length32
  if d.lt ball_A.radius then
    let dir := n.normalize32
    let pen := ball_A.radius.sub d
    let position : Vec3 Binary32 :=
      ⟨ball_A.position.x.add (dir.x.mul pen), ball_A.position.y,
       ball_A.position.z.add (dir.y.mul pen)⟩
    let v : Vec2 Binary32 := ⟨ball_A.velocity.x, ball_A.velocity.z⟩
    let dot := v.dot32 dir
    if dot.lt Binary32.zero then
      let rv := (v.sub32 (Vec2.lscale32 ((Binary32.ofInt 2).mul dot) dir)).scale32
        RESTITUTION_COEFF32
      { ball_A with position := position, velocity := ⟨rv.x, ball_A.velocity.y, rv.y⟩ }
    else { ball_A with position := position }
  else ball_A

/-- Lines 161–182 in binary32: response of `ball_A` to one segment of `tableSegments`. -/
def tableSegmentResponse32 (ball_A : GameBall Binary32) (seg : BoundingSegment Binary32) :
    GameBall Binary32 :=
  let s : Vec2 Binary32 := ⟨seg.p2.x.sub seg.p1.x, seg.p2.z.sub seg.p1.z⟩
  let b : Vec2 Binary32 := ⟨ball_A.position.x.sub seg.p1.x, ball_A.position.z.sub seg.p1.z⟩
  let t := Binary32.clamp ((b.dot32 s).div (s.dot32 s)) (Binary32.ofInt 0) (Binary32.ofInt 1)
  let cp := (Vec2.mk seg.p1.x seg.p1.z).add32 (Vec2.lscale32 t s)
  let n := (Vec2.mk ball_A.position.x ball_A.position.z).sub32 cp
  let d := n.length32
  if d.lt ball_A.radius then
    let dir := n.normalize32
    let pen := ball_A.radius.sub d
    let position : Vec3 Binary32 :=
      ⟨ball_A.position.x.add (dir.x.mul pen), ball_A.position.y,
       ball_A.position.z.add (dir.y.mul pen)⟩
    let v : Vec2 Binary32 := ⟨ball_A.velocity.x, ball_A.velocity.z⟩
    let dot := v.dot32 dir
    if dot.lt Binary32.zero then
      let rv := (v.sub32 (Vec2.lscale32 ((Binary32.ofInt 2).mul dot) dir)).scale32
        RESTITUTION_COEFF32
      { ball_A with position := position, velocity := ⟨rv.x, ball_A.velocity.y, rv.y⟩ }
    else { ball_A with position := position }
  else ball_A

/-- Lines 33, 35 (and 98, 100) in binary32: clamped column of a position. -/
def cellCol32 (p : Vec3 Binary32) : Option Int := do
  let cols ← GRID_COLS32
  let c ← ((p.x.add TABLE_HALF_WIDTH32).div GRID_CELL_SIZE32).toInt
  pure (clamp c 0 (cols - 1))

/-- Lines 34, 36 (and 99, 101) in binary32: clamped row of a position. -/
def cellRow32 (p : Vec3 Binary32) : Option Int := do
  let rows ← GRID_ROWS32
  let r ← ((p.z.add TABLE_HALF_DEPTH32).div GRID_CELL_SIZE32).toInt
  pure (clamp r 0 (rows - 1))

/-- An active ball with the given position, velocity and radius in binary32. -/
def mkBall32 (position velocity : Vec3 Binary32) (radius : Binary32) : GameBall Binary32 :=
  { position := position, velocity := velocity, radius := radius, active := true,
    object_name := "", object_id := 0, texture_unit_index := 1,
    shader_object_id := 0,
    orientation := ⟨Binary32.ofInt 1, Binary32.zero, Binary32.zero, Binary32.zero⟩,
    angular_velocity := ⟨Binary32.zero, Binary32.zero, Binary32.zero⟩ }

/-- An active ball with the given position, velocity, radius and texture unit. -/
def mkBall {K : Type} [LinearOrderedField K] (position velocity : Vec3 K) (radius : K)
    (texture_unit_index : Int) : GameBall K :=
  { position := position, velocity := velocity, radius := radius, active := true,
    object_name := "", object_id := 0, texture_unit_index := texture_unit_index,
    shader_object_id := 0, orientation := ⟨1, 0, 0, 0⟩, angular_velocity := ⟨0, 0, 0⟩ }

/-- A math library on `ℚ` for inputs whose evaluation takes no root. -/
def ratMath : MathLib ℚ := ⟨fun x => x, fun _ => 0, fun _ => 1⟩

/-- A scene without segments and pockets. -/
def emptyScene {K : Type} : Scene K := ⟨[], [], []⟩

/-- A caller state with one resting cue ball and accumulator `acc`. -/
def oneBallState (acc : ℚ) : SimState ℚ :=
  ⟨acc, ⟨[mkBall ⟨0, BALL_Y_AXIS, 0⟩ ⟨0, 0, 0⟩ BALL_VIRTUAL_RADIUS 0], [], false⟩⟩

/-- First ball of an overlapping approaching pair: at the origin, at rest, radius 1. -/
def pairA {K : Type} [LinearOrderedField K] : GameBall K := mkBall ⟨0, 0, 0⟩ ⟨0, 0, 0⟩ 1 0

/-- Second ball of the pair: centre at distance 1, moving toward the first, radius 1. -/
def pairB {K : Type} [LinearOrderedField K] : GameBall K := mkBall ⟨1, 0, 0⟩ ⟨-1, 0, 0⟩ 1 1

/-- A pocketed object ball: inactive, at the sentinel position. -/
def pocketedBall : GameBall ℚ :=
  { mkBall ⟨1000, 1000, 1000⟩ ⟨0, 0, 0⟩ BALL_VIRTUAL_RADIUS 3 with active := false }

/-- A caller state with a resting cue ball and a pocketed object ball. -/
def twoBallState : SimState ℚ :=
  ⟨0, ⟨[mkBall ⟨0, BALL_Y_AXIS, 0⟩ ⟨0, 0, 0⟩ BALL_VIRTUAL_RADIUS 0, pocketedBall], [], false⟩⟩

/-- A world with a single slow ball: horizontal speed 0.001, resting height, no flag. -/
def slowBallWorld {K : Type} [LinearOrderedField K] : World K :=
  ⟨[mkBall ⟨0, BALL_Y_AXIS, 0⟩ ⟨1 / 1000, 0, 0⟩ BALL_VIRTUAL_RADIUS 5], [], false⟩

/-- The corner pocket of `main.cpp` line 618: centre at the resting height, radius 0.1. -/
def cornerPocket {K : Type} [LinearOrderedField K] : Pocket K :=
  ⟨⟨55 / 100, BALL_Y_AXIS, 119 / 100⟩, 1 / 10⟩

/-- A scene with the corner pocket and no segment. -/
def pocketScene {K : Type} [LinearOrderedField K] : Scene K := ⟨[], [], [cornerPocket]⟩

/-- The cue ball (texture unit 0) at rest at the centre of the corner pocket. -/
def cueAtPocket {K : Type} [LinearOrderedField K] : GameBall K :=
  mkBall ⟨55 / 100, BALL_Y_AXIS, 119 / 100⟩ ⟨0, 0, 0⟩ BALL_VIRTUAL_RADIUS 0

/-- An object ball (texture unit 1) at rest at the centre of the corner pocket. -/
def objectAtPocket {K : Type} [LinearOrderedField K] : GameBall K :=
  mkBall ⟨55 / 100, BALL_Y_AXIS, 119 / 100⟩ ⟨0, 0, 0⟩ BALL_VIRTUAL_RADIUS 1

/-- A caller state with the cue ball at the corner pocket as only ball, accumulator 0. -/
def cueAtPocketState {K : Type} [LinearOrderedField K] : SimState K :=
  ⟨0, ⟨[cueAtPocket], [], false⟩⟩

/-- A ball resting on the felt under the origin of the table (texture unit 1). -/
def lowerBall {K : Type} [LinearOrderedField K] : GameBall K :=
  mkBall ⟨0, BALL_Y_AXIS, 0⟩ ⟨0, 0, 0⟩ BALL_VIRTUAL_RADIUS 1

/-- A ball at rest one radius above `lowerBall`, overlapping it (texture unit 2). -/
def upperBall {K : Type} [LinearOrderedField K] : GameBall K :=
  mkBall ⟨0, BALL_Y_AXIS + BALL_VIRTUAL_RADIUS, 0⟩ ⟨0, 0, 0⟩ BALL_VIRTUAL_RADIUS 2

/-- A world with `lowerBall` at index 0 and `upperBall` at index 1. -/
def stackedWorld {K : Type} [LinearOrderedField K] : World K :=
  ⟨[lowerBall, upperBall], [], false⟩

/-- A caller state equal to `oneBallState` except for stale contents of the grid buffer. -/
def oneBallStateStaleGrid (acc : ℚ) : SimState ℚ :=
  ⟨acc, ⟨[mkBall ⟨0, BALL_Y_AXIS, 0⟩ ⟨0, 0, 0⟩ BALL_VIRTUAL_RADIUS 0], [[[7, 7]], [[3]]], false⟩⟩

/-- A pocket-entry segment along the line `x = -0.01`, from `z = -1` to `z = 1`. -/
def guardWall {K : Type} [LinearOrderedField K] : BoundingSegment K :=
  ⟨⟨-(1 / 100), BALL_Y_AXIS, -1⟩, ⟨-(1 / 100), BALL_Y_AXIS, 1⟩⟩

/-- A table (cushion) segment along the line `x = 0.02`, from `z = -1` to `z = 1`. -/
def cushionWall {K : Type} [LinearOrderedField K] : BoundingSegment K :=
  ⟨⟨2 / 100, BALL_Y_AXIS, -1⟩, ⟨2 / 100, BALL_Y_AXIS, 1⟩⟩

/-- A scene with `cushionWall` as table segment, `guardWall` as pocket segment, no pocket. -/
def wallScene {K : Type} [LinearOrderedField K] : Scene K := ⟨[cushionWall], [guardWall], []⟩

/-- A world with `lowerBall` as only ball. -/
def wallWorld {K : Type} [LinearOrderedField K] : World K := ⟨[lowerBall], [], false⟩

/-- A ball in free flight at the origin, well above the felt, rising with a vertical velocity
that one gravity step lowers to 0.005. -/
def flyingBall {K : Type} [LinearOrderedField K] : GameBall K :=
  mkBall ⟨0, 0, 0⟩ ⟨0, 98 / 1200 + 1 / 200, 0⟩ BALL_VIRTUAL_RADIUS 1

/-- A world with `flyingBall` as only ball. -/
def flyingWorld {K : Type} [LinearOrderedField K] : World K := ⟨[flyingBall], [], false⟩

/-- The vector (0, 0, 0). -/
def Vec3.zero32 : Vec3 Binary32 := ⟨Binary32.zero, Binary32.zero, Binary32.zero⟩

/-- A ball of radius 0.02625f at rest at the origin. -/
def nearA32 : GameBall Binary32 := mkBall32 Vec3.zero32 Vec3.zero32 BALL_VIRTUAL_RADIUS32

/-- A ball of radius 0.02625f at rest at (0, 0, 0.03f). -/
def nearB32 : GameBall Binary32 :=
  mkBall32 ⟨Binary32.zero, Binary32.zero, Binary32.lit 3 100⟩ Vec3.zero32 BALL_VIRTUAL_RADIUS32

/-- A ball of radius 0.02625f at the origin with velocity (0, 0, 0.5f). -/
def hitA32 : GameBall Binary32 :=
  mkBall32 Vec3.zero32 ⟨Binary32.zero, Binary32.zero, Binary32.lit 5 10⟩ BALL_VIRTUAL_RADIUS32

/-- A ball of radius 0.02625f at (0.01f, 0, 0.01f) with velocity (0.5f, 0, -1.0f). -/
def hitB32 : GameBall Binary32 :=
  mkBall32 ⟨Binary32.lit 1 100, Binary32.zero, Binary32.lit 1 100⟩
    ⟨Binary32.lit 5 10, Binary32.zero, Binary32.ofInt (-1)⟩ BALL_VIRTUAL_RADIUS32

/-- A ball of radius 0.02625f at rest at (0, 0, 0.1f). -/
def glanceA32 : GameBall Binary32 :=
  mkBall32 ⟨Binary32.zero, Binary32.zero, Binary32.lit 1 10⟩ Vec3.zero32 BALL_VIRTUAL_RADIUS32

/-- A ball of radius 0.02625f at (0.02f, 0, 0.08f) with velocity (1.0f, 0, 1.0f). -/
def glanceB32 : GameBall Binary32 :=
  mkBall32 ⟨Binary32.lit 2 100, Binary32.zero, Binary32.lit 8 100⟩
    ⟨Binary32.ofInt 1, Binary32.zero, Binary32.ofInt 1⟩ BALL_VIRTUAL_RADIUS32

/-- The segment from (0.005f, 0, -1.0f) to (0.005f, 0, 1.0f). -/
def nearWall32 : BoundingSegment Binary32 :=
  ⟨⟨Binary32.lit 5 1000, Binary32.zero, Binary32.ofInt (-1)⟩,
   ⟨Binary32.lit 5 1000, Binary32.zero, Binary32.ofInt 1⟩⟩

/-- The segment from (0.1f, 0, 0.1f) to (0.3f, 0, 0.3f). -/
def diagonal32 : BoundingSegment Binary32 :=
  ⟨⟨Binary32.lit 1 10, Binary32.zero, Binary32.lit 1 10⟩,
   ⟨Binary32.lit 3 10, Binary32.zero, Binary32.lit 3 10⟩⟩

/-- The segment `diagonal32` with its end points exchanged. -/
def diagonalSwapped32 : BoundingSegment Binary32 := ⟨diagonal32.p2, diagonal32.p1⟩

/-- A ball of radius 0.02625f at rest at (0.09f, 0, 0.08f). -/
def cornerBall32 : GameBall Binary32 :=
  mkBall32 ⟨Binary32.lit 9 100, Binary32.zero, Binary32.lit 8 100⟩ Vec3.zero32
    BALL_VIRTUAL_RADIUS32

/-- A ball of radius 0.0525f at rest at x = 0x1.bf7ce4p-4 (0.109249964f). -/
def cellA32 : GameBall Binary32 :=
  mkBall32 ⟨.finite 14663282 (-27), Binary32.zero, Binary32.zero⟩ Vec3.zero32
    (Binary32.lit 525 10000)

/-- A ball of radius 0.0525f at rest at x = 0x1.b6c8aep-3 (0.21424995f). -/
def cellB32 : GameBall Binary32 :=
  mkBall32 ⟨.finite 14378071 (-26), Binary32.zero, Binary32.zero⟩ Vec3.zero32
    (Binary32.lit 525 10000)

/-- A ball of radius 0.02625f at rest at (1e-30f, 0, 0). -/
def tinyA32 : GameBall Binary32 :=
  mkBall32 ⟨Binary32.lit 1 (10 ^ 30), Binary32.zero, Binary32.zero⟩ Vec3.zero32
    BALL_VIRTUAL_RADIUS32

theorem dt_pos {K : Type} [LinearOrderedField K] : (0 : K) < FIXED_PHYSICS_DELTA_TIME := by
  unfold FIXED_PHYSICS_DELTA_TIME; norm_num

section SchedulerTheorems

variable {K : Type} [LinearOrderedField K] [FloorRing K]

theorem floor_sub_dt (acc : K) :
    ⌊(acc - FIXED_PHYSICS_DELTA_TIME) / (FIXED_PHYSICS_DELTA_TIME : K)⌋
      = ⌊acc / (FIXED_PHYSICS_DELTA_TIME : K)⌋ - 1 := by
  have hdt : (FIXED_PHYSICS_DELTA_TIME : K) ≠ 0 := ne_of_gt dt_pos
  have e : (acc - FIXED_PHYSICS_DELTA_TIME) / (FIXED_PHYSICS_DELTA_TIME : K)
      = acc / FIXED_PHYSICS_DELTA_TIME - 1 := by
    field_simp
  rw [e, Int.floor_sub_one]

theorem dt_le_iff_one_le_floor (acc : K) :
    (FIXED_PHYSICS_DELTA_TIME : K) ≤ acc ↔ 1 ≤ ⌊acc / (FIXED_PHYSICS_DELTA_TIME : K)⌋ := by
  rw [Int.le_floor, le_div_iff₀ dt_pos]
  simp

/-- The loop runs `⌊acc / dt⌋` times (no time when that is negative) and leaves the remainder. -/
theorem fixedStepLoop_spec {σ : Type} (step : σ → σ) (n : Nat) :
    ∀ (acc : K) (s : σ), (⌊acc / (FIXED_PHYSICS_DELTA_TIME : K)⌋).toNat = n →
      fixedStepLoop step acc s = (acc - FIXED_PHYSICS_DELTA_TIME * n, step^[n] s) := by
  induction n with
  | zero =>
    intro acc s hn
    have hlt : ¬ (FIXED_PHYSICS_DELTA_TIME : K) ≤ acc := by
      rw [dt_le_iff_one_le_floor]; omega
    rw [fixedStepLoop]
    simp [hlt]
  | succ n ih =>
    intro acc s hn
    have hge : (FIXED_PHYSICS_DELTA_TIME : K) ≤ acc := by
      rw [dt_le_iff_one_le_floor]; omega
    have hn1 : (⌊(acc - FIXED_PHYSICS_DELTA_TIME) / (FIXED_PHYSICS_DELTA_TIME : K)⌋).toNat = n := by
      rw [floor_sub_dt]; omega
    rw [fixedStepLoop]
    simp only [hge, dite_true, dif_pos]
    rw [ih _ _ hn1, Function.iterate_succ_apply]
    congr 1
    push_cast
    ring

/-- The remainder `acc - dt * ⌊acc / dt⌋` lies in `[0, dt)`. -/
theorem remainder_bounds (acc : K) :
    0 ≤ acc - FIXED_PHYSICS_DELTA_TIME * (⌊acc / (FIXED_PHYSICS_DELTA_TIME : K)⌋ : K) ∧
    acc - FIXED_PHYSICS_DELTA_TIME * (⌊acc / (FIXED_PHYSICS_DELTA_TIME : K)⌋ : K)
      < FIXED_PHYSICS_DELTA_TIME := by
  have hdt : (0 : K) < FIXED_PHYSICS_DELTA_TIME := dt_pos
  have h1 := Int.floor_le (acc / (FIXED_PHYSICS_DELTA_TIME : K))
  have h2 := Int.lt_floor_add_one (acc / (FIXED_PHYSICS_DELTA_TIME : K))
  rw [le_div_iff₀ hdt] at h1
  rw [div_lt_iff₀ hdt] at h2
  constructor <;> nlinarith

theorem floor_div_dt_nonneg (acc : K) (h : 0 ≤ acc) :
    0 ≤ ⌊acc / (FIXED_PHYSICS_DELTA_TIME : K)⌋ :=
  Int.floor_nonneg.mpr (div_nonneg h (le_of_lt dt_pos))

theorem SimularColisoes_eq (m : MathLib K) (sc : Scene K) (e : K) (st : SimState K) :
    SimularColisoes m sc e st =
      { physics_accumulator := st.physics_accumulator + e - FIXED_PHYSICS_DELTA_TIME *
          ((⌊(st.physics_accumulator + e) / (FIXED_PHYSICS_DELTA_TIME : K)⌋).toNat : K),
        world := (subStep m sc)^[(⌊(st.physics_accumulator + e)
          / (FIXED_PHYSICS_DELTA_TIME : K)⌋).toNat] st.world } := by
  unfold SimularColisoes
  simp only [fixedStepLoop_spec (subStep m sc) _ _ _ rfl]

/-- C1. Fixed-step scheduler: with the accumulator `a` in `[0, 1/120)` at entry and
`elapsed_time = e ≥ 0`, one call to `SimularColisoes` runs the loop body exactly `⌊(a+e)/h⌋` times
(for the physics sub-step instrumented with a step counter the counter ends at that number, and
the world is the sub-step iterated that many times), leaves the accumulator at
`a + e - h * ⌊(a+e)/h⌋`, which is again in `[0, h)`; with `a = 0` and `e = 3h` the number is 3. -/
theorem C1_fixed_step_scheduler (m : MathLib K) (sc : Scene K) (st : SimState K) (e : K)
    (ha : 0 ≤ st.physics_accumulator)
    (_ha' : st.physics_accumulator < FIXED_PHYSICS_DELTA_TIME) (he : 0 ≤ e) :
    0 ≤ ⌊(st.physics_accumulator + e) / (FIXED_PHYSICS_DELTA_TIME : K)⌋ ∧
    fixedStepLoop (fun p : World K × Nat => (subStep m sc p.1, p.2 + 1))
        (st.physics_accumulator + e) (st.world, 0)
      = (st.physics_accumulator + e - FIXED_PHYSICS_DELTA_TIME *
            (⌊(st.physics_accumulator + e) / (FIXED_PHYSICS_DELTA_TIME : K)⌋ : K),
          ((subStep m sc)^[(⌊(st.physics_accumulator + e)
              / (FIXED_PHYSICS_DELTA_TIME : K)⌋).toNat] st.world,
           (⌊(st.physics_accumulator + e) / (FIXED_PHYSICS_DELTA_TIME : K)⌋).toNat)) ∧
    SimularColisoes m sc e st =
      { physics_accumulator := st.physics_accumulator + e - FIXED_PHYSICS_DELTA_TIME *
          (⌊(st.physics_accumulator + e) / (FIXED_PHYSICS_DELTA_TIME : K)⌋ : K),
        world := (subStep m sc)^[(⌊(st.physics_accumulator + e)
          / (FIXED_PHYSICS_DELTA_TIME : K)⌋).toNat] st.world } ∧
    0 ≤ (SimularColisoes m sc e st).physics_accumulator ∧
    (SimularColisoes m sc e st).physics_accumulator < FIXED_PHYSICS_DELTA_TIME ∧
    (st.physics_accumulator = 0 → e = 3 * FIXED_PHYSICS_DELTA_TIME →
      ⌊(st.physics_accumulator + e) / (FIXED_PHYSICS_DELTA_TIME : K)⌋ = 3) := by
  have hnn := floor_div_dt_nonneg (st.physics_accumulator + e) (add_nonneg ha he)
  have hcast : (((⌊(st.physics_accumulator + e) / (FIXED_PHYSICS_DELTA_TIME : K)⌋).toNat : Nat) : K)
      = ((⌊(st.physics_accumulator + e) / (FIXED_PHYSICS_DELTA_TIME : K)⌋ : Int) : K) := by
    have := Int.toNat_of_nonneg hnn
    exact_mod_cast congrArg (fun z : Int => (z : K)) this
  have hsim := SimularColisoes_eq m sc e st
  rw [hcast] at hsim
  have hrem := remainder_bounds (st.physics_accumulator + e)
  refine ⟨hnn, ?_, hsim, ?_, ?_, ?_⟩
  · rw [fixedStepLoop_spec _ _ _ _ rfl, hcast]
    congr 1
    generalize (⌊(st.physics_accumulator + e) / (FIXED_PHYSICS_DELTA_TIME : K)⌋).toNat = n
    generalize st.world = w
    induction n with
    | zero => rfl
    | succ n ih =>
      rw [Function.iterate_succ_apply', Function.iterate_succ_apply', ih]
  · rw [hsim]; exact hrem.1
  · rw [hsim]; exact hrem.2
  · intro h0 h3
    rw [h0, h3, zero_add, mul_div_assoc, div_self (ne_of_gt dt_pos), mul_one]
    have h3K : (3 : K) = ((3 : Int) : K) := by norm_num
    rw [h3K, Int.floor_intCast]

/-- Witness for C1: accumulator 0 and `elapsed_time = 3/120` on a one-ball world. -/
theorem C1_fixed_step_scheduler_witness :
    (0 : ℚ) ≤ (oneBallState 0).physics_accumulator ∧
    (oneBallState 0).physics_accumulator < FIXED_PHYSICS_DELTA_TIME ∧
    (0 : ℚ) ≤ 3 / 120 ∧
    (fixedStepLoop (fun p : World ℚ × Nat => (subStep ratMath emptyScene p.1, p.2 + 1))
        ((oneBallState 0).physics_accumulator + 3 / 120) ((oneBallState 0).world, 0)).2.2 = 3 := by
  have h0 : (0 : ℚ) ≤ (oneBallState 0).physics_accumulator := le_refl _
  have h1 : (oneBallState 0).physics_accumulator < FIXED_PHYSICS_DELTA_TIME := by
    show (0 : ℚ) < FIXED_PHYSICS_DELTA_TIME
    exact dt_pos
  have h2 : (0 : ℚ) ≤ 3 / 120 := by norm_num
  have h := C1_fixed_step_scheduler ratMath emptyScene (oneBallState 0) (3 / 120) h0 h1 h2
  have h3 : ⌊((oneBallState 0).physics_accumulator + 3 / 120) / (FIXED_PHYSICS_DELTA_TIME : ℚ)⌋
      = 3 := h.2.2.2.2.2 rfl (by unfold FIXED_PHYSICS_DELTA_TIME; norm_num)
  refine ⟨h0, h1, h2, ?_⟩
  rw [h.2.1, h3]
  rfl

/-- C2. Framerate independence: from an accumulator in `[0, 1/120)`, a call with `e1 ≥ 0`
followed by a call with `e2 ≥ 0` ends in the same state (spheres, grid, positioning flag and
accumulator) as a single call with `e1 + e2`. -/
theorem C2_framerate_independence (m : MathLib K) (sc : Scene K) (st : SimState K) (e1 e2 : K)
    (ha : 0 ≤ st.physics_accumulator)
    (ha' : st.physics_accumulator < FIXED_PHYSICS_DELTA_TIME)
    (h1 : 0 ≤ e1) (h2 : 0 ≤ e2) :
    SimularColisoes m sc e2 (SimularColisoes m sc e1 st) = SimularColisoes m sc (e1 + e2) st := by
  have hdt : (FIXED_PHYSICS_DELTA_TIME : K) ≠ 0 := ne_of_gt dt_pos
  obtain ⟨a, w⟩ := st
  simp only at ha ha'
  rw [SimularColisoes_eq m sc e1, SimularColisoes_eq m sc e2, SimularColisoes_eq m sc (e1 + e2)]
  simp only
  have hn1 := floor_div_dt_nonneg (a + e1) (add_nonneg ha h1)
  have hfl : ⌊(a + e1 - FIXED_PHYSICS_DELTA_TIME *
        ((⌊(a + e1) / (FIXED_PHYSICS_DELTA_TIME : K)⌋.toNat : Nat) : K) + e2)
        / (FIXED_PHYSICS_DELTA_TIME : K)⌋
      = ⌊(a + (e1 + e2)) / (FIXED_PHYSICS_DELTA_TIME : K)⌋
        - ⌊(a + e1) / (FIXED_PHYSICS_DELTA_TIME : K)⌋ := by
    have e : (a + e1 - FIXED_PHYSICS_DELTA_TIME *
        ((⌊(a + e1) / (FIXED_PHYSICS_DELTA_TIME : K)⌋.toNat : Nat) : K) + e2)
        / (FIXED_PHYSICS_DELTA_TIME : K)
        = (a + (e1 + e2)) / FIXED_PHYSICS_DELTA_TIME
          - ((⌊(a + e1) / (FIXED_PHYSICS_DELTA_TIME : K)⌋.toNat : Nat) : K) := by
      field_simp; ring
    rw [e, Int.floor_sub_nat, Int.toNat_of_nonneg hn1]
  have hmono : ⌊(a + e1) / (FIXED_PHYSICS_DELTA_TIME : K)⌋
      ≤ ⌊(a + (e1 + e2)) / (FIXED_PHYSICS_DELTA_TIME : K)⌋ := by
    apply Int.floor_mono
    apply div_le_div_of_nonneg_right _ (le_of_lt dt_pos)
    linarith
  have hsum : (⌊(a + (e1 + e2)) / (FIXED_PHYSICS_DELTA_TIME : K)⌋).toNat
      = (⌊(a + e1 - FIXED_PHYSICS_DELTA_TIME *
          ((⌊(a + e1) / (FIXED_PHYSICS_DELTA_TIME : K)⌋.toNat : Nat) : K) + e2)
          / (FIXED_PHYSICS_DELTA_TIME : K)⌋).toNat
        + (⌊(a + e1) / (FIXED_PHYSICS_DELTA_TIME : K)⌋).toNat := by
    rw [hfl]; omega
  rw [hsum, Function.iterate_add_apply]
  congr 1
  push_cast
  ring

/-- Witness for C2: accumulator 1/240, then `e1 = 1/100` and `e2 = 1/50`, on a one-ball world. -/
theorem C2_framerate_independence_witness :
    (0 : ℚ) ≤ (oneBallState (1 / 240)).physics_accumulator ∧
    (oneBallState (1 / 240)).physics_accumulator < FIXED_PHYSICS_DELTA_TIME ∧
    (0 : ℚ) ≤ 1 / 100 ∧ (0 : ℚ) ≤ 1 / 50 ∧
    SimularColisoes ratMath emptyScene (1 / 50)
        (SimularColisoes ratMath emptyScene (1 / 100) (oneBallState (1 / 240)))
      = SimularColisoes ratMath emptyScene (1 / 100 + 1 / 50) (oneBallState (1 / 240)) := by
  have h0 : (0 : ℚ) ≤ (oneBallState (1 / 240)).physics_accumulator := by
    show (0 : ℚ) ≤ 1 / 240
    norm_num
  have h1 : (oneBallState (1 / 240)).physics_accumulator < FIXED_PHYSICS_DELTA_TIME := by
    show (1 / 240 : ℚ) < FIXED_PHYSICS_DELTA_TIME
    unfold FIXED_PHYSICS_DELTA_TIME; norm_num
  exact ⟨h0, h1, by norm_num, by norm_num,
    C2_framerate_independence ratMath emptyScene (oneBallState (1 / 240)) (1 / 100) (1 / 50)
      h0 h1 (by norm_num) (by norm_num)⟩

end SchedulerTheorems

/-! ## Theorems: exact square roots and vectors -/

section VectorLemmas

variable {K : Type} [LinearOrderedField K]

theorem MathLib.Exact.sqrt_nonneg {m : MathLib K} (hm : m.Exact) {x : K} (hx : 0 ≤ x) :
    0 ≤ m.sqrt x := (hm x hx).1

theorem MathLib.Exact.sqrt_mul_self {m : MathLib K} (hm : m.Exact) {x : K} (hx : 0 ≤ x) :
    m.sqrt x * m.sqrt x = x := (hm x hx).2

/-- The exact root of a square of a non-negative number is that number. -/
theorem MathLib.Exact.sqrt_sq {m : MathLib K} (hm : m.Exact) {x : K} (hx : 0 ≤ x) :
    m.sqrt (x * x) = x := by
  have h0 := hm.sqrt_nonneg (mul_self_nonneg x)
  have h1 := hm.sqrt_mul_self (mul_self_nonneg x)
  exact (mul_self_inj h0 hx).mp h1

theorem MathLib.Exact.sqrt_zero {m : MathLib K} (hm : m.Exact) : m.sqrt 0 = 0 := by
  have h := hm.sqrt_sq (le_refl (0 : K))
  simpa using h

/-- The exact root of a positive number is positive. -/
theorem MathLib.Exact.sqrt_pos {m : MathLib K} (hm : m.Exact) {x : K} (hx : 0 < x) :
    0 < m.sqrt x := by
  have h0 := hm.sqrt_nonneg (le_of_lt hx)
  have h1 := hm.sqrt_mul_self (le_of_lt hx)
  rcases lt_or_eq_of_le h0 with h | h
  · exact h
  · rw [← h] at h1; simp at h1; exact absurd h1.symm (ne_of_gt hx)

theorem Vec3.dot_self_nonneg (v : Vec3 K) : 0 ≤ v.dot v := by
  unfold Vec3.dot
  nlinarith [mul_self_nonneg v.x, mul_self_nonneg v.y, mul_self_nonneg v.z]

/-- Distinct centres have a positive squared distance. -/
theorem Vec3.dot_sub_self_pos {a b : Vec3 K} (h : a ≠ b) : 0 < (a.sub b).dot (a.sub b) := by
  rcases lt_or_eq_of_le (Vec3.dot_self_nonneg (a.sub b)) with h1 | h1
  · exact h1
  · exfalso
    apply h
    simp only [Vec3.dot, Vec3.sub] at h1
    have hx : (a.x - b.x) * (a.x - b.x) = 0 := by
      nlinarith [mul_self_nonneg (a.x - b.x), mul_self_nonneg (a.y - b.y),
        mul_self_nonneg (a.z - b.z)]
    have hy : (a.y - b.y) * (a.y - b.y) = 0 := by
      nlinarith [mul_self_nonneg (a.x - b.x), mul_self_nonneg (a.y - b.y),
        mul_self_nonneg (a.z - b.z)]
    have hz : (a.z - b.z) * (a.z - b.z) = 0 := by
      nlinarith [mul_self_nonneg (a.x - b.x), mul_self_nonneg (a.y - b.y),
        mul_self_nonneg (a.z - b.z)]
    ext
    · exact sub_eq_zero.mp (mul_self_eq_zero.mp hx)
    · exact sub_eq_zero.mp (mul_self_eq_zero.mp hy)
    · exact sub_eq_zero.mp (mul_self_eq_zero.mp hz)

/-- A positive length means a positive squared length. -/
theorem Vec3.dot_self_pos_of_length_pos {m : MathLib K} (hm : m.Exact) {v : Vec3 K}
    (h : 0 < v.length m) : 0 < v.dot v := by
  rcases lt_or_eq_of_le (Vec3.dot_self_nonneg v) with h1 | h1
  · exact h1
  · unfold Vec3.length at h
    rw [← h1, hm.sqrt_zero] at h
    exact absurd h (lt_irrefl _)

/-- The normalised vector of a non-zero vector has unit squared length. -/
theorem Vec3.normalize_dot_self {m : MathLib K} (hm : m.Exact) {v : Vec3 K}
    (h : 0 < v.dot v) : (v.normalize m).dot (v.normalize m) = 1 := by
  have hs := hm.sqrt_mul_self (le_of_lt h)
  have hp := hm.sqrt_pos h
  have hne : m.sqrt (v.dot v) ≠ 0 := ne_of_gt hp
  simp only [Vec3.normalize, Vec3.scale]
  simp only [Vec3.dot] at hs hne ⊢
  field_simp
  linear_combination -hs

end VectorLemmas

/-! ## Theorems: sphere–sphere resolution -/

section SphereSphere

variable {K : Type} [LinearOrderedField K]

/-- Squared distance of the centres after the symmetric correction by `(R - s) / 2`. -/
theorem corrected_distance_sq (a b : Vec3 K) (s R : K)
    (hs : s * s = (a.sub b).dot (a.sub b)) (hne : s ≠ 0) :
    ((a.add (((a.sub b).scale (1 / s)).scale ((R - s) / 2))).sub
        (b.sub (((a.sub b).scale (1 / s)).scale ((R - s) / 2)))).dot
      ((a.add (((a.sub b).scale (1 / s)).scale ((R - s) / 2))).sub
        (b.sub (((a.sub b).scale (1 / s)).scale ((R - s) / 2)))) = R * R := by
  simp only [Vec3.dot, Vec3.sub, Vec3.add, Vec3.scale] at hs ⊢
  field_simp
  linear_combination (-(4 * R * R)) * hs

/-- Squared length of a multiple of a unit vector. -/
theorem scale_unit_dot_self (n : Vec3 K) (c : K) (hn : n.dot n = 1) :
    (n.scale c).dot (n.scale c) = c * c := by
  simp only [Vec3.dot, Vec3.scale] at hn ⊢
  linear_combination (c * c) * hn

/-- The collision normal is a unit vector when the centres are distinct. -/
theorem collision_normal_unit {m : MathLib K} (hm : m.Exact) (A B : GameBall K)
    (hne : A.position ≠ B.position) :
    ((A.position.sub B.position).normalize m).dot ((A.position.sub B.position).normalize m) = 1 :=
  Vec3.normalize_dot_self hm (Vec3.dot_sub_self_pos hne)

/-- Velocities after the resolution of an approaching overlapping pair. -/
theorem sphereSphere_velocity_approaching (m : MathLib K) (A B : GameBall K)
    (hov : (A.position.sub B.position).length m < A.radius + B.radius)
    (hp : (A.velocity.sub B.velocity).dot ((A.position.sub B.position).normalize m) ≤ 0) :
    (sphereSphere m A B).1.velocity = A.velocity.add
        (((A.position.sub B.position).normalize m).scale
          (-(1 + RESTITUTION_COEFF) *
            (A.velocity.sub B.velocity).dot ((A.position.sub B.position).normalize m) / 2)) ∧
    (sphereSphere m A B).2.velocity = B.velocity.sub
        (((A.position.sub B.position).normalize m).scale
          (-(1 + RESTITUTION_COEFF) *
            (A.velocity.sub B.velocity).dot ((A.position.sub B.position).normalize m) / 2)) := by
  simp only [sphereSphere, hov, if_true, gt_iff_lt, not_lt.mpr hp, if_false, and_self]

/-- Velocities after the resolution of a separating overlapping pair: unchanged. -/
theorem sphereSphere_velocity_separating (m : MathLib K) (A B : GameBall K)
    (hov : (A.position.sub B.position).length m < A.radius + B.radius)
    (hp : 0 < (A.velocity.sub B.velocity).dot ((A.position.sub B.position).normalize m)) :
    (sphereSphere m A B).1.velocity = A.velocity ∧
    (sphereSphere m A B).2.velocity = B.velocity := by
  simp only [sphereSphere, hov, if_true, gt_iff_lt, hp, and_self]

/-- Positions after the resolution of an overlapping pair. -/
theorem sphereSphere_position (m : MathLib K) (A B : GameBall K)
    (hov : (A.position.sub B.position).length m < A.radius + B.radius) :
    (sphereSphere m A B).1.position = A.position.add
        (((A.position.sub B.position).normalize m).scale
          ((A.radius + B.radius - (A.position.sub B.position).length m) / 2)) ∧
    (sphereSphere m A B).2.position = B.position.sub
        (((A.position.sub B.position).normalize m).scale
          ((A.radius + B.radius - (A.position.sub B.position).length m) / 2)) := by
  simp only [sphereSphere, hov, if_true]
  split <;> exact ⟨rfl, rfl⟩

/-- The real square root is exact. -/
theorem real_exact : (MathLib.mk Real.sqrt Real.sin Real.cos).Exact :=
  fun x hx => ⟨Real.sqrt_nonneg x, Real.mul_self_sqrt hx⟩

theorem pair_distinct : (pairA : GameBall ℝ).position ≠ (pairB : GameBall ℝ).position := by
  intro h
  have hx := congrArg Vec3.x h
  simp [pairA, pairB, mkBall] at hx

theorem pair_length :
    ((pairA : GameBall ℝ).position.sub (pairB : GameBall ℝ).position).length
      (MathLib.mk Real.sqrt Real.sin Real.cos) = 1 := by
  simp [pairA, pairB, mkBall, Vec3.length, Vec3.sub, Vec3.dot]

/-- C10 (amended). No residual sphere–sphere penetration, in exact arithmetic: for a pair with
`0 < |A.position - B.position| < A.radius + B.radius`, after the positional correction the
distance between the centres equals (hence is at least) the sum of the radii, `A` has moved by
`+n * penetration/2` and `B` by `-n * penetration/2` with `n` the unit normal of the line of
centres, a displacement of length exactly half the penetration. -/
theorem C10_no_residual_sphere_penetration (m : MathLib K) (hm : m.Exact) (A B : GameBall K)
    (hpos : 0 < (A.position.sub B.position).length m)
    (hov : (A.position.sub B.position).length m < A.radius + B.radius) :
    let n := (A.position.sub B.position).normalize m
    let penetration := A.radius + B.radius - (A.position.sub B.position).length m
    let r := sphereSphere m A B
    (r.1.position.sub r.2.position).length m = A.radius + B.radius ∧
    A.radius + B.radius ≤ (r.1.position.sub r.2.position).length m ∧
    r.1.position = A.position.add (n.scale (penetration / 2)) ∧
    r.2.position = B.position.sub (n.scale (penetration / 2)) ∧
    n.dot n = 1 ∧
    (n.scale (penetration / 2)).length m = penetration / 2 := by
  intro n penetration r
  have hD : 0 < (A.position.sub B.position).dot (A.position.sub B.position) :=
    Vec3.dot_self_pos_of_length_pos hm hpos
  have hn : n.dot n = 1 := Vec3.normalize_dot_self hm hD
  have hs := hm.sqrt_mul_self (le_of_lt hD)
  have hsum : 0 ≤ A.radius + B.radius := le_of_lt (lt_trans hpos hov)
  have hpen : 0 ≤ penetration / 2 := by
    apply div_nonneg _ (by norm_num)
    exact sub_nonneg.mpr (le_of_lt hov)
  obtain ⟨hA, hB⟩ := sphereSphere_position m A B hov
  have hlen : (r.1.position.sub r.2.position).length m = A.radius + B.radius := by
    show ((sphereSphere m A B).1.position.sub (sphereSphere m A B).2.position).length m = _
    rw [hA, hB]
    have hne : m.sqrt ((A.position.sub B.position).dot (A.position.sub B.position)) ≠ 0 :=
      ne_of_gt hpos
    unfold Vec3.length Vec3.normalize
    rw [corrected_distance_sq _ _ _ _ hs hne]
    exact hm.sqrt_sq hsum
  refine ⟨hlen, le_of_eq hlen.symm, hA, hB, hn, ?_⟩
  unfold Vec3.length
  rw [scale_unit_dot_self _ _ hn]
  exact hm.sqrt_sq hpen

/-- Witness for C10: two unit balls over the reals at distance 1 end at distance 2. -/
theorem C10_no_residual_sphere_penetration_witness :
    (MathLib.mk Real.sqrt Real.sin Real.cos).Exact ∧
    0 < ((pairA : GameBall ℝ).position.sub (pairB : GameBall ℝ).position).length
      (MathLib.mk Real.sqrt Real.sin Real.cos) ∧
    ((pairA : GameBall ℝ).position.sub (pairB : GameBall ℝ).position).length
      (MathLib.mk Real.sqrt Real.sin Real.cos) < (pairA : GameBall ℝ).radius + pairB.radius ∧
    ((sphereSphere (MathLib.mk Real.sqrt Real.sin Real.cos) (pairA : GameBall ℝ) pairB).1.position.sub
        (sphereSphere (MathLib.mk Real.sqrt Real.sin Real.cos) (pairA : GameBall ℝ) pairB).2.position).length
      (MathLib.mk Real.sqrt Real.sin Real.cos) = (pairA : GameBall ℝ).radius + pairB.radius := by
  have hpos : 0 < ((pairA : GameBall ℝ).position.sub (pairB : GameBall ℝ).position).length
      (MathLib.mk Real.sqrt Real.sin Real.cos) := by
    rw [pair_length]; norm_num
  have hov : ((pairA : GameBall ℝ).position.sub (pairB : GameBall ℝ).position).length
      (MathLib.mk Real.sqrt Real.sin Real.cos) < (pairA : GameBall ℝ).radius + pairB.radius := by
    rw [pair_length]; simp [pairA, pairB, mkBall]
  exact ⟨real_exact, hpos, hov,
    (C10_no_residual_sphere_penetration _ real_exact pairA pairB hpos hov).1⟩

end SphereSphere

/-! ## Theorems: which balls an iteration can write -/

section Frame

variable {K : Type} [LinearOrderedField K] [FloorRing K]

theorem foldl_invariant {α β : Type} (P : β → Prop) (f : β → α → β)
    (h : ∀ b a, P b → P (f b a)) : ∀ (l : List α) (b : β), P b → P (l.foldl f b) := by
  intro l
  induction l with
  | nil => intro b hb; exact hb
  | cons a l ih => intro b hb; exact ih (f b a) (h b a hb)

omit [FloorRing K] in
/-- The pair resolution for `ball_A = balls[i]` writes `balls[i]` and active balls of higher
index only. -/
theorem resolvePair_getElem? (m : MathLib K) (i j k : Nat) (balls : List (GameBall K))
    (v : Option (GameBall K)) (hk : balls[k]? = v) (hki : k ≠ i)
    (hcond : k < i ∨ ∀ b, v = some b → b.active = false) :
    (resolvePair m i balls j)[k]? = v := by
  unfold resolvePair
  by_cases hji : j ≤ i
  · simp only [hji, if_true]; exact hk
  · simp only [hji, if_false]
    cases hA : balls[i]? with
    | none => exact hk
    | some A =>
      cases hB : balls[j]? with
      | none => exact hk
      | some B =>
        simp only
        by_cases hact : B.active = true
        · have hkj : k ≠ j := by
            intro hkj
            subst hkj
            rcases hcond with h | h
            · omega
            · rw [hB] at hk
              have := h B hk.symm
              rw [hact] at this
              exact absurd this (by decide)
          simp only [hact, Bool.not_true, Bool.false_eq_true, if_false]
          rw [List.getElem?_set_ne (Ne.symm hkj), List.getElem?_set_ne (Ne.symm hki)]
          exact hk
        · simp only [hact, Bool.not_false, if_true]
          simp [hact, hk]

omit [FloorRing K] in
theorem resolvePair_length (m : MathLib K) (i j : Nat) (balls : List (GameBall K)) :
    (resolvePair m i balls j).length = balls.length := by
  unfold resolvePair
  split
  · rfl
  · split
    · split <;> simp
    · rfl

/-- The neighbourhood loops for `balls[i]` write `balls[i]` and active balls of higher index
only. -/
theorem sphereCollisions_getElem? (m : MathLib K) (grid : Grid) (i k : Nat)
    (balls : List (GameBall K)) (v : Option (GameBall K)) (hk : balls[k]? = v) (hki : k ≠ i)
    (hcond : k < i ∨ ∀ b, v = some b → b.active = false) :
    (sphereCollisions m grid i balls)[k]? = v := by
  unfold sphereCollisions
  cases hA : balls[i]? with
  | none => exact hk
  | some A =>
    simp only
    apply foldl_invariant (fun bs : List (GameBall K) => bs[k]? = v) _ _ _ _ hk
    intro bs dc hbs
    apply foldl_invariant (fun bs : List (GameBall K) => bs[k]? = v) _ _ _ _ hbs
    intro bs dr hbs
    split
    · apply foldl_invariant (fun bs : List (GameBall K) => bs[k]? = v) _ _ _ _ hbs
      intro bs j hbs
      exact resolvePair_getElem? m i j k bs v hbs hki hcond
    · exact hbs

theorem sphereCollisions_length (m : MathLib K) (grid : Grid) (i : Nat)
    (balls : List (GameBall K)) :
    (sphereCollisions m grid i balls).length = balls.length := by
  unfold sphereCollisions
  cases hA : balls[i]? with
  | none => rfl
  | some A =>
    simp only
    apply foldl_invariant (fun bs : List (GameBall K) => bs.length = balls.length) _ _ _ _ rfl
    intro bs dc hbs
    apply foldl_invariant (fun bs : List (GameBall K) => bs.length = balls.length) _ _ _ _ hbs
    intro bs dr hbs
    split
    · apply foldl_invariant (fun bs : List (GameBall K) => bs.length = balls.length) _ _ _ _ hbs
      intro bs j hbs
      rw [resolvePair_length]; exact hbs
    · exact hbs

theorem moveAndCollide_getElem? (m : MathLib K) (sc : Scene K) (grid : Grid) (i k : Nat)
    (balls : List (GameBall K)) (hki : k ≠ i)
    (hcond : k < i ∨ ∀ b, balls[k]? = some b → b.active = false) :
    (moveAndCollide m sc grid i balls)[k]? = balls[k]? := by
  unfold moveAndCollide
  cases hA : balls[i]? with
  | none => rfl
  | some A =>
    simp only
    have h1 : (sphereCollisions m grid i (balls.set i (integrate m A)))[k]? = balls[k]? := by
      apply sphereCollisions_getElem? m grid i k _ _ _ hki hcond
      rw [List.getElem?_set_ne (Ne.symm hki)]
    cases hA2 : (sphereCollisions m grid i (balls.set i (integrate m A)))[i]? with
    | none => exact h1
    | some A2 =>
      simp only
      rw [List.getElem?_set_ne (Ne.symm hki)]
      exact h1

theorem moveAndCollide_length (m : MathLib K) (sc : Scene K) (grid : Grid) (i : Nat)
    (balls : List (GameBall K)) :
    (moveAndCollide m sc grid i balls).length = balls.length := by
  unfold moveAndCollide
  cases hA : balls[i]? with
  | none => rfl
  | some A =>
    simp only
    cases hA2 : (sphereCollisions m grid i (balls.set i (integrate m A)))[i]? with
    | none => simp [sphereCollisions_length]
    | some A2 => simp [sphereCollisions_length]

omit [FloorRing K] in
theorem pocketPhase_getElem? (m : MathLib K) (sc : Scene K) (i k : Nat) (w : World K)
    (hki : k ≠ i) : (pocketPhase m sc i w).balls[k]? = w.balls[k]? := by
  unfold pocketPhase
  cases hA : w.balls[i]? with
  | none => rfl
  | some A => simp only; rw [List.getElem?_set_ne (Ne.symm hki)]

omit [FloorRing K] in
theorem pocketPhase_length (m : MathLib K) (sc : Scene K) (i : Nat) (w : World K) :
    (pocketPhase m sc i w).balls.length = w.balls.length := by
  unfold pocketPhase
  cases hA : w.balls[i]? with
  | none => rfl
  | some A => simp

omit [FloorRing K] in
theorem pocketPhase_grid (m : MathLib K) (sc : Scene K) (i : Nat) (w : World K) :
    (pocketPhase m sc i w).spatialGrid = w.spatialGrid := by
  unfold pocketPhase
  cases hA : w.balls[i]? with
  | none => rfl
  | some A => rfl

/-- One iteration `i` leaves every ball of lower index and every inactive ball as it is. -/
theorem processBall_getElem? (m : MathLib K) (sc : Scene K) (w : World K) (i k : Nat)
    (hcond : k < i ∨ ∀ b, w.balls[k]? = some b → b.active = false) :
    (processBall m sc w i).balls[k]? = w.balls[k]? := by
  unfold processBall
  cases hA : w.balls[i]? with
  | none => rfl
  | some A =>
    show (if (!A.active) = true then w else _).balls[k]? = _
    by_cases hact : A.active = true
    · simp only [hact, Bool.not_true, Bool.false_eq_true, if_false]
      have hki : k ≠ i := by
        intro hki
        subst hki
        rcases hcond with h | h
        · omega
        · have := h A hA
          rw [hact] at this
          exact absurd this (by decide)
      rw [pocketPhase_getElem? m sc i k _ hki]
      exact moveAndCollide_getElem? m sc w.spatialGrid i k w.balls hki hcond
    · simp [hact]

theorem processBall_length (m : MathLib K) (sc : Scene K) (w : World K) (i : Nat) :
    (processBall m sc w i).balls.length = w.balls.length := by
  unfold processBall
  cases hA : w.balls[i]? with
  | none => rfl
  | some A =>
    show (if (!A.active) = true then w else _).balls.length = _
    split
    · rfl
    · rw [pocketPhase_length]; exact moveAndCollide_length m sc w.spatialGrid i w.balls

theorem processBall_grid (m : MathLib K) (sc : Scene K) (w : World K) (i : Nat) :
    (processBall m sc w i).spatialGrid = w.spatialGrid := by
  unfold processBall
  cases hA : w.balls[i]? with
  | none => rfl
  | some A =>
    show (if (!A.active) = true then w else _).spatialGrid = _
    split
    · rfl
    · rw [pocketPhase_grid]

theorem stateBefore_zero (m : MathLib K) (sc : Scene K) (w : World K) :
    stateBefore m sc w 0 = { w with spatialGrid := updateSpatialGrid w.balls } := rfl

theorem stateBefore_succ (m : MathLib K) (sc : Scene K) (w : World K) (i : Nat) :
    stateBefore m sc w (i + 1) = processBall m sc (stateBefore m sc w i) i := by
  simp [stateBefore, List.range_succ, List.foldl_append]

theorem subStep_eq_stateBefore (m : MathLib K) (sc : Scene K) (w : World K) :
    subStep m sc w = stateBefore m sc w w.balls.length := rfl

theorem stateBefore_length (m : MathLib K) (sc : Scene K) (w : World K) (n : Nat) :
    (stateBefore m sc w n).balls.length = w.balls.length := by
  induction n with
  | zero => rfl
  | succ n ih => rw [stateBefore_succ, processBall_length, ih]

theorem stateBefore_grid (m : MathLib K) (sc : Scene K) (w : World K) (n : Nat) :
    (stateBefore m sc w n).spatialGrid = updateSpatialGrid w.balls := by
  induction n with
  | zero => rfl
  | succ n ih => rw [stateBefore_succ, processBall_grid, ih]

/-- Inside a sub-step an inactive ball is never written. -/
theorem stateBefore_frozen (m : MathLib K) (sc : Scene K) (w : World K) (k : Nat)
    (b : GameBall K) (hk : w.balls[k]? = some b) (hb : b.active = false) (n : Nat) :
    (stateBefore m sc w n).balls[k]? = some b := by
  induction n with
  | zero => exact hk
  | succ n ih =>
    rw [stateBefore_succ, processBall_getElem? m sc _ n k, ih]
    right
    intro b' hb'
    rw [ih] at hb'
    cases hb'
    exact hb

/-- Inside a sub-step the ball `k` is final once its own iteration is over. -/
theorem stateBefore_final (m : MathLib K) (sc : Scene K) (w : World K) (k n : Nat)
    (hn : k + 1 ≤ n) :
    (stateBefore m sc w n).balls[k]? = (stateBefore m sc w (k + 1)).balls[k]? := by
  induction n with
  | zero => omega
  | succ n ih =>
    rcases Nat.eq_or_lt_of_le hn with h | h
    · rw [← h]
    · rw [stateBefore_succ, processBall_getElem? m sc _ n k (Or.inl (by omega))]
      exact ih (by omega)

theorem subStep_frozen (m : MathLib K) (sc : Scene K) (w : World K) (k : Nat)
    (b : GameBall K) (hk : w.balls[k]? = some b) (hb : b.active = false) :
    (subStep m sc w).balls[k]? = some b :=
  stateBefore_frozen m sc w k b hk hb w.balls.length

theorem iterate_subStep_frozen (m : MathLib K) (sc : Scene K) (k : Nat) (b : GameBall K)
    (hb : b.active = false) (n : Nat) :
    ∀ w : World K, w.balls[k]? = some b → ((subStep m sc)^[n] w).balls[k]? = some b := by
  induction n with
  | zero => intro w hk; exact hk
  | succ n ih =>
    intro w hk
    rw [Function.iterate_succ_apply]
    exact ih _ (subStep_frozen m sc w k b hk hb)

/-- C5. Inactive spheres are frozen: for every call (any elapsed time, accumulator, segments,
pockets, other spheres and prior grid contents), a sphere that is inactive before the call is the
same record after it (position, velocity, active, orientation, angular velocity, radius, texture
unit, names and ids); in particular it is still inactive. -/
theorem C5_inactive_spheres_frozen (m : MathLib K) (sc : Scene K) (e : K) (st : SimState K)
    (k : Nat) (b : GameBall K) (hk : st.world.balls[k]? = some b) (hb : b.active = false) :
    (SimularColisoes m sc e st).world.balls[k]? = some b ∧
    (SimularColisoes m sc e st).world.balls.length = st.world.balls.length := by
  rw [SimularColisoes_eq]
  refine ⟨iterate_subStep_frozen m sc k b hb _ st.world hk, ?_⟩
  simp only
  generalize (⌊(st.physics_accumulator + e) / (FIXED_PHYSICS_DELTA_TIME : K)⌋).toNat = n
  generalize st.world = w
  induction n generalizing w with
  | zero => rfl
  | succ n ih =>
    rw [Function.iterate_succ_apply, ih, subStep_eq_stateBefore, stateBefore_length]

/-- Witness for C5: the pocketed ball of `twoBallState` through a call of one second. -/
theorem C5_inactive_spheres_frozen_witness :
    twoBallState.world.balls[1]? = some pocketedBall ∧ pocketedBall.active = false ∧
    (SimularColisoes ratMath emptyScene 1 twoBallState).world.balls[1]? = some pocketedBall :=
  ⟨rfl, rfl, (C5_inactive_spheres_frozen ratMath emptyScene 1 twoBallState 1 pocketedBall
    rfl rfl).1⟩

/-! ## Theorems: the positioning flag -/

omit [FloorRing K] in
/-- The pocket loop raises the flag exactly for a ball of texture unit 0 in range of a pocket. -/
theorem pocketLoop_flag (m : MathLib K) (pockets : List (Pocket K)) (A : GameBall K)
    (flag : Bool) :
    (pocketLoop m pockets A flag).2 =
      (flag || (decide (A.texture_unit_index = 0) &&
        pockets.any (fun pocket => decide (inPocket m A pocket)))) := by
  induction pockets with
  | nil => simp [pocketLoop]
  | cons p ps ih =>
    unfold pocketLoop
    by_cases hin : inPocket m A p
    · simp only [hin, if_true, List.any_cons, decide_True, Bool.true_or, Bool.and_true]
      unfold capture
      by_cases ht : A.texture_unit_index = 0
      · simp [ht]
      · simp [ht]
    · simp only [hin, if_false, List.any_cons, decide_False, Bool.false_or]
      exact ih

/-- One iteration raises the flag exactly at a cue capture and never lowers it. -/
theorem processBall_flag (m : MathLib K) (sc : Scene K) (w : World K) (i : Nat) :
    (processBall m sc w i).cueBallPositioningMode =
      (w.cueBallPositioningMode || cueCaptureAt m sc w i) := by
  unfold processBall cueCaptureAt
  cases hA : w.balls[i]? with
  | none => simp
  | some A =>
    show (if (!A.active) = true then w else _).cueBallPositioningMode = _
    by_cases hact : A.active = true
    · simp only [hact, Bool.not_true, Bool.false_eq_true, if_false, Bool.true_and]
      unfold pocketPhase
      cases hA2 : (moveAndCollide m sc w.spatialGrid i w.balls)[i]? with
      | none => simp
      | some A2 => simp only; rw [pocketLoop_flag]
    · simp [hact]

theorem stateBefore_flag (m : MathLib K) (sc : Scene K) (w : World K) (n : Nat) :
    (stateBefore m sc w n).cueBallPositioningMode = true ↔
      w.cueBallPositioningMode = true ∨
        ∃ i, i < n ∧ cueCaptureAt m sc (stateBefore m sc w i) i = true := by
  induction n with
  | zero => simp [stateBefore_zero]
  | succ n ih =>
    rw [stateBefore_succ, processBall_flag, Bool.or_eq_true, ih]
    constructor
    · rintro ((h | ⟨i, hi, h⟩) | h)
      · exact Or.inl h
      · exact Or.inr ⟨i, by omega, h⟩
      · exact Or.inr ⟨n, by omega, h⟩
    · rintro (h | ⟨i, hi, h⟩)
      · exact Or.inl (Or.inl h)
      · rcases Nat.eq_or_lt_of_le (Nat.le_of_lt_succ hi) with h' | h'
        · subst h'; exact Or.inr h
        · exact Or.inl (Or.inr ⟨i, h', h⟩)

theorem cueCaptureAt_lt_length (m : MathLib K) (sc : Scene K) (w : World K) (i : Nat)
    (h : cueCaptureAt m sc w i = true) : i < w.balls.length := by
  unfold cueCaptureAt at h
  cases hA : w.balls[i]? with
  | none => rw [hA] at h; simp at h
  | some A =>
    by_contra hlt
    rw [List.getElem?_eq_none (not_lt.mp hlt)] at hA
    cases hA

theorem iterate_subStep_flag (m : MathLib K) (sc : Scene K) (n : Nat) (w : World K) :
    ((subStep m sc)^[n] w).cueBallPositioningMode = true ↔
      w.cueBallPositioningMode = true ∨
        ∃ k, k < n ∧ ∃ i, i < ((subStep m sc)^[k] w).balls.length ∧
          cueCaptureAt m sc (stateBefore m sc ((subStep m sc)^[k] w) i) i = true := by
  induction n with
  | zero => simp
  | succ n ih =>
    rw [Function.iterate_succ_apply', subStep_eq_stateBefore, stateBefore_flag, ih]
    constructor
    · rintro ((h | ⟨k, hk, i, hi, h⟩) | ⟨i, hi, h⟩)
      · exact Or.inl h
      · exact Or.inr ⟨k, by omega, i, hi, h⟩
      · exact Or.inr ⟨n, by omega, i, hi, h⟩
    · rintro (h | ⟨k, hk, i, hi, h⟩)
      · exact Or.inl (Or.inl h)
      · rcases Nat.eq_or_lt_of_le (Nat.le_of_lt_succ hk) with h' | h'
        · subst h'; exact Or.inr ⟨i, hi, h⟩
        · exact Or.inl (Or.inr ⟨k, h', i, hi, h⟩)

/-- C6. Positioning flag: after a call to `SimularColisoes` the flag is true if and only if it
was true at entry or, in one of the executed sub-steps `k` (there are `⌊(a+e)/h⌋` of them, none
when that is negative) and for one ball index `i`, the ball `i` was active at its turn, had
texture unit 0 and passed the capture test of some pocket at its pocket loop.  In particular a
flag that is true at entry is true at exit. -/
theorem C6_positioning_flag (m : MathLib K) (sc : Scene K) (e : K) (st : SimState K) :
    (SimularColisoes m sc e st).world.cueBallPositioningMode = true ↔
      st.world.cueBallPositioningMode = true ∨
        ∃ k, k < (⌊(st.physics_accumulator + e) / (FIXED_PHYSICS_DELTA_TIME : K)⌋).toNat ∧
          ∃ i, i < ((subStep m sc)^[k] st.world).balls.length ∧
            cueCaptureAt m sc (stateBefore m sc ((subStep m sc)^[k] st.world) i) i = true := by
  rw [SimularColisoes_eq]
  exact iterate_subStep_flag m sc _ st.world

end Frame

/-! ## Theorems: an iteration in which the ball touches no other sphere and no segment -/

section Untouched

variable {K : Type} [LinearOrderedField K] [FloorRing K]

theorem set_same {α : Type} (l : List α) (i : Nat) (a : α) (h : l[i]? = some a) :
    l.set i a = l := by
  apply List.ext_getElem?
  intro k
  by_cases hk : i = k
  · subst hk
    rw [List.getElem?_set_self' , h]
    simp
  · rw [List.getElem?_set_ne hk]

omit [FloorRing K] in
theorem sphereSphere_of_not_overlap (m : MathLib K) (A B : GameBall K)
    (h : ¬ (A.position.sub B.position).length m < A.radius + B.radius) :
    sphereSphere m A B = (A, B) := by
  simp only [sphereSphere, h, if_false]

omit [FloorRing K] in
theorem resolvePair_untouched (m : MathLib K) (i j : Nat) (balls : List (GameBall K))
    (A : GameBall K) (hA : balls[i]? = some A)
    (hno : ∀ j B, i < j → balls[j]? = some B → B.active = true →
      ¬ (A.position.sub B.position).length m < A.radius + B.radius) :
    resolvePair m i balls j = balls := by
  unfold resolvePair
  by_cases hji : j ≤ i
  · simp only [hji, if_true]
  · simp only [hji, if_false, hA]
    cases hB : balls[j]? with
    | none => rfl
    | some B =>
      simp only
      by_cases hact : B.active = true
      · simp only [hact, Bool.not_true, Bool.false_eq_true, if_false]
        rw [sphereSphere_of_not_overlap m A B (hno j B (by omega) hB hact)]
        simp only
        rw [set_same balls i A hA, set_same balls j B hB]
      · simp [hact]

theorem sphereCollisions_untouched (m : MathLib K) (grid : Grid) (i : Nat)
    (balls : List (GameBall K)) (A : GameBall K) (hA : balls[i]? = some A)
    (hno : ∀ j B, i < j → balls[j]? = some B → B.active = true →
      ¬ (A.position.sub B.position).length m < A.radius + B.radius) :
    sphereCollisions m grid i balls = balls := by
  unfold sphereCollisions
  rw [hA]
  simp only
  apply foldl_invariant (fun bs : List (GameBall K) => bs = balls) _ _ _ _ rfl
  intro bs dc hbs
  apply foldl_invariant (fun bs : List (GameBall K) => bs = balls) _ _ _ _ hbs
  intro bs dr hbs
  split
  · apply foldl_invariant (fun bs : List (GameBall K) => bs = balls) _ _ _ _ hbs
    intro bs j hbs
    rw [hbs]
    exact resolvePair_untouched m i j balls A hA hno
  · exact hbs

omit [FloorRing K] in
theorem pocketSegmentResponse_of_far (m : MathLib K) (A : GameBall K) (seg : BoundingSegment K)
    (h : ¬ segmentDistance m A.position seg < A.radius) :
    pocketSegmentResponse m A seg = A := by
  simp only [segmentDistance] at h
  simp only [pocketSegmentResponse, h, if_false]

omit [FloorRing K] in
theorem tableSegmentResponse_of_far (m : MathLib K) (A : GameBall K) (seg : BoundingSegment K)
    (h : ¬ segmentDistance m A.position seg < A.radius) :
    tableSegmentResponse m A seg = A := by
  simp only [segmentDistance] at h
  simp only [tableSegmentResponse, h, if_false]

omit [FloorRing K] in
theorem foldl_pocketSegmentResponse_of_far (m : MathLib K) (A : GameBall K)
    (segs : List (BoundingSegment K))
    (h : ∀ seg, seg ∈ segs → ¬ segmentDistance m A.position seg < A.radius) :
    segs.foldl (pocketSegmentResponse m) A = A := by
  induction segs with
  | nil => rfl
  | cons seg segs ih =>
    rw [List.foldl_cons, pocketSegmentResponse_of_far m A seg (h seg (List.mem_cons_self _ _))]
    exact ih (fun s hs => h s (List.mem_cons_of_mem _ hs))

omit [FloorRing K] in
theorem foldl_tableSegmentResponse_of_far (m : MathLib K) (A : GameBall K)
    (segs : List (BoundingSegment K))
    (h : ∀ seg, seg ∈ segs → ¬ segmentDistance m A.position seg < A.radius) :
    segs.foldl (tableSegmentResponse m) A = A := by
  induction segs with
  | nil => rfl
  | cons seg segs ih =>
    rw [List.foldl_cons, tableSegmentResponse_of_far m A seg (h seg (List.mem_cons_self _ _))]
    exact ih (fun s hs => h s (List.mem_cons_of_mem _ hs))

/-- Lines 62–183 for a ball that, once integrated, overlaps no active ball of higher index and is
not within its radius of any segment: only the integrator acts. -/
theorem moveAndCollide_untouched (m : MathLib K) (sc : Scene K) (grid : Grid) (i : Nat)
    (balls : List (GameBall K)) (A : GameBall K) (hA : balls[i]? = some A)
    (hno : ∀ j B, i < j → balls[j]? = some B → B.active = true →
      ¬ ((integrate m A).position.sub B.position).length m < (integrate m A).radius + B.radius)
    (hseg : ∀ seg, seg ∈ sc.pocketSegments ∨ seg ∈ sc.tableSegments →
      ¬ segmentDistance m (integrate m A).position seg < (integrate m A).radius) :
    moveAndCollide m sc grid i balls = balls.set i (integrate m A) := by
  have hi : i < balls.length := by
    by_contra h
    rw [List.getElem?_eq_none (not_lt.mp h)] at hA
    cases hA
  have hget : (balls.set i (integrate m A))[i]? = some (integrate m A) :=
    List.getElem?_set_self hi
  have hno' : ∀ j B, i < j → (balls.set i (integrate m A))[j]? = some B → B.active = true →
      ¬ ((integrate m A).position.sub B.position).length m
        < (integrate m A).radius + B.radius := by
    intro j B hij hB
    rw [List.getElem?_set_ne (by omega)] at hB
    exact hno j B hij hB
  unfold moveAndCollide
  rw [hA]
  simp only
  rw [sphereCollisions_untouched m grid i _ _ hget hno', hget]
  simp only
  rw [foldl_pocketSegmentResponse_of_far m _ _ (fun s hs => hseg s (Or.inl hs)),
    foldl_tableSegmentResponse_of_far m _ _ (fun s hs => hseg s (Or.inr hs)),
    List.set_set]

/-- One iteration for an active ball that touches no sphere and no segment: the integrator, then
the pocket loop. -/
theorem processBall_untouched (m : MathLib K) (sc : Scene K) (w : World K) (i : Nat)
    (A : GameBall K) (hA : w.balls[i]? = some A) (hact : A.active = true)
    (hno : ∀ j B, i < j → w.balls[j]? = some B → B.active = true →
      ¬ ((integrate m A).position.sub B.position).length m < (integrate m A).radius + B.radius)
    (hseg : ∀ seg, seg ∈ sc.pocketSegments ∨ seg ∈ sc.tableSegments →
      ¬ segmentDistance m (integrate m A).position seg < (integrate m A).radius) :
    (processBall m sc w i).balls[i]? =
      some (pocketLoop m sc.pockets (integrate m A) w.cueBallPositioningMode).1 := by
  have hi : i < w.balls.length := by
    by_contra h
    rw [List.getElem?_eq_none (not_lt.mp h)] at hA
    cases hA
  unfold processBall
  rw [hA]
  simp only [hact, Bool.not_true, Bool.false_eq_true, if_false]
  rw [moveAndCollide_untouched m sc w.spatialGrid i w.balls A hA hno hseg]
  unfold pocketPhase
  simp only [List.getElem?_set_self hi]
  rw [List.set_set, List.getElem?_set_self hi]

end Untouched

/-! ## Theorems: the integrator and the pocket loop on one ball -/

section OneBall

variable {K : Type} [LinearOrderedField K]

theorem floorCollision_fields (b : GameBall K) :
    (floorCollision b).radius = b.radius ∧ (floorCollision b).active = b.active ∧
    (floorCollision b).texture_unit_index = b.texture_unit_index ∧
    (floorCollision b).position.x = b.position.x ∧
    (floorCollision b).position.z = b.position.z ∧
    (floorCollision b).velocity.x = b.velocity.x ∧
    (floorCollision b).velocity.z = b.velocity.z ∧
    (floorCollision b).angular_velocity = b.angular_velocity ∧
    (floorCollision b).orientation = b.orientation := by
  unfold floorCollision
  split <;> simp

theorem applyRolling_fields (m : MathLib K) (b : GameBall K) :
    (applyRolling m b).radius = b.radius ∧ (applyRolling m b).active = b.active ∧
    (applyRolling m b).texture_unit_index = b.texture_unit_index ∧
    (applyRolling m b).position = b.position ∧
    (applyRolling m b).velocity = b.velocity := by
  unfold applyRolling
  simp only
  split <;> simp

theorem applyFriction_fields (m : MathLib K) (b : GameBall K) :
    (applyFriction m b).radius = b.radius ∧ (applyFriction m b).active = b.active ∧
    (applyFriction m b).texture_unit_index = b.texture_unit_index ∧
    (applyFriction m b).position = b.position ∧
    (applyFriction m b).velocity.y = b.velocity.y := by
  unfold applyFriction
  simp only
  split <;> simp

theorem applyGravityAndMove_fields (b : GameBall K) :
    (applyGravityAndMove b).radius = b.radius ∧ (applyGravityAndMove b).active = b.active ∧
    (applyGravityAndMove b).texture_unit_index = b.texture_unit_index ∧
    (applyGravityAndMove b).velocity.x = b.velocity.x ∧
    (applyGravityAndMove b).velocity.z = b.velocity.z := by
  unfold applyGravityAndMove
  simp

/-- The integrator keeps radius, activity and texture unit. -/
theorem integrate_fields (m : MathLib K) (b : GameBall K) :
    (integrate m b).radius = b.radius ∧ (integrate m b).active = b.active ∧
    (integrate m b).texture_unit_index = b.texture_unit_index := by
  unfold integrate
  obtain ⟨f1, f2, f3, -⟩ := floorCollision_fields (applyRolling m (applyFriction m
    (applyGravityAndMove b)))
  obtain ⟨r1, r2, r3, -⟩ := applyRolling_fields m (applyFriction m (applyGravityAndMove b))
  obtain ⟨a1, a2, a3, -⟩ := applyFriction_fields m (applyGravityAndMove b)
  obtain ⟨g1, g2, g3, -⟩ := applyGravityAndMove_fields b
  exact ⟨by rw [f1, r1, a1, g1], by rw [f2, r2, a2, g2], by rw [f3, r3, a3, g3]⟩

/-- The integrator on a ball at rest whose bottom is on the felt, or less than one gravity step
above it, or below it: the ball is put on the felt with the vertical rebound velocity
`0.8 * g * dt` (which is above the stop threshold). -/
theorem integrate_resting (m : MathLib K) (hm : m.Exact) (A : GameBall K)
    (hv : A.velocity = ⟨0, 0, 0⟩)
    (hy : A.position.y - A.radius
      < FELT_SURFACE_Y_ACTUAL + GRAVITY * FIXED_PHYSICS_DELTA_TIME * FIXED_PHYSICS_DELTA_TIME) :
    (integrate m A).position = ⟨A.position.x, FELT_SURFACE_Y_ACTUAL + A.radius, A.position.z⟩ ∧
    (integrate m A).velocity
      = ⟨0, RESTITUTION_COEFF * (GRAVITY * FIXED_PHYSICS_DELTA_TIME), 0⟩ := by
  have hthr : (0 : K) < VELOCITY_STOP_THRESHOLD := by unfold VELOCITY_STOP_THRESHOLD; norm_num
  have hg : applyGravityAndMove A =
      { A with velocity := ⟨0, -(GRAVITY * FIXED_PHYSICS_DELTA_TIME), 0⟩,
               position := ⟨A.position.x, A.position.y
                 - GRAVITY * FIXED_PHYSICS_DELTA_TIME * FIXED_PHYSICS_DELTA_TIME,
                 A.position.z⟩ } := by
    unfold applyGravityAndMove
    simp only [hv, Vec3.add, Vec3.scale, zero_mul, add_zero, zero_sub]
    congr 2
    ring
  have hf : applyFriction m (applyGravityAndMove A) = applyGravityAndMove A := by
    rw [hg]
    unfold applyFriction
    simp only [Vec2.length, Vec2.dot, zero_mul, add_zero, hm.sqrt_zero, hthr, if_true]
  have hr : applyRolling m (applyGravityAndMove A) =
      { applyGravityAndMove A with angular_velocity := Vec3.splat 0 } := by
    rw [hg]
    unfold applyRolling
    simp only [Vec3.length, Vec3.dot, mul_zero, add_zero, hm.sqrt_zero, gt_iff_lt,
      not_lt.mpr (le_of_lt hthr), if_false]
  have hnot : ¬ |(-(GRAVITY * FIXED_PHYSICS_DELTA_TIME) : K) * -RESTITUTION_COEFF|
      < VELOCITY_STOP_THRESHOLD := by
    unfold GRAVITY FIXED_PHYSICS_DELTA_TIME RESTITUTION_COEFF VELOCITY_STOP_THRESHOLD
    rw [abs_of_nonneg (by norm_num)]
    norm_num
  unfold integrate
  rw [hf, hr, hg]
  unfold floorCollision
  have hlow : A.position.y - GRAVITY * FIXED_PHYSICS_DELTA_TIME * FIXED_PHYSICS_DELTA_TIME
      - A.radius < FELT_SURFACE_Y_ACTUAL := by linarith
  simp only [hlow, if_true, hnot, if_false]
  refine ⟨trivial, ?_⟩
  congr 1
  ring

/-- A lower bound for an exact root. -/
theorem MathLib.Exact.lt_sqrt {m : MathLib K} (hm : m.Exact) {c x : K}
    (h : c * c < x) : c < m.sqrt x := by
  have hx : 0 ≤ x := le_trans (mul_self_nonneg c) (le_of_lt h)
  have hs := hm.sqrt_mul_self hx
  have hn := hm.sqrt_nonneg hx
  by_contra hle
  have hle' : m.sqrt x ≤ c := not_lt.mp hle
  have : m.sqrt x * m.sqrt x ≤ c * c := mul_self_le_mul_self hn hle'
  linarith

theorem capture_fields (A : GameBall K) (flag : Bool) :
    (capture A flag).1.radius = A.radius ∧
    (capture A flag).1.texture_unit_index = A.texture_unit_index := by
  unfold capture
  split <;> exact ⟨rfl, rfl⟩

/-- A ball resting on the felt at the centre of a pocket passes the capture test of that pocket
after its integration. -/
theorem inPocket_integrate_resting (m : MathLib K) (hm : m.Exact) (A : GameBall K)
    (pocket : Pocket K) (hv : A.velocity = ⟨0, 0, 0⟩) (hpos : A.position = pocket.position)
    (hfelt : A.position.y - A.radius = FELT_SURFACE_Y_ACTUAL)
    (hrad : 0 ≤ A.radius + pocket.radius) :
    (integrate m A).position = A.position ∧ inPocket m (integrate m A) pocket := by
  have hy : A.position.y - A.radius
      < FELT_SURFACE_Y_ACTUAL + GRAVITY * FIXED_PHYSICS_DELTA_TIME * FIXED_PHYSICS_DELTA_TIME := by
    rw [hfelt]
    unfold GRAVITY FIXED_PHYSICS_DELTA_TIME
    norm_num
  have hp : (integrate m A).position = A.position := by
    rw [(integrate_resting m hm A hv hy).1]
    ext
    · rfl
    · show FELT_SURFACE_Y_ACTUAL + A.radius = A.position.y
      rw [← hfelt]; ring
    · rfl
  refine ⟨hp, ?_⟩
  unfold inPocket
  rw [hp, hpos, (integrate_fields m A).1]
  simp only [Vec3.length, Vec3.dot, Vec3.sub, sub_self, mul_zero, add_zero, hm.sqrt_zero]
  exact hrad

/-- The capture effect: texture unit 0 is re-spotted and stays active, any other ball is
deactivated at the sentinel position; both at zero velocity. -/
theorem capture_spec (A : GameBall K) (flag : Bool) :
    (capture A flag).1.velocity = ⟨0, 0, 0⟩ ∧
    (A.texture_unit_index = 0 →
      (capture A flag).2 = true ∧ (capture A flag).1.active = A.active ∧
      (capture A flag).1.position = ⟨-(20 / 10000), BALL_Y_AXIS, 5680 / 10000⟩) ∧
    (A.texture_unit_index ≠ 0 →
      (capture A flag).2 = flag ∧ (capture A flag).1.active = false ∧
      (capture A flag).1.position = ⟨1000, 1000, 1000⟩) := by
  unfold capture
  by_cases h : A.texture_unit_index = 0
  · simp [h, Vec3.splat]
  · simp [h, Vec3.splat]

/-- The pocket loop applies the capture when some pocket of the list passes the test. -/
theorem pocketLoop_of_mem (m : MathLib K) (pockets : List (Pocket K)) (A : GameBall K)
    (flag : Bool) (pocket : Pocket K) (hp : pocket ∈ pockets) (hin : inPocket m A pocket) :
    pocketLoop m pockets A flag = capture A flag := by
  induction pockets with
  | nil => cases hp
  | cons q qs ih =>
    unfold pocketLoop
    by_cases hq : inPocket m A q
    · simp only [hq, if_true]
    · simp only [hq, if_false]
      rcases List.mem_cons.mp hp with h | h
      · subst h; exact absurd hin hq
      · exact ih h

/-- The pocket loop either leaves the ball and the flag alone or applies the capture. -/
theorem pocketLoop_cases (m : MathLib K) (pockets : List (Pocket K)) (A : GameBall K)
    (flag : Bool) :
    pocketLoop m pockets A flag = (A, flag) ∨ pocketLoop m pockets A flag = capture A flag := by
  induction pockets with
  | nil => left; rfl
  | cons q qs ih =>
    unfold pocketLoop
    by_cases hq : inPocket m A q
    · right; simp only [hq, if_true]
    · simp only [hq, if_false]; exact ih

/-- The pocket loop leaves the ball alone when no pocket of the list passes the test. -/
theorem pocketLoop_of_none (m : MathLib K) (pockets : List (Pocket K)) (A : GameBall K)
    (flag : Bool) (h : ∀ pocket, pocket ∈ pockets → ¬ inPocket m A pocket) :
    pocketLoop m pockets A flag = (A, flag) := by
  induction pockets with
  | nil => rfl
  | cons q qs ih =>
    unfold pocketLoop
    simp only [h q (List.mem_cons_self _ _), if_false]
    exact ih (fun p hp => h p (List.mem_cons_of_mem _ hp))

end OneBall

/-! ## Theorems: a sub-step seen from one ball -/

section SubStepOneBall

variable {K : Type} [LinearOrderedField K] [FloorRing K]

/-- A ball that at its turn in the sub-step is `A`, active, and that once integrated overlaps no
active ball of higher index and is within its radius of no segment, ends the sub-step as the
integrated ball passed through the pocket loop. -/
theorem subStep_untouched (m : MathLib K) (sc : Scene K) (w : World K) (i : Nat)
    (A : GameBall K) (hturn : (stateBefore m sc w i).balls[i]? = some A)
    (hact : A.active = true)
    (hno : ∀ j B, i < j → (stateBefore m sc w i).balls[j]? = some B → B.active = true →
      ¬ ((integrate m A).position.sub B.position).length m < (integrate m A).radius + B.radius)
    (hseg : ∀ seg, seg ∈ sc.pocketSegments ∨ seg ∈ sc.tableSegments →
      ¬ segmentDistance m (integrate m A).position seg < (integrate m A).radius) :
    (subStep m sc w).balls[i]? =
      some (pocketLoop m sc.pockets (integrate m A)
        (stateBefore m sc w i).cueBallPositioningMode).1 := by
  have hi : i < w.balls.length := by
    by_contra h
    rw [List.getElem?_eq_none (by rw [stateBefore_length]; exact not_lt.mp h)] at hturn
    cases hturn
  rw [subStep_eq_stateBefore, stateBefore_final m sc w i _ hi, stateBefore_succ]
  exact processBall_untouched m sc _ i A hturn hact hno hseg

/-- A sub-step captures an untouched active ball that rests on the felt at a pocket centre. -/
theorem subStep_capture (m : MathLib K) (hm : m.Exact) (sc : Scene K) (w : World K) (i : Nat)
    (A : GameBall K) (pocket : Pocket K)
    (hturn : (stateBefore m sc w i).balls[i]? = some A) (hact : A.active = true)
    (hv : A.velocity = ⟨0, 0, 0⟩) (hp : pocket ∈ sc.pockets)
    (hpos : A.position = pocket.position)
    (hfelt : A.position.y - A.radius = FELT_SURFACE_Y_ACTUAL)
    (hrad : 0 ≤ A.radius + pocket.radius)
    (hno : ∀ j B, i < j → (stateBefore m sc w i).balls[j]? = some B → B.active = true →
      ¬ (A.position.sub B.position).length m < A.radius + B.radius)
    (hseg : ∀ seg, seg ∈ sc.pocketSegments ∨ seg ∈ sc.tableSegments →
      ¬ segmentDistance m A.position seg < A.radius) :
    (subStep m sc w).balls[i]? =
      some (capture (integrate m A) (stateBefore m sc w i).cueBallPositioningMode).1 ∧
    cueCaptureAt m sc (stateBefore m sc w i) i = decide (A.texture_unit_index = 0) := by
  obtain ⟨hip, hin⟩ := inPocket_integrate_resting m hm A pocket hv hpos hfelt hrad
  have hir := (integrate_fields m A).1
  have hno' : ∀ j B, i < j → (stateBefore m sc w i).balls[j]? = some B → B.active = true →
      ¬ ((integrate m A).position.sub B.position).length m
        < (integrate m A).radius + B.radius := by
    rw [hip, hir]; exact hno
  have hseg' : ∀ seg, seg ∈ sc.pocketSegments ∨ seg ∈ sc.tableSegments →
      ¬ segmentDistance m (integrate m A).position seg < (integrate m A).radius := by
    rw [hip, hir]; exact hseg
  have hi : i < (stateBefore m sc w i).balls.length := by
    by_contra h
    rw [List.getElem?_eq_none (not_lt.mp h)] at hturn
    cases hturn
  constructor
  · rw [subStep_untouched m sc w i A hturn hact hno' hseg',
      pocketLoop_of_mem m sc.pockets _ _ pocket hp hin]
  · unfold cueCaptureAt
    rw [hturn]
    simp only [hact, Bool.true_and]
    rw [moveAndCollide_untouched m sc _ i _ A hturn hno' hseg', List.getElem?_set_self hi]
    simp only [(integrate_fields m A).2.2]
    have hany : sc.pockets.any (fun pocket => decide (inPocket m (integrate m A) pocket))
        = true := List.any_eq_true.mpr ⟨pocket, hp, decide_eq_true hin⟩
    rw [hany, Bool.and_true]

/-- The call runs exactly one sub-step when the accumulator plus the elapsed time is in
`[h, 2h)`. -/
theorem SimularColisoes_one_step (m : MathLib K) (sc : Scene K) (e : K) (st : SimState K)
    (h1 : FIXED_PHYSICS_DELTA_TIME ≤ st.physics_accumulator + e)
    (h2 : st.physics_accumulator + e < 2 * FIXED_PHYSICS_DELTA_TIME) :
    (SimularColisoes m sc e st).world = subStep m sc st.world := by
  have hdt : (0 : K) < FIXED_PHYSICS_DELTA_TIME := dt_pos
  have hfl : ⌊(st.physics_accumulator + e) / (FIXED_PHYSICS_DELTA_TIME : K)⌋ = 1 := by
    rw [Int.floor_eq_iff]
    constructor
    · rw [le_div_iff₀ hdt]; simpa using h1
    · rw [div_lt_iff₀ hdt]; push_cast; linarith
  rw [SimularColisoes_eq, hfl]
  rfl

/-- C3 (amended). Pocket capture of the primary sphere: let `A` be an active sphere with
texture unit 0 that rests (zero velocity, bottom on the felt) at the centre of a pocket of the
list, with `radius + pocket.radius ≥ 0`, that no sphere of lower index has written when its turn
comes, that overlaps no active sphere of higher index and is within its radius of no segment.
After a call to `SimularColisoes` that runs exactly one sub-step (accumulator plus elapsed time
in `[1/120, 2/120)`), `cueBallPositioningMode` is true, the sphere is still active, its position
is `(-0.0020, BALL_Y_AXIS, 0.5680)` and its velocity is `(0, 0, 0)`. -/
theorem C3_cue_capture (m : MathLib K) (hm : m.Exact) (sc : Scene K) (st : SimState K) (e : K)
    (i : Nat) (A : GameBall K) (pocket : Pocket K)
    (h1 : FIXED_PHYSICS_DELTA_TIME ≤ st.physics_accumulator + e)
    (h2 : st.physics_accumulator + e < 2 * FIXED_PHYSICS_DELTA_TIME)
    (_hA : st.world.balls[i]? = some A)
    (hturn : (stateBefore m sc st.world i).balls[i]? = some A) (hact : A.active = true)
    (htex : A.texture_unit_index = 0)
    (hv : A.velocity = ⟨0, 0, 0⟩) (hp : pocket ∈ sc.pockets)
    (hpos : A.position = pocket.position)
    (hfelt : A.position.y - A.radius = FELT_SURFACE_Y_ACTUAL)
    (hrad : 0 ≤ A.radius + pocket.radius)
    (hno : ∀ j B, i < j → (stateBefore m sc st.world i).balls[j]? = some B → B.active = true →
      ¬ (A.position.sub B.position).length m < A.radius + B.radius)
    (hseg : ∀ seg, seg ∈ sc.pocketSegments ∨ seg ∈ sc.tableSegments →
      ¬ segmentDistance m A.position seg < A.radius) :
    (SimularColisoes m sc e st).world.cueBallPositioningMode = true ∧
    ∃ A', (SimularColisoes m sc e st).world.balls[i]? = some A' ∧ A'.active = true ∧
      A'.position = ⟨-(20 / 10000), BALL_Y_AXIS, 5680 / 10000⟩ ∧ A'.velocity = ⟨0, 0, 0⟩ := by
  obtain ⟨hball, hev⟩ := subStep_capture m hm sc st.world i A pocket hturn hact hv hp hpos
    hfelt hrad hno hseg
  have hi : i < st.world.balls.length := by
    by_contra h
    rw [List.getElem?_eq_none (by rw [stateBefore_length]; exact not_lt.mp h)] at hturn
    cases hturn
  have htex' : (integrate m A).texture_unit_index = 0 := by
    rw [(integrate_fields m A).2.2]; exact htex
  obtain ⟨cv, ccue, -⟩ := capture_spec (integrate m A)
    (stateBefore m sc st.world i).cueBallPositioningMode
  obtain ⟨-, cact, cpos⟩ := ccue htex'
  rw [SimularColisoes_one_step m sc e st h1 h2]
  constructor
  · rw [subStep_eq_stateBefore, stateBefore_flag]
    right
    refine ⟨i, hi, ?_⟩
    rw [hev]
    exact decide_eq_true htex
  · refine ⟨_, hball, ?_, cpos, cv⟩
    rw [cact, (integrate_fields m A).2.1]
    exact hact

/-- C4. Pocket capture of a non-primary sphere: let `A` be an active sphere with
texture unit other than 0 that rests (zero velocity, bottom on the felt) at the centre of a
pocket of the list, with `radius + pocket.radius ≥ 0`, that no sphere of lower index has written
when its turn comes, that overlaps no active sphere of higher index and is within its radius of
no segment.  After one sub-step it is inactive, its velocity is `(0, 0, 0)` and its position is
`(1000, 1000, 1000)`, outside the table bounds. -/
theorem C4_object_capture (m : MathLib K) (hm : m.Exact) (sc : Scene K) (w : World K)
    (i : Nat) (A : GameBall K) (pocket : Pocket K)
    (_hA : w.balls[i]? = some A)
    (hturn : (stateBefore m sc w i).balls[i]? = some A) (hact : A.active = true)
    (htex : A.texture_unit_index ≠ 0)
    (hv : A.velocity = ⟨0, 0, 0⟩) (hp : pocket ∈ sc.pockets)
    (hpos : A.position = pocket.position)
    (hfelt : A.position.y - A.radius = FELT_SURFACE_Y_ACTUAL)
    (hrad : 0 ≤ A.radius + pocket.radius)
    (hno : ∀ j B, i < j → (stateBefore m sc w i).balls[j]? = some B → B.active = true →
      ¬ (A.position.sub B.position).length m < A.radius + B.radius)
    (hseg : ∀ seg, seg ∈ sc.pocketSegments ∨ seg ∈ sc.tableSegments →
      ¬ segmentDistance m A.position seg < A.radius) :
    ∃ A', (subStep m sc w).balls[i]? = some A' ∧ A'.active = false ∧
      A'.velocity = ⟨0, 0, 0⟩ ∧ A'.position = ⟨1000, 1000, 1000⟩ ∧
      TABLE_HALF_WIDTH < |A'.position.x| ∧ TABLE_HALF_DEPTH < |A'.position.z| := by
  obtain ⟨hball, -⟩ := subStep_capture m hm sc w i A pocket hturn hact hv hp hpos
    hfelt hrad hno hseg
  have htex' : (integrate m A).texture_unit_index ≠ 0 := by
    rw [(integrate_fields m A).2.2]; exact htex
  obtain ⟨cv, -, cobj⟩ := capture_spec (integrate m A)
    (stateBefore m sc w i).cueBallPositioningMode
  obtain ⟨-, cact, cpos⟩ := cobj htex'
  refine ⟨_, hball, cact, cv, cpos, ?_, ?_⟩
  · rw [cpos]
    show (TABLE_HALF_WIDTH : K) < |(1000 : K)|
    rw [abs_of_nonneg (by norm_num)]
    unfold TABLE_HALF_WIDTH TABLE_WIDTH
    norm_num
  · rw [cpos]
    show (TABLE_HALF_DEPTH : K) < |(1000 : K)|
    rw [abs_of_nonneg (by norm_num)]
    unfold TABLE_HALF_DEPTH TABLE_DEPTH
    norm_num

/-- A sub-step on a world whose only ball rests at or below one gravity step above the felt, in
a scene without segments where no pocket captures it: the ball is the integrated ball. -/
theorem subStep_single_resting (m : MathLib K) (sc : Scene K) (w : World K)
    (A : GameBall K) (hA : w.balls[0]? = some A) (hlen : w.balls.length = 1)
    (hact : A.active = true)
    (hps : sc.pocketSegments = []) (hts : sc.tableSegments = [])
    (hpk : ∀ pocket, pocket ∈ sc.pockets → ¬ inPocket m (integrate m A) pocket) :
    (subStep m sc w).balls[0]? = some (integrate m A) := by
  have h := subStep_untouched m sc w 0 A hA hact
    (by
      intro j B hj hB
      have hnone : (stateBefore m sc w 0).balls[j]? = none := by
        apply List.getElem?_eq_none
        rw [stateBefore_length, hlen]
        omega
      rw [hnone] at hB
      cases hB)
    (by
      intro seg hseg
      rw [hps, hts] at hseg
      rcases hseg with h | h <;> cases h)
  rw [h, pocketLoop_of_none m sc.pockets _ _ hpk]

/-- Witness for C3: the cue ball at the corner pocket over the reals, one sub-step. -/
theorem C3_cue_capture_witness :
    (MathLib.mk Real.sqrt Real.sin Real.cos).Exact ∧
    (cueAtPocketState : SimState ℝ).world.balls[0]? = some cueAtPocket ∧
    (cueAtPocket : GameBall ℝ).position = (cornerPocket : Pocket ℝ).position ∧
    (SimularColisoes (MathLib.mk Real.sqrt Real.sin Real.cos) pocketScene (1 / 120)
      (cueAtPocketState : SimState ℝ)).world.cueBallPositioningMode = true ∧
    ∃ A', (SimularColisoes (MathLib.mk Real.sqrt Real.sin Real.cos) pocketScene (1 / 120)
        (cueAtPocketState : SimState ℝ)).world.balls[0]? = some A' ∧ A'.active = true ∧
      A'.position = ⟨-(20 / 10000), BALL_Y_AXIS, 5680 / 10000⟩ ∧ A'.velocity = ⟨0, 0, 0⟩ := by
  refine ⟨real_exact, rfl, rfl, ?_⟩
  apply C3_cue_capture (MathLib.mk Real.sqrt Real.sin Real.cos) real_exact pocketScene
    (cueAtPocketState : SimState ℝ) (1 / 120) 0 cueAtPocket cornerPocket
  · show (FIXED_PHYSICS_DELTA_TIME : ℝ) ≤ 0 + 1 / 120
    unfold FIXED_PHYSICS_DELTA_TIME; norm_num
  · show (0 : ℝ) + 1 / 120 < 2 * FIXED_PHYSICS_DELTA_TIME
    unfold FIXED_PHYSICS_DELTA_TIME; norm_num
  · rfl
  · rfl
  · rfl
  · rfl
  · rfl
  · exact List.mem_singleton.mpr rfl
  · rfl
  · rfl
  · show (0 : ℝ) ≤ BALL_VIRTUAL_RADIUS + 1 / 10
    unfold BALL_VIRTUAL_RADIUS; norm_num
  · intro j B hj hB
    have hnone : (stateBefore (MathLib.mk Real.sqrt Real.sin Real.cos) pocketScene
        (cueAtPocketState : SimState ℝ).world 0).balls[j]? = none := by
      apply List.getElem?_eq_none
      show 1 ≤ j
      omega
    rw [hnone] at hB
    cases hB
  · intro seg hseg
    rcases hseg with h | h <;> cases h

/-- Witness for C4: an object ball at the corner pocket over the reals. -/
theorem C4_object_capture_witness :
    (MathLib.mk Real.sqrt Real.sin Real.cos).Exact ∧
    (objectAtPocket : GameBall ℝ).position = (cornerPocket : Pocket ℝ).position ∧
    (objectAtPocket : GameBall ℝ).texture_unit_index ≠ 0 ∧
    ∃ A', (subStep (MathLib.mk Real.sqrt Real.sin Real.cos) pocketScene
        (⟨[objectAtPocket], [], false⟩ : World ℝ)).balls[0]? = some A' ∧ A'.active = false ∧
      A'.velocity = ⟨0, 0, 0⟩ ∧ A'.position = ⟨1000, 1000, 1000⟩ ∧
      TABLE_HALF_WIDTH < |A'.position.x| ∧ TABLE_HALF_DEPTH < |A'.position.z| := by
  refine ⟨real_exact, rfl, by decide, ?_⟩
  apply C4_object_capture (MathLib.mk Real.sqrt Real.sin Real.cos) real_exact pocketScene
    (⟨[objectAtPocket], [], false⟩ : World ℝ) 0 objectAtPocket cornerPocket
  · rfl
  · rfl
  · rfl
  · decide
  · rfl
  · exact List.mem_singleton.mpr rfl
  · rfl
  · rfl
  · show (0 : ℝ) ≤ BALL_VIRTUAL_RADIUS + 1 / 10
    unfold BALL_VIRTUAL_RADIUS; norm_num
  · intro j B hj hB
    have hnone : (stateBefore (MathLib.mk Real.sqrt Real.sin Real.cos) pocketScene
        (⟨[objectAtPocket], [], false⟩ : World ℝ) 0).balls[j]? = none := by
      apply List.getElem?_eq_none
      show 1 ≤ j
      omega
    rw [hnone] at hB
    cases hB
  · intro seg hseg
    rcases hseg with h | h <;> cases h

omit [FloorRing K] in
/-- The rebound velocity left by the integrator on a resting ball is not zero. -/
theorem rebound_velocity_ne_zero :
    (⟨0, RESTITUTION_COEFF * (GRAVITY * FIXED_PHYSICS_DELTA_TIME), 0⟩ : Vec3 K) ≠ ⟨0, 0, 0⟩ := by
  intro h
  have hy := congrArg Vec3.y h
  simp only at hy
  unfold RESTITUTION_COEFF GRAVITY FIXED_PHYSICS_DELTA_TIME at hy
  norm_num at hy

/-- Two sub-steps on the cue ball resting at the corner pocket: the first captures and re-spots
it, the second integrates the re-spotted ball, whose velocity is then the floor rebound. -/
theorem cue_two_steps (m : MathLib K) (hm : m.Exact) :
    ∃ A', (SimularColisoes m pocketScene (2 / 120) (cueAtPocketState : SimState K)).world.balls[0]?
        = some A' ∧
      A'.velocity = ⟨0, RESTITUTION_COEFF * (GRAVITY * FIXED_PHYSICS_DELTA_TIME), 0⟩ := by
  have hfl : ⌊((cueAtPocketState : SimState K).physics_accumulator + 2 / 120)
      / (FIXED_PHYSICS_DELTA_TIME : K)⌋ = 2 := by
    show ⌊((0 : K) + 2 / 120) / (FIXED_PHYSICS_DELTA_TIME : K)⌋ = 2
    rw [Int.floor_eq_iff]
    unfold FIXED_PHYSICS_DELTA_TIME
    constructor <;> norm_num
  have hworld : (SimularColisoes m pocketScene (2 / 120) (cueAtPocketState : SimState K)).world
      = subStep m pocketScene (subStep m pocketScene (cueAtPocketState : SimState K).world) := by
    rw [SimularColisoes_eq, hfl]
    rfl
  have hrad : (0 : K) ≤ (cueAtPocket : GameBall K).radius + (cornerPocket : Pocket K).radius := by
    show (0 : K) ≤ BALL_VIRTUAL_RADIUS + 1 / 10
    unfold BALL_VIRTUAL_RADIUS; norm_num
  obtain ⟨hball, -⟩ := subStep_capture m hm pocketScene (cueAtPocketState : SimState K).world 0
    cueAtPocket cornerPocket rfl rfl rfl (List.mem_singleton.mpr rfl) rfl rfl hrad
    (by
      intro j B hj hB
      have hnone : (stateBefore m pocketScene (cueAtPocketState : SimState K).world 0).balls[j]?
          = none := by
        apply List.getElem?_eq_none
        show 1 ≤ j
        omega
      rw [hnone] at hB
      cases hB)
    (by
      intro seg hseg
      rcases hseg with h | h <;> cases h)
  have htex : (integrate m (cueAtPocket : GameBall K)).texture_unit_index = 0 := by
    rw [(integrate_fields m _).2.2]; rfl
  obtain ⟨cv, ccue, -⟩ := capture_spec (integrate m (cueAtPocket : GameBall K))
    (stateBefore m pocketScene (cueAtPocketState : SimState K).world 0).cueBallPositioningMode
  obtain ⟨-, cact, cpos⟩ := ccue htex
  have crad := (capture_fields (integrate m (cueAtPocket : GameBall K))
    (stateBefore m pocketScene (cueAtPocketState : SimState K).world 0).cueBallPositioningMode).1
  rw [(integrate_fields m _).1] at crad
  rw [(integrate_fields m _).2.1] at cact
  generalize (capture (integrate m (cueAtPocket : GameBall K))
    (stateBefore m pocketScene (cueAtPocketState : SimState K).world 0).cueBallPositioningMode).1
    = A1 at hball cv cact cpos crad
  have hy1 : A1.position.y - A1.radius
      < FELT_SURFACE_Y_ACTUAL + GRAVITY * FIXED_PHYSICS_DELTA_TIME * FIXED_PHYSICS_DELTA_TIME := by
    rw [cpos, crad]
    show (BALL_Y_AXIS : K) - BALL_VIRTUAL_RADIUS < _
    unfold FELT_SURFACE_Y_ACTUAL GRAVITY FIXED_PHYSICS_DELTA_TIME
    norm_num
  obtain ⟨ipos, ivel⟩ := integrate_resting m hm A1 cv hy1
  have hlen : (subStep m pocketScene (cueAtPocketState : SimState K).world).balls.length = 1 := by
    rw [subStep_eq_stateBefore, stateBefore_length]
    rfl
  have hpk : ∀ pocket, pocket ∈ (pocketScene : Scene K).pockets →
      ¬ inPocket m (integrate m A1) pocket := by
    intro pocket hp
    have hpe : pocket = cornerPocket := List.mem_singleton.mp hp
    subst hpe
    unfold inPocket
    rw [ipos, (integrate_fields m A1).1, cpos, crad]
    apply not_le.mpr
    unfold Vec3.length
    apply hm.lt_sqrt
    simp only [Vec3.sub, Vec3.dot, cornerPocket, cueAtPocket, mkBall, FELT_SURFACE_Y_ACTUAL,
      BALL_Y_AXIS, BALL_VIRTUAL_RADIUS]
    norm_num
  refine ⟨integrate m A1, ?_, ivel⟩
  rw [hworld]
  exact subStep_single_resting m pocketScene _ A1 hball hlen (by rw [cact]; rfl) rfl rfl hpk

/-- Counterexample to C3 as stated: the cue ball at rest at the corner pocket, accumulator 0 and
`elapsed_time = 2/120 ≥ 1/120`, so that two sub-steps run: after the call the velocity of the
ball is not `(0, 0, 0)`. -/
theorem C3_counterexample :
    (cueAtPocketState : SimState ℝ).world.balls[0]? = some cueAtPocket ∧
    (cueAtPocket : GameBall ℝ).active = true ∧
    (cueAtPocket : GameBall ℝ).texture_unit_index = 0 ∧
    (cueAtPocket : GameBall ℝ).velocity = ⟨0, 0, 0⟩ ∧
    (cueAtPocket : GameBall ℝ).position = (cornerPocket : Pocket ℝ).position ∧
    (FIXED_PHYSICS_DELTA_TIME : ℝ) ≤ 2 / 120 ∧
    ∃ A', (SimularColisoes (MathLib.mk Real.sqrt Real.sin Real.cos) pocketScene (2 / 120)
        (cueAtPocketState : SimState ℝ)).world.balls[0]? = some A' ∧
      A'.velocity ≠ ⟨0, 0, 0⟩ := by
  refine ⟨rfl, rfl, rfl, rfl, rfl, ?_, ?_⟩
  · unfold FIXED_PHYSICS_DELTA_TIME; norm_num
  · obtain ⟨A', h1, h2⟩ := cue_two_steps (MathLib.mk Real.sqrt Real.sin Real.cos) real_exact
    exact ⟨A', h1, by rw [h2]; exact rebound_velocity_ne_zero⟩

end SubStepOneBall

/-! ## Theorems: floor containment -/

section Floor

variable {K : Type} [LinearOrderedField K] [FloorRing K]

theorem GRID_COLS_eq : GRID_COLS = 10 := by
  unfold GRID_COLS truncToInt
  have h : (0 : ℚ) ≤ (TABLE_WIDTH : ℚ) / GRID_CELL_SIZE := by
    unfold TABLE_WIDTH GRID_CELL_SIZE BALL_VIRTUAL_RADIUS; norm_num
  rw [if_pos h]
  have hf : ⌊(TABLE_WIDTH : ℚ) / GRID_CELL_SIZE⌋ = 9 := by
    rw [Int.floor_eq_iff]
    unfold TABLE_WIDTH GRID_CELL_SIZE BALL_VIRTUAL_RADIUS
    constructor <;> norm_num
  rw [hf]
  rfl

theorem GRID_ROWS_eq : GRID_ROWS = 22 := by
  unfold GRID_ROWS truncToInt
  have h : (0 : ℚ) ≤ (TABLE_DEPTH : ℚ) / GRID_CELL_SIZE := by
    unfold TABLE_DEPTH GRID_CELL_SIZE BALL_VIRTUAL_RADIUS; norm_num
  rw [if_pos h]
  have hf : ⌊(TABLE_DEPTH : ℚ) / GRID_CELL_SIZE⌋ = 21 := by
    rw [Int.floor_eq_iff]
    unfold TABLE_DEPTH GRID_CELL_SIZE BALL_VIRTUAL_RADIUS
    constructor <;> norm_num
  rw [hf]
  rfl

/-- Lines 62–183 for a ball that, once integrated, overlaps no active ball of higher index: the
integrator, then the segment responses. -/
theorem moveAndCollide_no_sphere (m : MathLib K) (sc : Scene K) (grid : Grid) (i : Nat)
    (balls : List (GameBall K)) (A : GameBall K) (hA : balls[i]? = some A)
    (hno : ∀ j B, i < j → balls[j]? = some B → B.active = true →
      ¬ ((integrate m A).position.sub B.position).length m < (integrate m A).radius + B.radius) :
    moveAndCollide m sc grid i balls = balls.set i
      (sc.tableSegments.foldl (tableSegmentResponse m)
        (sc.pocketSegments.foldl (pocketSegmentResponse m) (integrate m A))) := by
  have hi : i < balls.length := by
    by_contra h
    rw [List.getElem?_eq_none (not_lt.mp h)] at hA
    cases hA
  have hget : (balls.set i (integrate m A))[i]? = some (integrate m A) :=
    List.getElem?_set_self hi
  have hno' : ∀ j B, i < j → (balls.set i (integrate m A))[j]? = some B → B.active = true →
      ¬ ((integrate m A).position.sub B.position).length m
        < (integrate m A).radius + B.radius := by
    intro j B hij hB
    rw [List.getElem?_set_ne (by omega)] at hB
    exact hno j B hij hB
  unfold moveAndCollide
  rw [hA]
  simp only
  rw [sphereCollisions_untouched m grid i _ _ hget hno', hget]
  simp only
  rw [List.set_set]

theorem emptyGrid_eq : emptyGrid = List.replicate 10 (List.replicate 22 []) := by
  unfold emptyGrid
  rw [GRID_COLS_eq, GRID_ROWS_eq]
  rfl

/-- One iteration for an active ball is lines 62–183 followed by the pocket loop. -/
theorem processBall_active (m : MathLib K) (sc : Scene K) (w : World K) (i : Nat)
    (A : GameBall K) (hA : w.balls[i]? = some A) (hact : A.active = true) :
    processBall m sc w i =
      pocketPhase m sc i { w with balls := moveAndCollide m sc w.spatialGrid i w.balls } := by
  unfold processBall
  rw [hA]
  simp only [hact, Bool.not_true, Bool.false_eq_true, if_false]

omit [FloorRing K] in
/-- Without pockets the pocket loop changes no ball. -/
theorem pocketPhase_no_pockets (m : MathLib K) (sc : Scene K) (i : Nat) (w : World K)
    (hp : sc.pockets = []) : (pocketPhase m sc i w).balls = w.balls := by
  unfold pocketPhase
  cases h : w.balls[i]? with
  | none => rfl
  | some X =>
    simp only [hp, pocketLoop]
    exact set_same _ i X h

end Floor

/-! ## Theorems: the sphere–sphere impulse -/

section Impulse

variable {K : Type} [LinearOrderedField K]

end Impulse

/-! ## Theorems: determinism -/

section Determinism

variable {K : Type} [LinearOrderedField K] [FloorRing K]

/-- A sub-step does not read the grid it receives. -/
theorem subStep_ignores_grid (m : MathLib K) (sc : Scene K) (w w' : World K)
    (hb : w.balls = w'.balls) (hf : w.cueBallPositioningMode = w'.cueBallPositioningMode) :
    subStep m sc w = subStep m sc w' := by
  obtain ⟨b, g, f⟩ := w
  obtain ⟨b', g', f'⟩ := w'
  simp only at hb hf
  subst hb hf
  rfl

theorem iterate_subStep_ignores_grid (m : MathLib K) (sc : Scene K) (n : Nat) (w w' : World K)
    (hb : w.balls = w'.balls) (hf : w.cueBallPositioningMode = w'.cueBallPositioningMode) :
    ((subStep m sc)^[n] w).balls = ((subStep m sc)^[n] w').balls ∧
    ((subStep m sc)^[n] w).cueBallPositioningMode
      = ((subStep m sc)^[n] w').cueBallPositioningMode := by
  cases n with
  | zero => exact ⟨hb, hf⟩
  | succ n =>
    rw [Function.iterate_succ_apply, Function.iterate_succ_apply,
      subStep_ignores_grid m sc w w' hb hf]
    exact ⟨rfl, rfl⟩

/-- One call maps states that agree on accumulator, balls and flag to states that agree on them. -/
theorem SimularColisoes_agree (m : MathLib K) (sc : Scene K) (e : K) (st st' : SimState K)
    (hacc : st.physics_accumulator = st'.physics_accumulator)
    (hb : st.world.balls = st'.world.balls)
    (hf : st.world.cueBallPositioningMode = st'.world.cueBallPositioningMode) :
    (SimularColisoes m sc e st).physics_accumulator
      = (SimularColisoes m sc e st').physics_accumulator ∧
    (SimularColisoes m sc e st).world.balls = (SimularColisoes m sc e st').world.balls ∧
    (SimularColisoes m sc e st).world.cueBallPositioningMode
      = (SimularColisoes m sc e st').world.cueBallPositioningMode := by
  rw [SimularColisoes_eq m sc e st, SimularColisoes_eq m sc e st', hacc]
  exact ⟨rfl, iterate_subStep_ignores_grid m sc _ _ _ hb hf⟩

/-- C19. Determinism: the embedding of `SimularColisoes` is a function of the elapsed time, the
accumulator, the balls, the segments, the pockets, the flag and the grid buffer; its result on
balls, flag and accumulator does not depend on the grid buffer.  Two runs that start with the
same accumulator, balls and flag (and any contents of the grid buffer), in the same scene and
with the same sequence of elapsed times, have the same accumulator, the same balls (all fields)
and the same flag after every call. -/
theorem C19_determinism (m : MathLib K) (sc : Scene K) (es : List K) :
    ∀ st st' : SimState K,
      st.physics_accumulator = st'.physics_accumulator →
      st.world.balls = st'.world.balls →
      st.world.cueBallPositioningMode = st'.world.cueBallPositioningMode →
      (runCalls m sc es st).physics_accumulator = (runCalls m sc es st').physics_accumulator ∧
      (runCalls m sc es st).world.balls = (runCalls m sc es st').world.balls ∧
      (runCalls m sc es st).world.cueBallPositioningMode
        = (runCalls m sc es st').world.cueBallPositioningMode := by
  induction es with
  | nil => intro st st' h1 h2 h3; exact ⟨h1, h2, h3⟩
  | cons e es ih =>
    intro st st' h1 h2 h3
    obtain ⟨g1, g2, g3⟩ := SimularColisoes_agree m sc e st st' h1 h2 h3
    exact ih _ _ g1 g2 g3

/-- Witness for C19: the one-ball state with an empty and with a stale grid buffer, through the
calls with elapsed times 1/100 and 1/50. -/
theorem C19_determinism_witness :
    (oneBallState 0).physics_accumulator = (oneBallStateStaleGrid 0).physics_accumulator ∧
    (oneBallState 0).world.balls = (oneBallStateStaleGrid 0).world.balls ∧
    (oneBallState 0).world.spatialGrid ≠ (oneBallStateStaleGrid 0).world.spatialGrid ∧
    (runCalls ratMath emptyScene [1 / 100, 1 / 50] (oneBallState 0)).world.balls
      = (runCalls ratMath emptyScene [1 / 100, 1 / 50] (oneBallStateStaleGrid 0)).world.balls :=
  ⟨rfl, rfl, by decide,
    (C19_determinism ratMath emptyScene [1 / 100, 1 / 50] (oneBallState 0)
      (oneBallStateStaleGrid 0) rfl rfl rfl).2.1⟩

end Determinism

/-! ## Theorems: the capture condition and the processing order -/

section Order

variable {K : Type} [LinearOrderedField K] [FloorRing K]

omit [FloorRing K] in
/-- The pockets tested by the loop when the first passing pocket is `pocket`: those before it
and `pocket` itself, none after it. -/
theorem pocketLoopTested_of_first (m : MathLib K) (A : GameBall K) (pocket : Pocket K)
    (post : List (Pocket K)) (hin : inPocket m A pocket) :
    ∀ pre : List (Pocket K), (∀ q, q ∈ pre → ¬ inPocket m A q) →
      pocketLoopTested m (pre ++ pocket :: post) A = pre ++ [pocket] := by
  intro pre
  induction pre with
  | nil => intro _; simp [pocketLoopTested, hin]
  | cons q qs ih =>
    intro h
    have hq : ¬ inPocket m A q := h q (List.mem_cons_self _ _)
    have ih' := ih (fun p hp => h p (List.mem_cons_of_mem _ hp))
    show pocketLoopTested m (q :: (qs ++ pocket :: post)) A = q :: (qs ++ [pocket])
    rw [pocketLoopTested, if_neg hq, ih']

omit [FloorRing K] in
/-- All pockets are tested when none passes. -/
theorem pocketLoopTested_of_none (m : MathLib K) (A : GameBall K) :
    ∀ pockets : List (Pocket K), (∀ q, q ∈ pockets → ¬ inPocket m A q) →
      pocketLoopTested m pockets A = pockets := by
  intro pockets
  induction pockets with
  | nil => intro _; rfl
  | cons q qs ih =>
    intro h
    have hq : ¬ inPocket m A q := h q (List.mem_cons_self _ _)
    simp only [pocketLoopTested, hq, if_false]
    rw [ih (fun p hp => h p (List.mem_cons_of_mem _ hp))]

/-- The ball `i` is present after lines 62–183 when it was present before. -/
theorem moveAndCollide_present (m : MathLib K) (sc : Scene K) (grid : Grid) (i : Nat)
    (balls : List (GameBall K)) (A : GameBall K) (hA : balls[i]? = some A) :
    ∃ X, (moveAndCollide m sc grid i balls)[i]? = some X := by
  have hi : i < balls.length := by
    by_contra h
    rw [List.getElem?_eq_none (not_lt.mp h)] at hA
    cases hA
  have hi' : i < (moveAndCollide m sc grid i balls).length := by
    rw [moveAndCollide_length]; exact hi
  exact ⟨_, List.getElem?_eq_getElem hi'⟩

/-- C14. Pocket capture condition: let `A` be an active sphere at its turn in the sub-step and
`X` the same sphere at the end of its collision processing (lines 62–183).  The iteration ends
with `X` and the flag replaced by the result of the pocket loop, and that result is the capture
effect applied once to `X` if some pocket of the list has
`|X.position - pocket.position| ≤ X.radius + pocket.radius` (equality included), and `X` and the
flag unchanged otherwise.  When `pocket` is the first pocket of the list that passes the test,
the pockets tested are those before it and `pocket`; no pocket after it is tested. -/
theorem C14_pocket_capture_condition (m : MathLib K) (sc : Scene K) (w : World K) (i : Nat)
    (A : GameBall K) (hA : w.balls[i]? = some A) (hact : A.active = true) :
    ∃ X, (moveAndCollide m sc w.spatialGrid i w.balls)[i]? = some X ∧
      processBall m sc w i =
        { balls := (moveAndCollide m sc w.spatialGrid i w.balls).set i
            (pocketLoop m sc.pockets X w.cueBallPositioningMode).1,
          spatialGrid := w.spatialGrid,
          cueBallPositioningMode := (pocketLoop m sc.pockets X w.cueBallPositioningMode).2 } ∧
      ((∃ pocket, pocket ∈ sc.pockets ∧
          (X.position.sub pocket.position).length m ≤ X.radius + pocket.radius) →
        pocketLoop m sc.pockets X w.cueBallPositioningMode
          = capture X w.cueBallPositioningMode) ∧
      ((¬ ∃ pocket, pocket ∈ sc.pockets ∧
          (X.position.sub pocket.position).length m ≤ X.radius + pocket.radius) →
        pocketLoop m sc.pockets X w.cueBallPositioningMode = (X, w.cueBallPositioningMode)) ∧
      (∀ pocket, (X.position.sub pocket.position).length m = X.radius + pocket.radius →
        inPocket m X pocket) ∧
      (∀ pre pocket post, sc.pockets = pre ++ pocket :: post →
        (∀ q, q ∈ pre → ¬ inPocket m X q) → inPocket m X pocket →
        pocketLoopTested m sc.pockets X = pre ++ [pocket]) ∧
      ((∀ q, q ∈ sc.pockets → ¬ inPocket m X q) → pocketLoopTested m sc.pockets X = sc.pockets) := by
  obtain ⟨X, hX⟩ := moveAndCollide_present m sc w.spatialGrid i w.balls A hA
  refine ⟨X, hX, ?_, ?_, ?_, ?_, ?_, ?_⟩
  · rw [processBall_active m sc w i A hA hact]
    unfold pocketPhase
    simp only [hX]
  · rintro ⟨pocket, hp, hin⟩
    exact pocketLoop_of_mem m sc.pockets X _ pocket hp hin
  · intro hno
    apply pocketLoop_of_none
    intro pocket hp hin
    exact hno ⟨pocket, hp, hin⟩
  · intro pocket heq
    exact le_of_eq heq
  · intro pre pocket post hps hpre hin
    rw [hps]
    exact pocketLoopTested_of_first m X pocket post hin pre hpre
  · intro hnone
    exact pocketLoopTested_of_none m X sc.pockets hnone

/-- Witness for C14: the cue ball at the corner pocket over the rationals. -/
theorem C14_pocket_capture_condition_witness :
    (cueAtPocketState : SimState ℚ).world.balls[0]? = some cueAtPocket ∧
    (cueAtPocket : GameBall ℚ).active = true ∧
    ∃ X, (moveAndCollide ratMath pocketScene (cueAtPocketState : SimState ℚ).world.spatialGrid 0
        (cueAtPocketState : SimState ℚ).world.balls)[0]? = some X ∧
      ((∀ q, q ∈ (pocketScene : Scene ℚ).pockets → ¬ inPocket ratMath X q) →
        pocketLoopTested ratMath (pocketScene : Scene ℚ).pockets X
          = (pocketScene : Scene ℚ).pockets) := by
  refine ⟨rfl, rfl, ?_⟩
  obtain ⟨X, h1, -, -, -, -, -, h7⟩ := C14_pocket_capture_condition ratMath pocketScene
    (cueAtPocketState : SimState ℚ).world 0 cueAtPocket rfl rfl
  exact ⟨X, h1, h7⟩

/-- C16. Processing order: a sub-step rebuilds the grid and then runs the iterations for the
indices `0 .. N-1` in this order; the iteration of an active sphere `A = balls[i]` is, in this
order: the integrator on `A`; the sphere–sphere loops over the grid neighbourhood (giving `A2`
at index `i`); the response to every pocket-entry segment in list order; the response to every
table (cushion) segment in list order; the pocket loop. -/
theorem C16_processing_order (m : MathLib K) (sc : Scene K) (w : World K) (i : Nat)
    (A : GameBall K) (hA : w.balls[i]? = some A) (hact : A.active = true) :
    subStep m sc w = (List.range w.balls.length).foldl (processBall m sc)
      { w with spatialGrid := updateSpatialGrid w.balls } ∧
    ∃ A2, (sphereCollisions m w.spatialGrid i (w.balls.set i (integrate m A)))[i]? = some A2 ∧
      processBall m sc w i =
        { balls := (sphereCollisions m w.spatialGrid i (w.balls.set i (integrate m A))).set i
            (pocketLoop m sc.pockets
              (sc.tableSegments.foldl (tableSegmentResponse m)
                (sc.pocketSegments.foldl (pocketSegmentResponse m) A2))
              w.cueBallPositioningMode).1,
          spatialGrid := w.spatialGrid,
          cueBallPositioningMode := (pocketLoop m sc.pockets
              (sc.tableSegments.foldl (tableSegmentResponse m)
                (sc.pocketSegments.foldl (pocketSegmentResponse m) A2))
              w.cueBallPositioningMode).2 } := by
  have hi : i < w.balls.length := by
    by_contra h
    rw [List.getElem?_eq_none (not_lt.mp h)] at hA
    cases hA
  have hi2 : i < (sphereCollisions m w.spatialGrid i (w.balls.set i (integrate m A))).length := by
    rw [sphereCollisions_length, List.length_set]; exact hi
  refine ⟨rfl, _, List.getElem?_eq_getElem hi2, ?_⟩
  rw [processBall_active m sc w i A hA hact]
  unfold pocketPhase moveAndCollide
  simp only [hA, List.getElem?_eq_getElem hi2, List.getElem?_set_self hi2, List.set_set]

/-- Witness for C16: the cue ball at the corner pocket over the rationals. -/
theorem C16_processing_order_witness :
    (cueAtPocketState : SimState ℚ).world.balls[0]? = some cueAtPocket ∧
    (cueAtPocket : GameBall ℚ).active = true ∧
    subStep ratMath pocketScene (cueAtPocketState : SimState ℚ).world
      = (List.range (cueAtPocketState : SimState ℚ).world.balls.length).foldl
          (processBall ratMath pocketScene)
          { (cueAtPocketState : SimState ℚ).world with
            spatialGrid := updateSpatialGrid (cueAtPocketState : SimState ℚ).world.balls } :=
  ⟨rfl, rfl, (C16_processing_order ratMath pocketScene (cueAtPocketState : SimState ℚ).world 0
    cueAtPocket rfl rfl).1⟩

end Order

/-! ## Theorems: the segment response -/

section Segment

variable {K : Type} [LinearOrderedField K]

/-- A pocket-entry segment response whose test has passed writes the pushed position. -/
theorem pocketSegmentResponse_position (m : MathLib K) (A : GameBall K)
    (seg : BoundingSegment K) (h : segmentDistance m A.position seg < A.radius) :
    (pocketSegmentResponse m A seg).position = pushedPosition m A.position A.radius seg ∧
    (pocketSegmentResponse m A seg).radius = A.radius := by
  simp only [segmentDistance] at h
  simp only [pocketSegmentResponse, h, if_true, pushedPosition]
  split <;> exact ⟨rfl, rfl⟩

/-- A table segment response whose test has passed writes the pushed position. -/
theorem tableSegmentResponse_position (m : MathLib K) (A : GameBall K)
    (seg : BoundingSegment K) (h : segmentDistance m A.position seg < A.radius) :
    (tableSegmentResponse m A seg).position = pushedPosition m A.position A.radius seg ∧
    (tableSegmentResponse m A seg).radius = A.radius := by
  simp only [segmentDistance] at h
  simp only [tableSegmentResponse, h, if_true, pushedPosition]
  split <;> exact ⟨rfl, rfl⟩

/-- The clamped projection parameter is unchanged by a push away from the closest point. -/
theorem clamp_push (u k : K) (hk : 0 ≤ k) :
    clamp (u + k * (u - clamp u 0 1)) 0 1 = clamp u 0 1 := by
  unfold clamp
  rcases lt_trichotomy u 0 with h | h | h
  · have e1 : min (max u 0) 1 = 0 := by
      rw [max_eq_right (le_of_lt h), min_eq_left (by norm_num)]
    rw [e1, sub_zero]
    have h2 : u + k * u ≤ 0 := by nlinarith
    rw [max_eq_right h2, min_eq_left (by norm_num)]
  · subst h; simp
  · rcases le_or_lt u 1 with h1 | h1
    · have e1 : min (max u 0) 1 = u := by
        rw [max_eq_left (le_of_lt h), min_eq_left h1]
      rw [e1, sub_self, mul_zero, add_zero, e1]
    · have e1 : min (max u 0) 1 = 1 := by
        rw [max_eq_left (le_of_lt h), min_eq_right (le_of_lt h1)]
      rw [e1]
      have h2 : 1 ≤ u + k * (u - 1) := by nlinarith
      rw [max_eq_left (by linarith), min_eq_right h2]

/-- The algebra of the push: with `u` the projection parameter, `t` its clamped value, `(nx, nz)`
the vector from the closest point to the centre and `d` its length, the centre pushed by `r - d`
along `(nx, nz) / d` has the same clamped parameter and is at distance `r` from the closest
point. -/
theorem push_algebra (m : MathLib K) (hm : m.Exact) (p1x p1z sx sz ax az r u t nx nz d : K)
    (hS : sx * sx + sz * sz ≠ 0)
    (hu : u = ((ax - p1x) * sx + (az - p1z) * sz) / (sx * sx + sz * sz))
    (ht : t = clamp u 0 1)
    (hnx : nx = ax - (p1x + sx * t)) (hnz : nz = az - (p1z + sz * t))
    (hd : d = m.sqrt (nx * nx + nz * nz))
    (hpos : 0 < d) (hlt : d < r) :
    m.sqrt
      ((ax + nx * (1 / d) * (r - d) - (p1x + sx * clamp
          (((ax + nx * (1 / d) * (r - d) - p1x) * sx + (az + nz * (1 / d) * (r - d) - p1z) * sz)
            / (sx * sx + sz * sz)) 0 1))
        * (ax + nx * (1 / d) * (r - d) - (p1x + sx * clamp
          (((ax + nx * (1 / d) * (r - d) - p1x) * sx + (az + nz * (1 / d) * (r - d) - p1z) * sz)
            / (sx * sx + sz * sz)) 0 1))
      + (az + nz * (1 / d) * (r - d) - (p1z + sz * clamp
          (((ax + nx * (1 / d) * (r - d) - p1x) * sx + (az + nz * (1 / d) * (r - d) - p1z) * sz)
            / (sx * sx + sz * sz)) 0 1))
        * (az + nz * (1 / d) * (r - d) - (p1z + sz * clamp
          (((ax + nx * (1 / d) * (r - d) - p1x) * sx + (az + nz * (1 / d) * (r - d) - p1z) * sz)
            / (sx * sx + sz * sz)) 0 1))) = r := by
  have hDnn : 0 ≤ nx * nx + nz * nz := by nlinarith [mul_self_nonneg nx, mul_self_nonneg nz]
  have hD : d * d = nx * nx + nz * nz := by rw [hd]; exact hm.sqrt_mul_self hDnn
  have hdne : d ≠ 0 := ne_of_gt hpos
  have hk : 0 ≤ (r - d) / d := div_nonneg (by linarith) (le_of_lt hpos)
  have hbs : (ax - p1x) * sx + (az - p1z) * sz = u * (sx * sx + sz * sz) := by
    rw [hu]; field_simp
  have hns : nx * sx + nz * sz = (sx * sx + sz * sz) * (u - t) := by
    rw [hnx, hnz]
    linear_combination hbs
  have hu' : ((ax + nx * (1 / d) * (r - d) - p1x) * sx
      + (az + nz * (1 / d) * (r - d) - p1z) * sz) / (sx * sx + sz * sz)
      = u + (r - d) / d * (u - t) := by
    have e : (ax + nx * (1 / d) * (r - d) - p1x) * sx
        + (az + nz * (1 / d) * (r - d) - p1z) * sz
        = (u + (r - d) / d * (u - t)) * (sx * sx + sz * sz) := by
      have e1 : (ax + nx * (1 / d) * (r - d) - p1x) * sx
          + (az + nz * (1 / d) * (r - d) - p1z) * sz
          = ((ax - p1x) * sx + (az - p1z) * sz) + (r - d) / d * (nx * sx + nz * sz) := by
        field_simp
        ring
      rw [e1, hns, hbs]
      ring
    rw [e, mul_div_assoc, div_self hS, mul_one]
  rw [hu', ht, clamp_push u _ hk, ← ht]
  have hx : ax + nx * (1 / d) * (r - d) - (p1x + sx * t) = nx * (r / d) := by
    rw [hnx]; field_simp; ring
  have hz : az + nz * (1 / d) * (r - d) - (p1z + sz * t) = nz * (r / d) := by
    rw [hnz]; field_simp; ring
  rw [hx, hz]
  have hr : 0 ≤ r := le_of_lt (lt_trans hpos hlt)
  have hrr : nx * (r / d) * (nx * (r / d)) + nz * (r / d) * (nz * (r / d)) = r * r := by
    field_simp
    linear_combination (-(r * r)) * hD
  rw [hrr]
  exact hm.sqrt_sq hr

/-- After the push the distance from the centre to the closest point of the segment is the
radius. -/
theorem segmentDistance_pushedPosition (m : MathLib K) (hm : m.Exact) (pos : Vec3 K) (r : K)
    (seg : BoundingSegment K) (hnd : seg.p1.x ≠ seg.p2.x ∨ seg.p1.z ≠ seg.p2.z)
    (hpos : 0 < segmentDistance m pos seg) (hlt : segmentDistance m pos seg < r) :
    segmentDistance m (pushedPosition m pos r seg) seg = r := by
  have hS : (seg.p2.x - seg.p1.x) * (seg.p2.x - seg.p1.x)
      + (seg.p2.z - seg.p1.z) * (seg.p2.z - seg.p1.z) ≠ 0 := by
    apply ne_of_gt
    rcases hnd with h | h
    · have : seg.p2.x - seg.p1.x ≠ 0 := sub_ne_zero.mpr (Ne.symm h)
      nlinarith [mul_self_nonneg (seg.p2.z - seg.p1.z), mul_self_pos.mpr this]
    · have : seg.p2.z - seg.p1.z ≠ 0 := sub_ne_zero.mpr (Ne.symm h)
      nlinarith [mul_self_nonneg (seg.p2.x - seg.p1.x), mul_self_pos.mpr this]
  simp only [segmentDistance, pushedPosition, Vec2.dot, Vec2.add, Vec2.sub, Vec2.scale,
    Vec2.length, Vec2.normalize] at hpos hlt ⊢
  exact push_algebra m hm seg.p1.x seg.p1.z _ _ pos.x pos.z r _ _ _ _ _ hS rfl rfl rfl rfl rfl
    hpos hlt

/-- The exact root of a square is the absolute value. -/
theorem MathLib.Exact.sqrt_mul_self_abs {m : MathLib K} (hm : m.Exact) (x : K) :
    m.sqrt (x * x) = |x| := by
  rw [← abs_mul_abs_self x]
  exact hm.sqrt_sq (abs_nonneg x)

/-- Distance from a centre at `z = 0` to a segment along `x = a` from `z = -1` to `z = 1`. -/
theorem segmentDistance_wall (m : MathLib K) (hm : m.Exact) (pos : Vec3 K)
    (seg : BoundingSegment K) (a : K) (h1x : seg.p1.x = a) (h2x : seg.p2.x = a)
    (h1z : seg.p1.z = -1) (h2z : seg.p2.z = 1) (hz : pos.z = 0) :
    segmentDistance m pos seg = |pos.x - a| := by
  have hc : clamp ((1 : K) / 2) 0 1 = 1 / 2 := by
    unfold clamp
    rw [max_eq_left (by norm_num), min_eq_left (by norm_num)]
  simp only [segmentDistance, Vec2.dot, Vec2.add, Vec2.sub, Vec2.scale, Vec2.length,
    h1x, h2x, h1z, h2z, hz]
  have e : ((pos.x - a) * (a - a) + (0 - -1) * (1 - -1)) / ((a - a) * (a - a)
      + ((1 : K) - -1) * (1 - -1)) = 1 / 2 := by
    norm_num
  rw [e, hc]
  have e2 : (pos.x - (a + (a - a) * (1 / 2))) * (pos.x - (a + (a - a) * (1 / 2)))
      + (0 - (-1 + ((1 : K) - -1) * (1 / 2))) * (0 - (-1 + (1 - -1) * (1 / 2)))
      = (pos.x - a) * (pos.x - a) := by
    ring
  rw [e2]
  exact hm.sqrt_mul_self_abs _

/-- The pushed position for a centre at `z = 0` and a segment along `x = a` from `z = -1` to
`z = 1`. -/
theorem pushedPosition_wall (m : MathLib K) (hm : m.Exact) (pos : Vec3 K) (r : K)
    (seg : BoundingSegment K) (a : K) (h1x : seg.p1.x = a) (h2x : seg.p2.x = a)
    (h1z : seg.p1.z = -1) (h2z : seg.p2.z = 1) (hz : pos.z = 0) :
    pushedPosition m pos r seg
      = ⟨pos.x + (pos.x - a) / |pos.x - a| * (r - |pos.x - a|), pos.y, 0⟩ := by
  have hc : clamp ((1 : K) / 2) 0 1 = 1 / 2 := by
    unfold clamp
    rw [max_eq_left (by norm_num), min_eq_left (by norm_num)]
  simp only [pushedPosition, Vec2.dot, Vec2.add, Vec2.sub, Vec2.scale, Vec2.length,
    Vec2.normalize, h1x, h2x, h1z, h2z, hz]
  have e : ((pos.x - a) * (a - a) + (0 - -1) * (1 - -1)) / ((a - a) * (a - a)
      + ((1 : K) - -1) * (1 - -1)) = 1 / 2 := by
    norm_num
  rw [e, hc]
  have e2 : (pos.x - (a + (a - a) * (1 / 2))) * (pos.x - (a + (a - a) * (1 / 2)))
      + (0 - (-1 + ((1 : K) - -1) * (1 / 2))) * (0 - (-1 + (1 - -1) * (1 / 2)))
      = (pos.x - a) * (pos.x - a) := by
    ring
  rw [e2, hm.sqrt_mul_self_abs]
  congr 1
  · ring
  · ring

/-- A table segment response whose test has passed, for a ball without horizontal velocity:
only the position changes. -/
theorem tableSegmentResponse_still (m : MathLib K) (A : GameBall K) (seg : BoundingSegment K)
    (h : segmentDistance m A.position seg < A.radius)
    (hvx : A.velocity.x = 0) (hvz : A.velocity.z = 0) :
    tableSegmentResponse m A seg
      = { A with position := pushedPosition m A.position A.radius seg } := by
  have h0 : ∀ v : Vec2 K, Vec2.dot (⟨0, 0⟩ : Vec2 K) v = 0 := by
    intro v; simp [Vec2.dot]
  simp only [segmentDistance] at h
  simp only [tableSegmentResponse, h, if_true, hvx, hvz, h0, lt_irrefl, if_false,
    pushedPosition]

/-- The two segment loops apply the same response. -/
theorem pocketSegmentResponse_eq_table (m : MathLib K) (A : GameBall K)
    (seg : BoundingSegment K) : pocketSegmentResponse m A seg = tableSegmentResponse m A seg :=
  rfl

/-- C11 (amended). No residual sphere–segment penetration, in exact arithmetic: for a segment
with `p1 ≠ p2` in the XZ plane
and a sphere whose centre is at horizontal distance `d` from the segment (closest point with the
clamped projection) with `0 < d < radius`, after the segment response (pocket-entry loop or
table loop) the horizontal distance from the centre to the closest point of the segment,
recomputed with the clamped projection, equals the radius, hence is at least the radius. -/
theorem C11_no_residual_segment_penetration (m : MathLib K) (hm : m.Exact) (A : GameBall K)
    (seg : BoundingSegment K) (hnd : seg.p1.x ≠ seg.p2.x ∨ seg.p1.z ≠ seg.p2.z)
    (hpos : 0 < segmentDistance m A.position seg)
    (hlt : segmentDistance m A.position seg < A.radius) :
    segmentDistance m (pocketSegmentResponse m A seg).position seg
      = (pocketSegmentResponse m A seg).radius ∧
    (pocketSegmentResponse m A seg).radius
      ≤ segmentDistance m (pocketSegmentResponse m A seg).position seg ∧
    segmentDistance m (tableSegmentResponse m A seg).position seg
      = (tableSegmentResponse m A seg).radius ∧
    (tableSegmentResponse m A seg).radius
      ≤ segmentDistance m (tableSegmentResponse m A seg).position seg := by
  obtain ⟨pp, pr⟩ := pocketSegmentResponse_position m A seg hlt
  obtain ⟨tp, tr⟩ := tableSegmentResponse_position m A seg hlt
  have h := segmentDistance_pushedPosition m hm A.position A.radius seg hnd hpos hlt
  rw [pp, pr, tp, tr, h]
  exact ⟨rfl, le_refl _, rfl, le_refl _⟩

/-- Witness for C11: a ball of radius 0.02625 at distance 0.01 from `guardWall`, over the
reals. -/
theorem C11_no_residual_segment_penetration_witness :
    (MathLib.mk Real.sqrt Real.sin Real.cos).Exact ∧
    segmentDistance (MathLib.mk Real.sqrt Real.sin Real.cos) (lowerBall : GameBall ℝ).position
      guardWall = 1 / 100 ∧
    segmentDistance (MathLib.mk Real.sqrt Real.sin Real.cos)
      (tableSegmentResponse (MathLib.mk Real.sqrt Real.sin Real.cos) (lowerBall : GameBall ℝ)
        guardWall).position guardWall
      = (tableSegmentResponse (MathLib.mk Real.sqrt Real.sin Real.cos) (lowerBall : GameBall ℝ)
        guardWall).radius := by
  have hd : segmentDistance (MathLib.mk Real.sqrt Real.sin Real.cos)
      (lowerBall : GameBall ℝ).position guardWall = 1 / 100 := by
    rw [segmentDistance_wall _ real_exact _ guardWall (-(1 / 100)) rfl rfl rfl rfl rfl]
    show |(0 : ℝ) - -(1 / 100)| = 1 / 100
    rw [abs_of_nonneg (by norm_num)]
    norm_num
  refine ⟨real_exact, hd, ?_⟩
  refine (C11_no_residual_segment_penetration _ real_exact lowerBall guardWall
    (Or.inr ?_) ?_ ?_).2.2.1
  · show (-1 : ℝ) ≠ 1
    norm_num
  · rw [hd]; norm_num
  · rw [hd]
    show (1 / 100 : ℝ) < BALL_VIRTUAL_RADIUS
    unfold BALL_VIRTUAL_RADIUS
    norm_num

/-- Response of a ball without horizontal velocity at `z = 0`, right of a segment along `x = a`
from `z = -1` to `z = 1` and nearer than its radius: it is put at `x = a + radius`. -/
theorem wall_response_right (m : MathLib K) (hm : m.Exact) (A : GameBall K)
    (seg : BoundingSegment K) (a : K) (h1x : seg.p1.x = a) (h2x : seg.p2.x = a)
    (h1z : seg.p1.z = -1) (h2z : seg.p2.z = 1) (hz : A.position.z = 0)
    (hvx : A.velocity.x = 0) (hvz : A.velocity.z = 0)
    (hgt : a < A.position.x) (hlt : A.position.x - a < A.radius) :
    tableSegmentResponse m A seg
      = { A with position := ⟨a + A.radius, A.position.y, 0⟩ } := by
  have habs : |A.position.x - a| = A.position.x - a := abs_of_pos (by linarith)
  have hd : segmentDistance m A.position seg < A.radius := by
    rw [segmentDistance_wall m hm _ seg a h1x h2x h1z h2z hz, habs]; exact hlt
  rw [tableSegmentResponse_still m A seg hd hvx hvz,
    pushedPosition_wall m hm _ _ seg a h1x h2x h1z h2z hz, habs]
  have hne : A.position.x - a ≠ 0 := by linarith
  congr 2
  field_simp
  ring

/-- Response of a ball without horizontal velocity at `z = 0`, left of a segment along `x = a`
from `z = -1` to `z = 1` and nearer than its radius: it is put at `x = a - radius`. -/
theorem wall_response_left (m : MathLib K) (hm : m.Exact) (A : GameBall K)
    (seg : BoundingSegment K) (a : K) (h1x : seg.p1.x = a) (h2x : seg.p2.x = a)
    (h1z : seg.p1.z = -1) (h2z : seg.p2.z = 1) (hz : A.position.z = 0)
    (hvx : A.velocity.x = 0) (hvz : A.velocity.z = 0)
    (hgt : A.position.x < a) (hlt : a - A.position.x < A.radius) :
    tableSegmentResponse m A seg
      = { A with position := ⟨a - A.radius, A.position.y, 0⟩ } := by
  have habs : |A.position.x - a| = a - A.position.x := by
    rw [abs_of_neg (by linarith)]; ring
  have hd : segmentDistance m A.position seg < A.radius := by
    rw [segmentDistance_wall m hm _ seg a h1x h2x h1z h2z hz, habs]; exact hlt
  rw [tableSegmentResponse_still m A seg hd hvx hvz,
    pushedPosition_wall m hm _ _ seg a h1x h2x h1z h2z hz, habs]
  have hne : a - A.position.x ≠ 0 := by linarith
  congr 2
  field_simp
  ring

/-- The two orders of the responses to `guardWall` and `cushionWall` on a ball of radius
`BALL_VIRTUAL_RADIUS` without horizontal velocity at `x = 0`, `z = 0`: pocket-entry segment first
ends at `x = -1/160`, table segment first ends at `x = 13/800`. -/
theorem guard_cushion_orders (m : MathLib K) (hm : m.Exact) (B0 : GameBall K)
    (hx : B0.position.x = 0) (hz : B0.position.z = 0)
    (hvx : B0.velocity.x = 0) (hvz : B0.velocity.z = 0)
    (hr : B0.radius = BALL_VIRTUAL_RADIUS) :
    (tableSegmentResponse m (pocketSegmentResponse m B0 guardWall) cushionWall).position.x
      = -(1 / 160) ∧
    (pocketSegmentResponse m (tableSegmentResponse m B0 cushionWall) guardWall).position.x
      = 13 / 800 := by
  have e1 := wall_response_right m hm B0 guardWall (-(1 / 100)) rfl rfl rfl rfl hz hvx hvz
    (by rw [hx]; norm_num) (by rw [hx, hr]; unfold BALL_VIRTUAL_RADIUS; norm_num)
  have e2 := wall_response_left m hm
    { B0 with position := ⟨-(1 / 100) + B0.radius, B0.position.y, 0⟩ } cushionWall (2 / 100)
    rfl rfl rfl rfl rfl hvx hvz
    (by
      show -(1 / 100) + B0.radius < 2 / 100
      rw [hr]; unfold BALL_VIRTUAL_RADIUS; norm_num)
    (by
      show 2 / 100 - (-(1 / 100) + B0.radius) < B0.radius
      rw [hr]; unfold BALL_VIRTUAL_RADIUS; norm_num)
  have e3 := wall_response_left m hm B0 cushionWall (2 / 100) rfl rfl rfl rfl hz hvx hvz
    (by rw [hx]; norm_num) (by rw [hx, hr]; unfold BALL_VIRTUAL_RADIUS; norm_num)
  have e4 := wall_response_right m hm
    { B0 with position := ⟨2 / 100 - B0.radius, B0.position.y, 0⟩ } guardWall (-(1 / 100))
    rfl rfl rfl rfl rfl hvx hvz
    (by
      show -(1 / 100) < 2 / 100 - B0.radius
      rw [hr]; unfold BALL_VIRTUAL_RADIUS; norm_num)
    (by
      show 2 / 100 - B0.radius - -(1 / 100) < B0.radius
      rw [hr]; unfold BALL_VIRTUAL_RADIUS; norm_num)
  constructor
  · rw [pocketSegmentResponse_eq_table, e1, e2]
    show 2 / 100 - B0.radius = -(1 / 160)
    rw [hr]; unfold BALL_VIRTUAL_RADIUS; norm_num
  · rw [pocketSegmentResponse_eq_table, e3, e4]
    show -(1 / 100) + B0.radius = 13 / 800
    rw [hr]; unfold BALL_VIRTUAL_RADIUS; norm_num

end Segment

/-! ## Theorems: the order of the two segment loops -/

section SegmentOrder

variable {K : Type} [LinearOrderedField K] [FloorRing K]

/-- A sub-step on a world whose only ball is active, in a scene without pockets: the ball is
integrated, then answers the pocket-entry segments, then the table segments. -/
theorem subStep_single_no_pockets (m : MathLib K) (sc : Scene K) (w : World K)
    (A : GameBall K) (hA : w.balls[0]? = some A) (hlen : w.balls.length = 1)
    (hact : A.active = true) (hp : sc.pockets = []) :
    (subStep m sc w).balls[0]? = some
      (sc.tableSegments.foldl (tableSegmentResponse m)
        (sc.pocketSegments.foldl (pocketSegmentResponse m) (integrate m A))) := by
  have hno : ∀ j B, 0 < j → (stateBefore m sc w 0).balls[j]? = some B → B.active = true →
      ¬ ((integrate m A).position.sub B.position).length m
        < (integrate m A).radius + B.radius := by
    intro j B hj hB
    have hnone : (stateBefore m sc w 0).balls[j]? = none := by
      apply List.getElem?_eq_none
      rw [stateBefore_length, hlen]
      omega
    rw [hnone] at hB
    cases hB
  have h1 : 0 + 1 ≤ w.balls.length := by rw [hlen]
  have h0 : 0 < (stateBefore m sc w 0).balls.length := by
    rw [stateBefore_length, hlen]; omega
  have hA0 : (stateBefore m sc w 0).balls[0]? = some A := hA
  rw [subStep_eq_stateBefore, stateBefore_final m sc w 0 _ h1, stateBefore_succ,
    processBall_active m sc (stateBefore m sc w 0) 0 A hA0 hact,
    pocketPhase_no_pockets m sc 0 _ hp]
  show (moveAndCollide m sc (stateBefore m sc w 0).spatialGrid 0
    (stateBefore m sc w 0).balls)[0]? = _
  rw [moveAndCollide_no_sphere m sc _ 0 _ A hA0 hno, List.getElem?_set_self h0]

/-- One sub-step on `wallWorld` in `wallScene`: the code ends at `x = -1/160`, the order of the
system overview would end at `x = 13/800`. -/
theorem wall_step (m : MathLib K) (hm : m.Exact) :
    (∃ X : GameBall K, (subStep m wallScene (wallWorld : World K)).balls[0]? = some X ∧
      X.position.x = -(1 / 160)) ∧
    (segmentsCushionFirst m wallScene (integrate m (lowerBall : GameBall K))).position.x
      = 13 / 800 := by
  have hy : (lowerBall : GameBall K).position.y - (lowerBall : GameBall K).radius
      < FELT_SURFACE_Y_ACTUAL + GRAVITY * FIXED_PHYSICS_DELTA_TIME * FIXED_PHYSICS_DELTA_TIME := by
    show (BALL_Y_AXIS : K) - BALL_VIRTUAL_RADIUS < _
    unfold FELT_SURFACE_Y_ACTUAL GRAVITY FIXED_PHYSICS_DELTA_TIME
    norm_num
  obtain ⟨ipos, ivel⟩ := integrate_resting m hm (lowerBall : GameBall K) rfl hy
  have irad : (integrate m (lowerBall : GameBall K)).radius = BALL_VIRTUAL_RADIUS :=
    (integrate_fields m _).1
  have hx : (integrate m (lowerBall : GameBall K)).position.x = 0 := by rw [ipos]; rfl
  have hz : (integrate m (lowerBall : GameBall K)).position.z = 0 := by rw [ipos]; rfl
  have hvx : (integrate m (lowerBall : GameBall K)).velocity.x = 0 := by rw [ivel]
  have hvz : (integrate m (lowerBall : GameBall K)).velocity.z = 0 := by rw [ivel]
  obtain ⟨h1, h2⟩ := guard_cushion_orders m hm _ hx hz hvx hvz irad
  refine ⟨⟨_, subStep_single_no_pockets m wallScene wallWorld lowerBall rfl rfl rfl rfl, ?_⟩,
    ?_⟩
  · exact h1
  · exact h2

/-- Counterexample to C17 as stated: a resting ball of radius 0.02625 at `x = 0` between a
pocket-entry segment along `x = -0.01` and a table segment along `x = 0.02`.  After one sub-step
the code leaves it at `x = -1/160` (pocket-entry segment first, then table segment); with the
table segment resolved first it would be at `x = 13/800`. -/
theorem C17_counterexample :
    (∃ X : GameBall ℝ, (subStep (MathLib.mk Real.sqrt Real.sin Real.cos) wallScene
        (wallWorld : World ℝ)).balls[0]? = some X ∧ X.position.x = -(1 / 160)) ∧
    (segmentsCushionFirst (MathLib.mk Real.sqrt Real.sin Real.cos) wallScene
      (integrate (MathLib.mk Real.sqrt Real.sin Real.cos) (lowerBall : GameBall ℝ))).position.x
      = 13 / 800 ∧
    (-(1 / 160) : ℝ) ≠ 13 / 800 := by
  obtain ⟨h1, h2⟩ := wall_step (MathLib.mk Real.sqrt Real.sin Real.cos) real_exact
  exact ⟨h1, h2, by norm_num⟩

/-- C17 (amended). Processing order of the segment loops: in each sub-step, for each active
sphere `A = balls[i]`, the pocket-entry-guard (pocket segment) collisions are resolved before the
sphere–cushion (table segment) collisions; both come after the sphere–sphere resolution (which
leaves `A2` at index `i`) and before the pocket logic. -/
theorem C17_segment_order (m : MathLib K) (sc : Scene K) (w : World K) (i : Nat)
    (A : GameBall K) (hA : w.balls[i]? = some A) (hact : A.active = true) :
    ∃ A2, (sphereCollisions m w.spatialGrid i (w.balls.set i (integrate m A)))[i]? = some A2 ∧
      (moveAndCollide m sc w.spatialGrid i w.balls)[i]? = some
        (sc.tableSegments.foldl (tableSegmentResponse m)
          (sc.pocketSegments.foldl (pocketSegmentResponse m) A2)) ∧
      processBall m sc w i =
        pocketPhase m sc i { w with balls := moveAndCollide m sc w.spatialGrid i w.balls } := by
  have hi : i < w.balls.length := by
    by_contra h
    rw [List.getElem?_eq_none (not_lt.mp h)] at hA
    cases hA
  have hi2 : i < (sphereCollisions m w.spatialGrid i (w.balls.set i (integrate m A))).length := by
    rw [sphereCollisions_length, List.length_set]; exact hi
  refine ⟨_, List.getElem?_eq_getElem hi2, ?_, processBall_active m sc w i A hA hact⟩
  unfold moveAndCollide
  simp only [hA, List.getElem?_eq_getElem hi2, List.getElem?_set_self hi2]

/-- Witness for C17: the ball of `wallWorld` in `wallScene` over the rationals. -/
theorem C17_segment_order_witness :
    (wallWorld : World ℚ).balls[0]? = some lowerBall ∧ (lowerBall : GameBall ℚ).active = true ∧
    processBall ratMath wallScene (wallWorld : World ℚ) 0 =
      pocketPhase ratMath wallScene 0
        { (wallWorld : World ℚ) with
          balls := moveAndCollide ratMath wallScene (wallWorld : World ℚ).spatialGrid 0
            (wallWorld : World ℚ).balls } := by
  obtain ⟨_, -, -, h⟩ := C17_segment_order ratMath wallScene (wallWorld : World ℚ) 0 lowerBall
    rfl rfl
  exact ⟨rfl, rfl, h⟩

end SegmentOrder

/-! ## Theorems: the stop threshold after a sub-step -/

section Snap

variable {K : Type} [LinearOrderedField K] [FloorRing K]

omit [FloorRing K] in
/-- After the integrator the horizontal velocity is zero or at least the stop threshold. -/
theorem integrate_horizontal_snap (m : MathLib K) (A : GameBall K) :
    ((integrate m A).velocity.x = 0 ∧ (integrate m A).velocity.z = 0) ∨
    VELOCITY_STOP_THRESHOLD
      ≤ Vec2.length m ⟨(integrate m A).velocity.x, (integrate m A).velocity.z⟩ := by
  unfold integrate
  obtain ⟨-, -, -, -, -, f6, f7, -⟩ := floorCollision_fields (applyRolling m (applyFriction m
    (applyGravityAndMove A)))
  obtain ⟨-, -, -, -, r5⟩ := applyRolling_fields m (applyFriction m (applyGravityAndMove A))
  rw [f6, f7, r5]
  unfold applyFriction
  simp only
  split
  · left; exact ⟨rfl, rfl⟩
  · rename_i h; right; exact not_lt.mp h

omit [FloorRing K] in
/-- The floor step of the integrator is taken exactly when the moved ball is below the felt. -/
theorem integrate_eq_floor (m : MathLib K) (A : GameBall K) :
    ((applyRolling m (applyFriction m (applyGravityAndMove A))).position.y
        - (applyRolling m (applyFriction m (applyGravityAndMove A))).radius
      < FELT_SURFACE_Y_ACTUAL) ↔
    ((applyGravityAndMove A).position.y - A.radius < FELT_SURFACE_Y_ACTUAL) := by
  obtain ⟨r1, -, -, r4, -⟩ := applyRolling_fields m (applyFriction m (applyGravityAndMove A))
  obtain ⟨a1, -, -, a4, -⟩ := applyFriction_fields m (applyGravityAndMove A)
  obtain ⟨g1, -⟩ := applyGravityAndMove_fields A
  rw [r1, r4, a1, a4, g1]

omit [FloorRing K] in
/-- After a floor collision the vertical velocity is zero or at least the stop threshold. -/
theorem integrate_vertical_snap (m : MathLib K) (A : GameBall K)
    (hfloor : (applyGravityAndMove A).position.y - A.radius < FELT_SURFACE_Y_ACTUAL) :
    (integrate m A).velocity.y = 0 ∨ VELOCITY_STOP_THRESHOLD ≤ |(integrate m A).velocity.y| := by
  have h := (integrate_eq_floor m A).mpr hfloor
  unfold integrate floorCollision
  simp only [h, if_true]
  split
  · left; rfl
  · rename_i h2; right; exact not_lt.mp h2

omit [FloorRing K] in
/-- Without floor collision the vertical velocity after the integrator is the old one minus one
gravity step. -/
theorem integrate_vertical_free (m : MathLib K) (A : GameBall K)
    (hfree : ¬ (applyGravityAndMove A).position.y - A.radius < FELT_SURFACE_Y_ACTUAL) :
    (integrate m A).velocity.y = A.velocity.y - GRAVITY * FIXED_PHYSICS_DELTA_TIME := by
  have h : ¬ ((applyRolling m (applyFriction m (applyGravityAndMove A))).position.y
        - (applyRolling m (applyFriction m (applyGravityAndMove A))).radius
      < FELT_SURFACE_Y_ACTUAL) := fun hc => hfree ((integrate_eq_floor m A).mp hc)
  obtain ⟨-, -, -, -, r5⟩ := applyRolling_fields m (applyFriction m (applyGravityAndMove A))
  obtain ⟨-, -, -, -, a5⟩ := applyFriction_fields m (applyGravityAndMove A)
  unfold integrate floorCollision
  simp only [h, if_false]
  rw [r5, a5]
  rfl

/-- C18 (amended). Velocity snap: let `A` be an active sphere of the world that no sphere of
lower index has written when its turn comes in the sub-step, that (once integrated) overlaps no
active sphere of higher index and is within its radius of no segment.  At the end of the
sub-step its horizontal velocity is exactly `(0, 0)` or has magnitude at least 0.01, and, if its
floor collision was triggered in this sub-step (after the move its bottom was below the felt),
its vertical velocity is exactly 0 or has magnitude at least 0.01. -/
theorem C18_velocity_snap (m : MathLib K) (sc : Scene K) (w : World K)
    (i : Nat) (A : GameBall K) (_hA : w.balls[i]? = some A)
    (hturn : (stateBefore m sc w i).balls[i]? = some A) (hact : A.active = true)
    (hno : ∀ j B, i < j → (stateBefore m sc w i).balls[j]? = some B → B.active = true →
      ¬ ((integrate m A).position.sub B.position).length m < (integrate m A).radius + B.radius)
    (hseg : ∀ seg, seg ∈ sc.pocketSegments ∨ seg ∈ sc.tableSegments →
      ¬ segmentDistance m (integrate m A).position seg < (integrate m A).radius) :
    ∃ A', (subStep m sc w).balls[i]? = some A' ∧
      ((A'.velocity.x = 0 ∧ A'.velocity.z = 0) ∨
        VELOCITY_STOP_THRESHOLD ≤ Vec2.length m ⟨A'.velocity.x, A'.velocity.z⟩) ∧
      ((applyGravityAndMove A).position.y - A.radius < FELT_SURFACE_Y_ACTUAL →
        A'.velocity.y = 0 ∨ VELOCITY_STOP_THRESHOLD ≤ |A'.velocity.y|) := by
  refine ⟨_, subStep_untouched m sc w i A hturn hact hno hseg, ?_⟩
  rcases pocketLoop_cases m sc.pockets (integrate m A)
    (stateBefore m sc w i).cueBallPositioningMode with h | h
  · rw [h]
    exact ⟨integrate_horizontal_snap m A, integrate_vertical_snap m A⟩
  · rw [h, (capture_spec _ _).1]
    exact ⟨Or.inl ⟨rfl, rfl⟩, fun _ => Or.inl rfl⟩

/-- Witness for C18: the single slow ball of `slowBallWorld` over the rationals. -/
theorem C18_velocity_snap_witness :
    (slowBallWorld : World ℚ).balls[0]? =
      some (mkBall ⟨0, BALL_Y_AXIS, 0⟩ ⟨1 / 1000, 0, 0⟩ BALL_VIRTUAL_RADIUS 5) ∧
    ∃ A', (subStep ratMath emptyScene (slowBallWorld : World ℚ)).balls[0]? = some A' ∧
      ((A'.velocity.x = 0 ∧ A'.velocity.z = 0) ∨
        VELOCITY_STOP_THRESHOLD ≤ Vec2.length ratMath ⟨A'.velocity.x, A'.velocity.z⟩) := by
  refine ⟨rfl, ?_⟩
  obtain ⟨A', h1, h2, -⟩ := C18_velocity_snap ratMath emptyScene (slowBallWorld : World ℚ) 0
    (mkBall ⟨0, BALL_Y_AXIS, 0⟩ ⟨1 / 1000, 0, 0⟩ BALL_VIRTUAL_RADIUS 5) rfl rfl rfl
    (by
      intro j B hj hB
      have hnone : (stateBefore ratMath emptyScene (slowBallWorld : World ℚ) 0).balls[j]?
          = none := by
        apply List.getElem?_eq_none
        show 1 ≤ j
        omega
      rw [hnone] at hB
      cases hB)
    (by
      intro seg hseg
      rcases hseg with h | h <;> cases h)
  exact ⟨A', h1, h2⟩

/-- One sub-step on the ball in free flight: it stays active and its vertical velocity is
1/200. -/
theorem flying_step (m : MathLib K) :
    ∃ X : GameBall K, (subStep m emptyScene (flyingWorld : World K)).balls[0]? = some X ∧
      X.active = true ∧ X.velocity.y = 1 / 200 := by
  have hfree : ¬ (applyGravityAndMove (flyingBall : GameBall K)).position.y
      - (flyingBall : GameBall K).radius < FELT_SURFACE_Y_ACTUAL := by
    apply not_lt.mpr
    show FELT_SURFACE_Y_ACTUAL ≤ (0 : K)
      + (98 / 1200 + 1 / 200 - GRAVITY * FIXED_PHYSICS_DELTA_TIME) * FIXED_PHYSICS_DELTA_TIME
      - BALL_VIRTUAL_RADIUS
    unfold FELT_SURFACE_Y_ACTUAL BALL_Y_AXIS BALL_VIRTUAL_RADIUS GRAVITY FIXED_PHYSICS_DELTA_TIME
    norm_num
  refine ⟨integrate m flyingBall, ?_, ?_, ?_⟩
  · exact subStep_single_resting m emptyScene flyingWorld flyingBall rfl rfl rfl rfl rfl
      (by intro pocket hp; cases hp)
  · rw [(integrate_fields m _).2.1]; rfl
  · rw [integrate_vertical_free m flyingBall hfree]
    show (98 / 1200 + 1 / 200 : K) - GRAVITY * FIXED_PHYSICS_DELTA_TIME = 1 / 200
    unfold GRAVITY FIXED_PHYSICS_DELTA_TIME
    norm_num

/-- Counterexample to C18 as stated: a single active ball in free flight above the felt with
vertical velocity `9.8/120 + 0.005`.  After one sub-step it is active and its vertical velocity is
0.005: not zero and of magnitude below the stop threshold 0.01 (the vertical snap is only part of
the floor collision). -/
theorem C18_counterexample :
    ∃ X : GameBall ℝ, (subStep (MathLib.mk Real.sqrt Real.sin Real.cos) emptyScene
        (flyingWorld : World ℝ)).balls[0]? = some X ∧
      X.active = true ∧ X.velocity.y ≠ 0 ∧ |X.velocity.y| < VELOCITY_STOP_THRESHOLD := by
  obtain ⟨X, h1, h2, h3⟩ := flying_step (MathLib.mk Real.sqrt Real.sin Real.cos)
  refine ⟨X, h1, h2, ?_, ?_⟩
  · rw [h3]; norm_num
  · rw [h3, abs_of_nonneg (by norm_num)]
    unfold VELOCITY_STOP_THRESHOLD
    norm_num

end Snap

/-! ## Theorems: the spatial grid -/

section GridTheorems

variable {K : Type} [LinearOrderedField K] [FloorRing K]

theorem getD_modify {α : Type} (l : List α) (f : α → α) (n k : Nat) (d : α)
    (hk : k < l.length) :
    (l.modify f n).getD k d = if n = k then f (l.getD k d) else l.getD k d := by
  rw [List.getD_eq_getElem?_getD, List.getD_eq_getElem?_getD, List.getElem?_modify,
    List.getElem?_eq_getElem hk]
  by_cases h : n = k <;> simp [h]

/-- The buckets after `spatialGrid[col][row].push_back(i)` on a grid in which the cell exists. -/
theorem bucketAt_gridPush (g : Grid) (col row : Int) (i c r : Nat)
    (hc : c < g.length) (hr : r < (g.getD c []).length) :
    bucketAt (gridPush g col row i) c r
      = if col.toNat = c ∧ row.toNat = r then bucketAt g c r ++ [i] else bucketAt g c r := by
  unfold bucketAt gridPush
  rw [getD_modify g _ _ c [] hc]
  by_cases h1 : col.toNat = c
  · rw [if_pos h1, getD_modify _ _ _ r [] hr]
    by_cases h2 : row.toNat = r <;> simp [h1, h2]
  · simp [h1]

/-- The dimensions of a grid: `cols` columns of `rows` buckets. -/
theorem gridPush_dims (g : Grid) (col row : Int) (i cols rows : Nat)
    (hl : g.length = cols) (hcol : ∀ c, c < cols → (g.getD c []).length = rows) :
    (gridPush g col row i).length = cols ∧
    ∀ c, c < cols → ((gridPush g col row i).getD c []).length = rows := by
  unfold gridPush
  refine ⟨by rw [List.length_modify]; exact hl, ?_⟩
  intro c hc
  rw [getD_modify g _ _ c [] (by rw [hl]; exact hc)]
  by_cases h1 : col.toNat = c
  · rw [if_pos h1, List.length_modify]; exact hcol c hc
  · rw [if_neg h1]; exact hcol c hc

theorem emptyGrid_dims :
    emptyGrid.length = 10 ∧ ∀ c, c < 10 → (emptyGrid.getD c []).length = 22 := by
  rw [emptyGrid_eq]
  refine ⟨by simp, ?_⟩
  intro c hc
  rw [List.getD_eq_getElem?_getD, List.getElem?_replicate, if_pos hc]
  simp

theorem bucketAt_emptyGrid (c r : Nat) : bucketAt emptyGrid c r = [] := by
  unfold bucketAt
  rw [emptyGrid_eq, List.getD_eq_getElem?_getD, List.getD_eq_getElem?_getD,
    List.getElem?_replicate]
  by_cases hc : c < 10
  · rw [if_pos hc]
    simp only [Option.getD_some, List.getElem?_replicate]
    by_cases hr : r < 22 <;> simp [hr]
  · rw [if_neg hc]; simp

/-- Clamping any integer gives a column index of the grid. -/
theorem clamp_col_range (n : Int) :
    0 ≤ clamp n 0 (GRID_COLS - 1) ∧ clamp n 0 (GRID_COLS - 1) < GRID_COLS := by
  unfold clamp
  rw [GRID_COLS_eq]
  constructor
  · exact le_min (le_max_right _ _) (by norm_num)
  · exact lt_of_le_of_lt (min_le_right _ _) (by norm_num)

/-- Clamping any integer gives a row index of the grid. -/
theorem clamp_row_range (n : Int) :
    0 ≤ clamp n 0 (GRID_ROWS - 1) ∧ clamp n 0 (GRID_ROWS - 1) < GRID_ROWS := by
  unfold clamp
  rw [GRID_ROWS_eq]
  constructor
  · exact le_min (le_max_right _ _) (by norm_num)
  · exact lt_of_le_of_lt (min_le_right _ _) (by norm_num)

theorem cellCol_range (p : Vec3 K) : 0 ≤ cellCol p ∧ cellCol p < 10 := by
  have h := clamp_col_range (truncToInt ((p.x + TABLE_HALF_WIDTH) / GRID_CELL_SIZE))
  rw [GRID_COLS_eq] at h
  unfold cellCol
  rw [GRID_COLS_eq]
  exact h

theorem cellRow_range (p : Vec3 K) : 0 ≤ cellRow p ∧ cellRow p < 22 := by
  have h := clamp_row_range (truncToInt ((p.z + TABLE_HALF_DEPTH) / GRID_CELL_SIZE))
  rw [GRID_ROWS_eq] at h
  unfold cellRow
  rw [GRID_ROWS_eq]
  exact h

theorem updateSpatialGrid_eq_foldl (balls : List (GameBall K)) :
    updateSpatialGrid balls = (List.range balls.length).foldl (gridStep balls) emptyGrid := rfl

/-- The grid after the first `k` iterations of the rebuild: dimensions and buckets. -/
theorem gridStep_prefix (balls : List (GameBall K)) (k : Nat) :
    ((List.range k).foldl (gridStep balls) emptyGrid).length = 10 ∧
    (∀ c, c < 10 → (((List.range k).foldl (gridStep balls) emptyGrid).getD c []).length = 22) ∧
    ∀ c r, c < 10 → r < 22 →
      bucketAt ((List.range k).foldl (gridStep balls) emptyGrid) c r
        = (List.range k).filter (inCell balls c r) := by
  induction k with
  | zero =>
    refine ⟨emptyGrid_dims.1, emptyGrid_dims.2, ?_⟩
    intro c r _ _
    simp [bucketAt_emptyGrid]
  | succ k ih =>
    obtain ⟨hl, hcol, hb⟩ := ih
    rw [List.range_succ, List.foldl_append]
    simp only [List.foldl_cons, List.foldl_nil]
    generalize (List.range k).foldl (gridStep balls) emptyGrid = G at hl hcol hb
    unfold gridStep
    cases hA : balls[k]? with
    | none =>
      refine ⟨hl, hcol, ?_⟩
      intro c r hc hr
      rw [hb c r hc hr, List.filter_append]
      simp [inCell, hA]
    | some b =>
      by_cases hact : b.active = true
      · simp only [hact, Bool.not_true, Bool.false_eq_true, if_false]
        obtain ⟨d1, d2⟩ := gridPush_dims G (cellCol b.position) (cellRow b.position) k 10 22
          hl hcol
        refine ⟨d1, d2, ?_⟩
        intro c r hc hr
        rw [bucketAt_gridPush G _ _ k c r (by rw [hl]; exact hc) (by rw [hcol c hc]; exact hr),
          hb c r hc hr, List.filter_append]
        have hcr := cellCol_range b.position
        have hrr := cellRow_range b.position
        by_cases h1 : (cellCol b.position).toNat = c ∧ (cellRow b.position).toNat = r
        · have e1 : cellCol b.position = (c : Int) := by omega
          have e2 : cellRow b.position = (r : Int) := by omega
          rw [if_pos h1]
          simp [inCell, hA, hact, e1, e2]
        · have e : ¬ (cellCol b.position = (c : Int) ∧ cellRow b.position = (r : Int)) := by
            intro h; apply h1; omega
          rw [if_neg h1]
          have : inCell balls c r k = false := by
            simp only [inCell, hA, hact, Bool.true_and, Bool.and_eq_false_iff,
              decide_eq_false_iff_not]
            by_cases e1 : cellCol b.position = (c : Int)
            · right; exact fun e2 => e ⟨e1, e2⟩
            · left; exact e1
          simp [this]
      · simp only [hact, Bool.not_false, if_true]
        refine ⟨hl, hcol, ?_⟩
        intro c r hc hr
        rw [hb c r hc hr, List.filter_append]
        simp [inCell, hA, hact]

/-- The rebuilt grid: 10 columns of 22 buckets, and the bucket of the cell `(c, r)` lists, in
increasing order, the indices of the active balls whose clamped cell is `(c, r)`. -/
theorem updateSpatialGrid_spec (balls : List (GameBall K)) :
    (updateSpatialGrid balls).length = 10 ∧
    (∀ c, c < 10 → ((updateSpatialGrid balls).getD c []).length = 22) ∧
    ∀ c r, c < 10 → r < 22 →
      bucketAt (updateSpatialGrid balls) c r
        = (List.range balls.length).filter (inCell balls c r) := by
  rw [updateSpatialGrid_eq_foldl]
  exact gridStep_prefix balls balls.length

/-- A bucket outside the grid reads as empty. -/
theorem bucketAt_outside (balls : List (GameBall K)) (c r : Nat) (h : ¬ (c < 10 ∧ r < 22)) :
    bucketAt (updateSpatialGrid balls) c r = [] := by
  obtain ⟨hl, hcol, -⟩ := updateSpatialGrid_spec balls
  unfold bucketAt
  by_cases hc : c < 10
  · have hr : ¬ r < 22 := fun hr => h ⟨hc, hr⟩
    rw [List.getD_eq_getElem?_getD ((updateSpatialGrid balls).getD c []) r,
      List.getElem?_eq_none (by rw [hcol c hc]; omega)]
    rfl
  · rw [List.getD_eq_getElem?_getD (updateSpatialGrid balls) c,
      List.getElem?_eq_none (by rw [hl]; omega)]
    rfl

/-- Membership in a bucket of the rebuilt grid. -/
theorem mem_bucketAt (balls : List (GameBall K)) (c r j : Nat) :
    j ∈ bucketAt (updateSpatialGrid balls) c r ↔
      c < 10 ∧ r < 22 ∧ j < balls.length ∧ inCell balls c r j = true := by
  by_cases h : c < 10 ∧ r < 22
  · rw [(updateSpatialGrid_spec balls).2.2 c r h.1 h.2, List.mem_filter, List.mem_range]
    constructor
    · rintro ⟨h1, h2⟩; exact ⟨h.1, h.2, h1, h2⟩
    · rintro ⟨-, -, h1, h2⟩; exact ⟨h1, h2⟩
  · rw [bucketAt_outside balls c r h]
    constructor
    · intro hj; cases hj
    · rintro ⟨h1, h2, -⟩; exact absurd ⟨h1, h2⟩ h

/-- The buckets of the rebuilt grid have no repeated index. -/
theorem bucketAt_nodup (balls : List (GameBall K)) (c r : Nat) :
    (bucketAt (updateSpatialGrid balls) c r).Nodup := by
  by_cases h : c < 10 ∧ r < 22
  · rw [(updateSpatialGrid_spec balls).2.2 c r h.1 h.2]
    exact (List.nodup_range _).filter _
  · rw [bucketAt_outside balls c r h]
    exact List.nodup_nil

theorem foldl_filter_ite {α β : Type} (p : α → Bool) (f : β → α → β) :
    ∀ (l : List α) (b : β),
      (l.filter p).foldl f b = l.foldl (fun b x => if p x = true then f b x else b) b := by
  intro l
  induction l with
  | nil => intro b; rfl
  | cons a l ih =>
    intro b
    by_cases h : p a = true
    · rw [List.filter_cons_of_pos h, List.foldl_cons, List.foldl_cons, if_pos h, ih]
    · rw [List.filter_cons_of_neg h, List.foldl_cons, if_neg h, ih]

/-- A fold over the neighbour cells is the two nested loops over `dc` and `dr`. -/
theorem foldl_neighbourCells {β : Type} (f : β → Int × Int → β) (col row : Int) (b : β) :
    (neighbourCells col row).foldl f b =
      ([-1, 0, 1] : List Int).foldl
        (fun b dc => ([-1, 0, 1] : List Int).foldl (fun b dr => f b (col + dc, row + dr)) b) b :=
  rfl

omit [FloorRing K] in
/-- The loops of lines 103–108 read the buckets of the visited cells, in order. -/
theorem sphereCollisions_eq_visited (m : MathLib K) (grid : Grid) (i : Nat)
    (balls : List (GameBall K)) (col row : Int) :
    ([-1, 0, 1] : List Int).foldl
        (fun bs dc =>
          ([-1, 0, 1] : List Int).foldl
            (fun bs dr =>
              if 0 ≤ col + dc ∧ col + dc < GRID_COLS ∧ 0 ≤ row + dr ∧ row + dr < GRID_ROWS then
                (gridBucket grid (col + dc) (row + dr)).foldl (resolvePair m i) bs
              else bs)
            bs)
        balls
      = (visitedCells col row).foldl
          (fun bs cr => (gridBucket grid cr.1 cr.2).foldl (resolvePair m i) bs) balls := by
  unfold visitedCells
  rw [foldl_filter_ite, foldl_neighbourCells]
  simp only [decide_eq_true_eq]

/-- The neighbourhood loops as a fold over the visited cells. -/
theorem sphereCollisions_visited (m : MathLib K) (grid : Grid) (i : Nat)
    (balls : List (GameBall K)) (A : GameBall K) (hA : balls[i]? = some A) :
    sphereCollisions m grid i balls
      = (visitedCells (cellCol A.position) (cellRow A.position)).foldl
          (fun bs cr => (gridBucket grid cr.1 cr.2).foldl (resolvePair m i) bs) balls := by
  unfold sphereCollisions
  rw [hA]
  exact sphereCollisions_eq_visited m grid i balls _ _

/-- The visited cells are cells of the grid. -/
theorem visitedCells_range (col row c r : Int) (h : (c, r) ∈ visitedCells col row) :
    0 ≤ c ∧ c < GRID_COLS ∧ 0 ≤ r ∧ r < GRID_ROWS := by
  unfold visitedCells at h
  rw [List.mem_filter] at h
  exact of_decide_eq_true h.2

/-- The rebuilt grid has `GRID_COLS` columns of `GRID_ROWS` buckets. -/
theorem updateSpatialGrid_dims (balls : List (GameBall K)) :
    (updateSpatialGrid balls).length = GRID_COLS.toNat ∧
    ∀ c, c < GRID_COLS.toNat → ((updateSpatialGrid balls).getD c []).length = GRID_ROWS.toNat := by
  obtain ⟨hl, hcol, -⟩ := updateSpatialGrid_spec balls
  refine ⟨by rw [hl, GRID_COLS_eq]; rfl, ?_⟩
  intro c hc
  rw [GRID_COLS_eq] at hc
  rw [GRID_ROWS_eq]
  exact hcol c hc

/-- C12. Spatial grid rebuild: after `updateSpatialGrid` the grid has `GRID_COLS` columns of
`GRID_ROWS` buckets; the index of every active sphere is in the bucket at its clamped cell
coordinates exactly once and in no other bucket of the grid; the index of an inactive sphere is
in no bucket; and the grid found by a sub-step does not depend on the previous contents of the
grid buffer. -/
theorem C12_grid_rebuild (balls : List (GameBall K)) :
    (updateSpatialGrid balls).length = GRID_COLS.toNat ∧
    (∀ c, c < GRID_COLS.toNat → ((updateSpatialGrid balls).getD c []).length = GRID_ROWS.toNat) ∧
    (∀ i b, balls[i]? = some b → b.active = true →
      (gridBucket (updateSpatialGrid balls) (cellCol b.position) (cellRow b.position)).count i
        = 1 ∧
      ∀ c r : Nat, ((c : Int), (r : Int)) ≠ (cellCol b.position, cellRow b.position) →
        i ∉ bucketAt (updateSpatialGrid balls) c r) ∧
    (∀ i b, balls[i]? = some b → b.active = false →
      ∀ c r : Nat, i ∉ bucketAt (updateSpatialGrid balls) c r) ∧
    (∀ (m : MathLib K) (sc : Scene K) (flag : Bool) (g g' : Grid),
      subStep m sc ⟨balls, g, flag⟩ = subStep m sc ⟨balls, g', flag⟩ ∧
      (stateBefore m sc ⟨balls, g, flag⟩ 0).spatialGrid = updateSpatialGrid balls) ∧
    (∀ p : Vec3 K,
      cellCol p = clamp (truncToInt ((p.x + TABLE_HALF_WIDTH) / GRID_CELL_SIZE)) 0 (GRID_COLS - 1) ∧
      cellRow p
        = clamp (truncToInt ((p.z + TABLE_HALF_DEPTH) / GRID_CELL_SIZE)) 0 (GRID_ROWS - 1)) := by
  obtain ⟨hl, hcol, -⟩ := updateSpatialGrid_spec balls
  refine ⟨by rw [hl, GRID_COLS_eq]; rfl, ?_, ?_, ?_, ?_, fun p => ⟨rfl, rfl⟩⟩
  · intro c hc
    rw [GRID_COLS_eq] at hc
    rw [GRID_ROWS_eq]
    exact hcol c hc
  · intro i b hb hact
    have hcr := cellCol_range b.position
    have hrr := cellRow_range b.position
    have hi : i < balls.length := by
      by_contra h
      rw [List.getElem?_eq_none (not_lt.mp h)] at hb
      cases hb
    constructor
    · show (bucketAt (updateSpatialGrid balls) (cellCol b.position).toNat
        (cellRow b.position).toNat).count i = 1
      apply List.count_eq_one_of_mem (bucketAt_nodup balls _ _)
      rw [mem_bucketAt]
      refine ⟨by omega, by omega, hi, ?_⟩
      simp only [inCell, hb, hact, Bool.true_and, Bool.and_eq_true, decide_eq_true_eq]
      constructor <;> omega
    · intro c r hne hmem
      rw [mem_bucketAt] at hmem
      obtain ⟨-, -, -, hin⟩ := hmem
      simp only [inCell, hb, hact, Bool.true_and, Bool.and_eq_true, decide_eq_true_eq] at hin
      apply hne
      rw [hin.1, hin.2]
  · intro i b hb hact c r hmem
    rw [mem_bucketAt] at hmem
    obtain ⟨-, -, -, hin⟩ := hmem
    simp [inCell, hb, hact] at hin
  · intro m sc flag g g'
    exact ⟨rfl, rfl⟩

/-- C13. Grid indexing is always in range: `GRID_COLS = 10` and `GRID_ROWS = 22` (the quotients
1.0415 / 0.105 and 2.2845 / 0.105 rounded up); whatever integer the conversion of a coordinate
gives, its clamped value is a column (row) of the grid, so the cell of every position is a cell
of the grid; the neighbourhood loops read the buckets of the visited cells only, and these are
cells of the grid; the rebuilt grid has these dimensions; and every index stored in a bucket is an
index of the ball list, at every point of a sub-step. -/
theorem C13_grid_indexing_in_range :
    GRID_COLS = 10 ∧ GRID_ROWS = 22 ∧
    (GRID_CELL_SIZE : ℚ) = 105 / 1000 ∧
    ⌈(TABLE_WIDTH : ℚ) / GRID_CELL_SIZE⌉ = GRID_COLS ∧
    ⌈(TABLE_DEPTH : ℚ) / GRID_CELL_SIZE⌉ = GRID_ROWS ∧
    (∀ n : Int, 0 ≤ clamp n 0 (GRID_COLS - 1) ∧ clamp n 0 (GRID_COLS - 1) < GRID_COLS) ∧
    (∀ n : Int, 0 ≤ clamp n 0 (GRID_ROWS - 1) ∧ clamp n 0 (GRID_ROWS - 1) < GRID_ROWS) ∧
    (∀ p : Vec3 K, 0 ≤ cellCol p ∧ cellCol p < GRID_COLS ∧
      0 ≤ cellRow p ∧ cellRow p < GRID_ROWS) ∧
    (∀ (m : MathLib K) (grid : Grid) (i : Nat) (balls : List (GameBall K)) (A : GameBall K),
      balls[i]? = some A →
      sphereCollisions m grid i balls
        = (visitedCells (cellCol A.position) (cellRow A.position)).foldl
            (fun bs cr => (gridBucket grid cr.1 cr.2).foldl (resolvePair m i) bs) balls) ∧
    (∀ col row c r : Int, (c, r) ∈ visitedCells col row →
      0 ≤ c ∧ c < GRID_COLS ∧ 0 ≤ r ∧ r < GRID_ROWS) ∧
    (∀ balls : List (GameBall K),
      (updateSpatialGrid balls).length = GRID_COLS.toNat ∧
      ∀ c, c < GRID_COLS.toNat →
        ((updateSpatialGrid balls).getD c []).length = GRID_ROWS.toNat) ∧
    (∀ (balls : List (GameBall K)) (c r : Int) (j : Nat),
      j ∈ gridBucket (updateSpatialGrid balls) c r → j < balls.length) ∧
    (∀ (m : MathLib K) (sc : Scene K) (w : World K) (i : Nat) (c r : Int) (j : Nat),
      j ∈ gridBucket (stateBefore m sc w i).spatialGrid c r →
        j < (stateBefore m sc w i).balls.length) := by
  have hvalid : ∀ (balls : List (GameBall K)) (c r : Int) (j : Nat),
      j ∈ gridBucket (updateSpatialGrid balls) c r → j < balls.length := by
    intro balls c r j hj
    have hj' : j ∈ bucketAt (updateSpatialGrid balls) c.toNat r.toNat := hj
    rw [mem_bucketAt] at hj'
    exact hj'.2.2.1
  refine ⟨GRID_COLS_eq, GRID_ROWS_eq, ?_, ?_, ?_, clamp_col_range, clamp_row_range, ?_,
    sphereCollisions_visited, visitedCells_range, ?_, hvalid, ?_⟩
  · unfold GRID_CELL_SIZE BALL_VIRTUAL_RADIUS; norm_num
  · rw [GRID_COLS_eq, Int.ceil_eq_iff]
    unfold TABLE_WIDTH GRID_CELL_SIZE BALL_VIRTUAL_RADIUS
    constructor <;> norm_num
  · rw [GRID_ROWS_eq, Int.ceil_eq_iff]
    unfold TABLE_DEPTH GRID_CELL_SIZE BALL_VIRTUAL_RADIUS
    constructor <;> norm_num
  · intro p
    have h1 := cellCol_range p
    have h2 := cellRow_range p
    rw [GRID_COLS_eq, GRID_ROWS_eq]
    exact ⟨h1.1, h1.2, h2.1, h2.2⟩
  · intro balls
    exact ⟨(updateSpatialGrid_dims balls).1, (updateSpatialGrid_dims balls).2⟩
  · intro m sc w i c r j hj
    rw [stateBefore_grid] at hj
    rw [stateBefore_length]
    exact hvalid w.balls c r j hj

end GridTheorems

/-! ## Theorems: the pairs tested in a sub-step -/

section Pairs

variable {K : Type} [LinearOrderedField K] [FloorRing K]

theorem foldl_flatMap_eq {α β γ : Type} (f : α → List β) (g : γ → β → γ) :
    ∀ (l : List α) (b : γ),
      (l.flatMap f).foldl g b = l.foldl (fun b x => (f x).foldl g b) b := by
  intro l
  induction l with
  | nil => intro b; rfl
  | cons a l ih =>
    intro b
    rw [List.flatMap_cons, List.foldl_append, List.foldl_cons, ih]

/-- The neighbourhood loops as a fold over the candidate indices. -/
theorem sphereCollisions_candidates (m : MathLib K) (grid : Grid) (i : Nat)
    (balls : List (GameBall K)) (A : GameBall K) (hA : balls[i]? = some A) :
    sphereCollisions m grid i balls
      = (candidates grid (cellCol A.position) (cellRow A.position)).foldl
          (resolvePair m i) balls := by
  rw [sphereCollisions_visited m grid i balls A hA]
  unfold candidates
  rw [foldl_flatMap_eq]

/-- The nine neighbour cells are distinct. -/
theorem neighbourCells_nodup (col row : Int) : (neighbourCells col row).Nodup := by
  have e : neighbourCells col row
      = ([(-1, -1), (-1, 0), (-1, 1), (0, -1), (0, 0), (0, 1), (1, -1), (1, 0), (1, 1)] :
          List (Int × Int)).map (fun d => (col + d.1, row + d.2)) := rfl
  rw [e]
  apply List.Nodup.map
  · intro a b hab
    simp only [Prod.mk.injEq] at hab
    ext
    · omega
    · omega
  · decide

theorem visitedCells_nodup (col row : Int) : (visitedCells col row).Nodup :=
  (neighbourCells_nodup col row).filter _

/-- The candidate indices met by the loops on a rebuilt grid are pairwise distinct. -/
theorem candidates_nodup (balls : List (GameBall K)) (col row : Int) :
    (candidates (updateSpatialGrid balls) col row).Nodup := by
  unfold candidates
  rw [List.nodup_flatMap]
  constructor
  · intro cr _
    exact bucketAt_nodup balls cr.1.toNat cr.2.toNat
  · apply (visitedCells_nodup col row).pairwise_of_forall_ne
    intro a ha b hb hab
    obtain ⟨a1, a2⟩ := a
    obtain ⟨b1, b2⟩ := b
    have ra := visitedCells_range col row a1 a2 ha
    have rb := visitedCells_range col row b1 b2 hb
    show List.Disjoint (gridBucket (updateSpatialGrid balls) a1 a2)
      (gridBucket (updateSpatialGrid balls) b1 b2)
    rw [List.disjoint_left]
    intro j hja hjb
    have hja' : j ∈ bucketAt (updateSpatialGrid balls) a1.toNat a2.toNat := hja
    have hjb' : j ∈ bucketAt (updateSpatialGrid balls) b1.toNat b2.toNat := hjb
    rw [mem_bucketAt] at hja' hjb'
    obtain ⟨-, -, -, ia⟩ := hja'
    obtain ⟨-, -, -, ib⟩ := hjb'
    unfold inCell at ia ib
    cases hj : balls[j]? with
    | none => rw [hj] at ia; cases ia
    | some b =>
      rw [hj] at ia ib
      simp only [Bool.and_eq_true, decide_eq_true_eq] at ia ib
      apply hab
      have e1 : a1 = b1 := by omega
      have e2 : a2 = b2 := by omega
      rw [e1, e2]

omit [FloorRing K] in
/-- A tested pair has `ball_A = balls[i]` and a candidate of higher index as `ball_B`. -/
theorem pairTests_mem (m : MathLib K) (i : Nat) (p : Nat × Nat) :
    ∀ (js : List Nat) (bs : List (GameBall K)), p ∈ pairTests m i js bs →
      p.1 = i ∧ i < p.2 ∧ p.2 ∈ js := by
  intro js
  induction js with
  | nil => intro bs h; cases h
  | cons j js ih =>
    intro bs h
    unfold pairTests at h
    rw [List.mem_append] at h
    rcases h with h | h
    · by_cases hji : j ≤ i
      · rw [if_pos hji] at h; cases h
      · rw [if_neg hji] at h
        have hp : p = (i, j) := by
          split at h
          · split at h
            · cases h
            · exact List.mem_singleton.mp h
          · cases h
        rw [hp]
        exact ⟨rfl, by omega, List.mem_cons_self _ _⟩
    · obtain ⟨h1, h2, h3⟩ := ih _ h
      exact ⟨h1, h2, List.mem_cons_of_mem _ h3⟩

omit [FloorRing K] in
/-- No pair is tested twice when the candidates are pairwise distinct. -/
theorem pairTests_nodup (m : MathLib K) (i : Nat) :
    ∀ (js : List Nat) (bs : List (GameBall K)), js.Nodup → (pairTests m i js bs).Nodup := by
  intro js
  induction js with
  | nil => intro bs _; exact List.nodup_nil
  | cons j js ih =>
    intro bs hnd
    rw [List.nodup_cons] at hnd
    unfold pairTests
    rw [List.nodup_append]
    refine ⟨?_, ih _ hnd.2, ?_⟩
    · split
      · exact List.nodup_nil
      · split
        · split
          · exact List.nodup_nil
          · exact List.nodup_singleton _
        · exact List.nodup_nil
    · rw [List.disjoint_left]
      intro p hp hp'
      have hj : p.2 = j := by
        split at hp
        · cases hp
        · split at hp
          · split at hp
            · cases hp
            · rw [List.mem_singleton.mp hp]
          · cases hp
      have := (pairTests_mem m i p js _ hp').2.2
      rw [hj] at this
      exact hnd.1 this

/-- The pairs tested in one iteration on a rebuilt grid: each at most once, `ball_A` the ball of
the iteration, `ball_B` of higher index. -/
theorem iterationPairTests_spec (m : MathLib K) (w : World K) (i : Nat)
    (balls0 : List (GameBall K)) (hg : w.spatialGrid = updateSpatialGrid balls0) :
    (iterationPairTests m w i).Nodup ∧
    ∀ p, p ∈ iterationPairTests m w i → p.1 = i ∧ i < p.2 := by
  unfold iterationPairTests
  cases hA : w.balls[i]? with
  | none => exact ⟨List.nodup_nil, fun p hp => by cases hp⟩
  | some A =>
    simp only
    split
    · exact ⟨List.nodup_nil, fun p hp => by cases hp⟩
    · rw [hg]
      refine ⟨pairTests_nodup m i _ _ (candidates_nodup balls0 _ _), ?_⟩
      intro p hp
      have := pairTests_mem m i p _ _ hp
      exact ⟨this.1, this.2.1⟩

omit [FloorRing K] in
/-- A candidate that is not tested leaves the balls unchanged; a tested one is resolved by
`sphereSphere` with `balls[i]` as first and `balls[j]` as second argument. -/
theorem resolvePair_tested (m : MathLib K) (i j : Nat) (bs : List (GameBall K)) :
    (pairTests m i [j] bs = [] → resolvePair m i bs j = bs) ∧
    (pairTests m i [j] bs = [(i, j)] →
      ∃ A B, bs[i]? = some A ∧ bs[j]? = some B ∧ i < j ∧
        resolvePair m i bs j
          = (bs.set i (sphereSphere m A B).1).set j (sphereSphere m A B).2) := by
  unfold pairTests resolvePair
  simp only [pairTests, List.append_nil]
  by_cases hji : j ≤ i
  · simp [hji]
  · simp only [hji, if_false]
    cases hA : bs[i]? with
    | none => simp
    | some A =>
      cases hB : bs[j]? with
      | none => simp
      | some B =>
        simp only
        by_cases hact : B.active = true
        · simp only [hact, Bool.not_true, Bool.false_eq_true, if_false]
          constructor
          · intro h; cases h
          · intro _
            exact ⟨A, B, rfl, rfl, by omega, rfl⟩
        · simp [hact]

/-- C15. Pair canonical order: in one sub-step, the list of the pairs `(a, b)` for which the
overlap test and resolution of lines 114–130 are executed (with `ball_A = balls[a]`,
`ball_B = balls[b]`) has no repetition and every pair in it has `a < b`; hence no sphere is
paired with itself, the lower index is always `A`, and each unordered pair is treated at most
once.  The loops of one iteration are the fold of the pair step over the candidate indices, a
candidate `j ≤ i` leaves the balls unchanged, and a tested pair is resolved by `sphereSphere`. -/
theorem C15_pair_canonical_order (m : MathLib K) (sc : Scene K) (w : World K) :
    (subStepPairTests m sc w).Nodup ∧
    (∀ a b, (a, b) ∈ subStepPairTests m sc w → a < b) ∧
    (∀ a b, (a, b) ∈ subStepPairTests m sc w → (b, a) ∉ subStepPairTests m sc w) ∧
    (∀ a, (a, a) ∉ subStepPairTests m sc w) ∧
    (∀ (grid : Grid) (i : Nat) (bs : List (GameBall K)) (A : GameBall K), bs[i]? = some A →
      sphereCollisions m grid i bs
        = (candidates grid (cellCol A.position) (cellRow A.position)).foldl
            (resolvePair m i) bs) ∧
    (∀ (i j : Nat) (bs : List (GameBall K)), j ≤ i →
      pairTests m i [j] bs = [] ∧ resolvePair m i bs j = bs) ∧
    (∀ (i j : Nat) (bs : List (GameBall K)),
      (pairTests m i [j] bs = [] → resolvePair m i bs j = bs) ∧
      (pairTests m i [j] bs = [(i, j)] →
        ∃ A B, bs[i]? = some A ∧ bs[j]? = some B ∧ i < j ∧
          resolvePair m i bs j
            = (bs.set i (sphereSphere m A B).1).set j (sphereSphere m A B).2)) := by
  have hlt : ∀ a b, (a, b) ∈ subStepPairTests m sc w → a < b := by
    intro a b h
    unfold subStepPairTests at h
    rw [List.mem_flatMap] at h
    obtain ⟨i, -, hi⟩ := h
    have := (iterationPairTests_spec m (stateBefore m sc w i) i w.balls
      (stateBefore_grid m sc w i)).2 (a, b) hi
    simp only at this
    omega
  have hnd : (subStepPairTests m sc w).Nodup := by
    unfold subStepPairTests
    rw [List.nodup_flatMap]
    constructor
    · intro i _
      exact (iterationPairTests_spec m (stateBefore m sc w i) i w.balls
        (stateBefore_grid m sc w i)).1
    · apply (List.nodup_range _).pairwise_of_forall_ne
      intro i _ k _ hik
      show List.Disjoint (iterationPairTests m (stateBefore m sc w i) i)
        (iterationPairTests m (stateBefore m sc w k) k)
      rw [List.disjoint_left]
      intro p hp hp'
      have h1 := (iterationPairTests_spec m (stateBefore m sc w i) i w.balls
        (stateBefore_grid m sc w i)).2 p hp
      have h2 := (iterationPairTests_spec m (stateBefore m sc w k) k w.balls
        (stateBefore_grid m sc w k)).2 p hp'
      apply hik
      rw [← h1.1, ← h2.1]
  refine ⟨hnd, hlt, ?_, ?_, ?_, ?_, ?_⟩
  · intro a b h h'
    have := hlt a b h
    have := hlt b a h'
    omega
  · intro a h
    have := hlt a a h
    omega
  · intro grid i bs A hA
    exact sphereCollisions_candidates m grid i bs A hA
  · intro i j bs hji
    constructor
    · simp [pairTests, hji]
    · unfold resolvePair
      rw [if_pos hji]
  · intro i j bs
    exact resolvePair_tested m i j bs

end Pairs

/-! ## Theorems: symmetry of the segment response -/

section SegmentResponse

variable {K : Type} [LinearOrderedField K]

/-- The squared length of the direction of a non-degenerate segment is not zero. -/
theorem segment_dot_ne_zero (seg : BoundingSegment K)
    (hnd : seg.p1.x ≠ seg.p2.x ∨ seg.p1.z ≠ seg.p2.z) :
    0 < (seg.p2.x - seg.p1.x) * (seg.p2.x - seg.p1.x)
      + (seg.p2.z - seg.p1.z) * (seg.p2.z - seg.p1.z) := by
  rcases hnd with h | h
  · have : seg.p2.x - seg.p1.x ≠ 0 := sub_ne_zero.mpr (Ne.symm h)
    nlinarith [mul_self_nonneg (seg.p2.z - seg.p1.z), mul_self_pos.mpr this]
  · have : seg.p2.z - seg.p1.z ≠ 0 := sub_ne_zero.mpr (Ne.symm h)
    nlinarith [mul_self_nonneg (seg.p2.x - seg.p1.x), mul_self_pos.mpr this]

/-- The clamp to `[0, 1]` commutes with `u ↦ 1 - u`. -/
theorem clamp_one_sub (u : K) : clamp (1 - u) 0 1 = 1 - clamp u 0 1 := by
  unfold clamp
  rcases le_total u 0 with h0 | h0
  · rw [max_eq_left (by linarith : (0 : K) ≤ 1 - u), min_eq_right (by linarith),
      max_eq_right h0, min_eq_left (by norm_num)]
    ring
  · rcases le_total u 1 with h1 | h1
    · rw [max_eq_left (by linarith : (0 : K) ≤ 1 - u), min_eq_left (by linarith),
        max_eq_left h0, min_eq_left h1]
    · rw [max_eq_right (by linarith : 1 - u ≤ (0 : K)), min_eq_left (by norm_num),
        max_eq_left h0, min_eq_right h1]
      ring

/-- The closest point does not depend on the order of the end points. -/
theorem closestPoint_swap (position : Vec3 K) (seg : BoundingSegment K)
    (hnd : seg.p1.x ≠ seg.p2.x ∨ seg.p1.z ≠ seg.p2.z) :
    closestPoint position ⟨seg.p2, seg.p1⟩ = closestPoint position seg := by
  have hS := segment_dot_ne_zero seg hnd
  have hS' : (seg.p1.x - seg.p2.x) * (seg.p1.x - seg.p2.x)
      + (seg.p1.z - seg.p2.z) * (seg.p1.z - seg.p2.z) ≠ 0 := by
    apply ne_of_gt
    nlinarith
  have hu : ((position.x - seg.p2.x) * (seg.p1.x - seg.p2.x)
        + (position.z - seg.p2.z) * (seg.p1.z - seg.p2.z))
      / ((seg.p1.x - seg.p2.x) * (seg.p1.x - seg.p2.x)
        + (seg.p1.z - seg.p2.z) * (seg.p1.z - seg.p2.z))
      = 1 - ((position.x - seg.p1.x) * (seg.p2.x - seg.p1.x)
        + (position.z - seg.p1.z) * (seg.p2.z - seg.p1.z))
      / ((seg.p2.x - seg.p1.x) * (seg.p2.x - seg.p1.x)
        + (seg.p2.z - seg.p1.z) * (seg.p2.z - seg.p1.z)) := by
    have hS2 := ne_of_gt hS
    field_simp
    ring
  simp only [closestPoint, Vec2.dot, Vec2.add, Vec2.scale]
  rw [hu, clamp_one_sub]
  ext
  · simp only; ring
  · simp only; ring

/-- The response to a segment is determined by the ball and the closest point. -/
theorem tableSegmentResponse_congr (m : MathLib K) (A : GameBall K)
    (seg seg2 : BoundingSegment K)
    (h : closestPoint A.position seg2 = closestPoint A.position seg) :
    tableSegmentResponse m A seg2 = tableSegmentResponse m A seg := by
  simp only [closestPoint] at h
  simp only [tableSegmentResponse, h]

/-- C30 (amended). Segment response independent of endpoint order, in exact arithmetic, and of
segment list: for every segment with `p1 ≠ p2` in the XZ plane and every sphere state, in exact
arithmetic the ball produced by the segment response (hence its position and velocity) is the
same for the segment `(p2, p1)` as for `(p1, p2)`, in the pocket-entry loop and in the table
loop, and the closest point is the same for both orders; the response of the pocket-entry loop
equals the response of the table loop for the same segment and sphere, also over a whole list of
segments, in exact arithmetic and in binary32. -/
theorem C30_segment_response_symmetry (m : MathLib K) (A : GameBall K)
    (seg : BoundingSegment K) (hnd : seg.p1.x ≠ seg.p2.x ∨ seg.p1.z ≠ seg.p2.z) :
    closestPoint A.position ⟨seg.p2, seg.p1⟩ = closestPoint A.position seg ∧
    tableSegmentResponse m A ⟨seg.p2, seg.p1⟩ = tableSegmentResponse m A seg ∧
    pocketSegmentResponse m A ⟨seg.p2, seg.p1⟩ = pocketSegmentResponse m A seg ∧
    (tableSegmentResponse m A ⟨seg.p2, seg.p1⟩).position = (tableSegmentResponse m A seg).position ∧
    (tableSegmentResponse m A ⟨seg.p2, seg.p1⟩).velocity = (tableSegmentResponse m A seg).velocity ∧
    pocketSegmentResponse m A seg = tableSegmentResponse m A seg ∧
    (∀ (segs : List (BoundingSegment K)) (X : GameBall K),
      segs.foldl (pocketSegmentResponse m) X = segs.foldl (tableSegmentResponse m) X) ∧
    (∀ (X : GameBall Binary32) (s : BoundingSegment Binary32),
      pocketSegmentResponse32 X s = tableSegmentResponse32 X s) ∧
    (∀ (segs : List (BoundingSegment Binary32)) (X : GameBall Binary32),
      segs.foldl pocketSegmentResponse32 X = segs.foldl tableSegmentResponse32 X) := by
  have hcp := closestPoint_swap A.position seg hnd
  have ht := tableSegmentResponse_congr m A seg ⟨seg.p2, seg.p1⟩ hcp
  refine ⟨hcp, ht, ?_, by rw [ht], by rw [ht], rfl, ?_, fun _ _ => rfl, ?_⟩
  · rw [pocketSegmentResponse_eq_table, pocketSegmentResponse_eq_table]
    exact ht
  · intro segs X
    rfl
  · intro segs X
    rfl

/-- Witness for C30: `lowerBall` and `guardWall` over the rationals. -/
theorem C30_segment_response_symmetry_witness :
    ((guardWall : BoundingSegment ℚ).p1.x ≠ (guardWall : BoundingSegment ℚ).p2.x ∨
      (guardWall : BoundingSegment ℚ).p1.z ≠ (guardWall : BoundingSegment ℚ).p2.z) ∧
    tableSegmentResponse ratMath (lowerBall : GameBall ℚ)
        ⟨(guardWall : BoundingSegment ℚ).p2, (guardWall : BoundingSegment ℚ).p1⟩
      = tableSegmentResponse ratMath (lowerBall : GameBall ℚ) guardWall :=
  ⟨Or.inr (by decide),
    (C30_segment_response_symmetry ratMath (lowerBall : GameBall ℚ) guardWall
      (Or.inr (by decide))).2.1⟩

end SegmentResponse

/-! ## Theorems: conservation in the sphere–sphere resolution -/

section Conservation

variable {K : Type} [LinearOrderedField K]

/-- C26 (amended). Momentum and centroid conservation, in exact arithmetic: for every
overlapping pair with distinct centres,
the sphere–sphere resolution leaves the sum `A.velocity + B.velocity` and the sum
`A.position + B.position` unchanged, whether the pair is approaching (`proj ≤ 0`) or separating
(`proj > 0`). -/
theorem C26_momentum_centroid_conservation (m : MathLib K) (A B : GameBall K)
    (_hne : A.position ≠ B.position)
    (hov : (A.position.sub B.position).length m < A.radius + B.radius) :
    (sphereSphere m A B).1.velocity.add (sphereSphere m A B).2.velocity
      = A.velocity.add B.velocity ∧
    (sphereSphere m A B).1.position.add (sphereSphere m A B).2.position
      = A.position.add B.position := by
  obtain ⟨pA, pB⟩ := sphereSphere_position m A B hov
  constructor
  · rcases le_or_lt ((A.velocity.sub B.velocity).dot ((A.position.sub B.position).normalize m)) 0
      with hp | hp
    · obtain ⟨vA, vB⟩ := sphereSphere_velocity_approaching m A B hov hp
      rw [vA, vB]
      ext <;> simp only [Vec3.add, Vec3.sub, Vec3.scale] <;> ring
    · obtain ⟨vA, vB⟩ := sphereSphere_velocity_separating m A B hov hp
      rw [vA, vB]
  · rw [pA, pB]
    ext <;> simp only [Vec3.add, Vec3.sub, Vec3.scale] <;> ring

/-- Witness for C26: two unit balls over the reals at distance 1, the second approaching. -/
theorem C26_momentum_centroid_conservation_witness :
    (pairA : GameBall ℝ).position ≠ (pairB : GameBall ℝ).position ∧
    ((pairA : GameBall ℝ).position.sub (pairB : GameBall ℝ).position).length
      (MathLib.mk Real.sqrt Real.sin Real.cos) < (pairA : GameBall ℝ).radius + pairB.radius ∧
    (sphereSphere (MathLib.mk Real.sqrt Real.sin Real.cos) (pairA : GameBall ℝ) pairB).1.velocity.add
        (sphereSphere (MathLib.mk Real.sqrt Real.sin Real.cos) (pairA : GameBall ℝ) pairB).2.velocity
      = ⟨-1, 0, 0⟩ := by
  have hov : ((pairA : GameBall ℝ).position.sub (pairB : GameBall ℝ).position).length
      (MathLib.mk Real.sqrt Real.sin Real.cos) < (pairA : GameBall ℝ).radius + pairB.radius := by
    rw [pair_length]; simp [pairA, pairB, mkBall]
  refine ⟨pair_distinct, hov, ?_⟩
  rw [(C26_momentum_centroid_conservation _ pairA pairB pair_distinct hov).1]
  simp [pairA, pairB, mkBall, Vec3.add]

/-- Sum of the squared speeds after opposite impulses `± j n` along a unit normal. -/
theorem impulse_energy (vA vB n : Vec3 K) (j : K) (hn : n.dot n = 1) :
    (vA.add (n.scale j)).dot (vA.add (n.scale j)) + (vB.sub (n.scale j)).dot (vB.sub (n.scale j))
      = vA.dot vA + vB.dot vB + 2 * j * (vA.sub vB).dot n + 2 * j * j := by
  simp only [Vec3.dot, Vec3.sub, Vec3.add, Vec3.scale] at hn ⊢
  linear_combination (2 * j * j) * hn

/-- C27 (amended). Kinetic energy never increases in a sphere–sphere collision, in exact
arithmetic: for every overlapping pair
with distinct centres, with `n` the collision normal and `proj = (vA - vB)·n`, after the velocity
resolution `|vA'|² + |vB'|² ≤ |vA|² + |vB|²`; for an approaching pair (`proj ≤ 0`) the decrease
is `(1 - 0.8²) * proj² / 2`, for a separating pair (`proj > 0`) it is 0. -/
theorem C27_kinetic_energy_non_increase (m : MathLib K) (hm : m.Exact) (A B : GameBall K)
    (hne : A.position ≠ B.position)
    (hov : (A.position.sub B.position).length m < A.radius + B.radius) :
    let n := (A.position.sub B.position).normalize m
    let proj := (A.velocity.sub B.velocity).dot n
    let E := A.velocity.dot A.velocity + B.velocity.dot B.velocity
    let E' := (sphereSphere m A B).1.velocity.dot (sphereSphere m A B).1.velocity
      + (sphereSphere m A B).2.velocity.dot (sphereSphere m A B).2.velocity
    (proj ≤ 0 → E - E' = (1 - (8 / 10) * (8 / 10)) * (proj * proj) / 2) ∧
    (0 < proj → E - E' = 0) ∧
    E' ≤ E ∧ (RESTITUTION_COEFF : K) = 8 / 10 := by
  intro n proj E E'
  have hn : n.dot n = 1 := collision_normal_unit hm A B hne
  have h1 : proj ≤ 0 → E - E' = (1 - (8 / 10) * (8 / 10)) * (proj * proj) / 2 := by
    intro hp
    obtain ⟨hA, hB⟩ := sphereSphere_velocity_approaching m A B hov hp
    show A.velocity.dot A.velocity + B.velocity.dot B.velocity
      - ((sphereSphere m A B).1.velocity.dot (sphereSphere m A B).1.velocity
        + (sphereSphere m A B).2.velocity.dot (sphereSphere m A B).2.velocity) = _
    rw [hA, hB, impulse_energy _ _ _ _ hn]
    show _ = (1 - (8 / 10) * (8 / 10)) * ((A.velocity.sub B.velocity).dot n
      * (A.velocity.sub B.velocity).dot n) / 2
    unfold RESTITUTION_COEFF
    ring
  have h2 : 0 < proj → E - E' = 0 := by
    intro hp
    obtain ⟨hA, hB⟩ := sphereSphere_velocity_separating m A B hov hp
    show A.velocity.dot A.velocity + B.velocity.dot B.velocity
      - ((sphereSphere m A B).1.velocity.dot (sphereSphere m A B).1.velocity
        + (sphereSphere m A B).2.velocity.dot (sphereSphere m A B).2.velocity) = _
    rw [hA, hB]
    ring
  refine ⟨h1, h2, ?_, rfl⟩
  rcases le_or_lt proj 0 with hp | hp
  · have h := h1 hp
    have hsq : 0 ≤ proj * proj := mul_self_nonneg proj
    have : 0 ≤ E - E' := by
      rw [h]
      nlinarith
    linarith
  · have h := h2 hp
    linarith

/-- Witness for C27: two unit balls over the reals at distance 1, the second approaching. -/
theorem C27_kinetic_energy_non_increase_witness :
    (MathLib.mk Real.sqrt Real.sin Real.cos).Exact ∧
    (pairA : GameBall ℝ).position ≠ (pairB : GameBall ℝ).position ∧
    ((pairA : GameBall ℝ).position.sub (pairB : GameBall ℝ).position).length
      (MathLib.mk Real.sqrt Real.sin Real.cos) < (pairA : GameBall ℝ).radius + pairB.radius ∧
    (sphereSphere (MathLib.mk Real.sqrt Real.sin Real.cos) (pairA : GameBall ℝ) pairB).1.velocity.dot
        (sphereSphere (MathLib.mk Real.sqrt Real.sin Real.cos) (pairA : GameBall ℝ) pairB).1.velocity
      + (sphereSphere (MathLib.mk Real.sqrt Real.sin Real.cos) (pairA : GameBall ℝ) pairB).2.velocity.dot
        (sphereSphere (MathLib.mk Real.sqrt Real.sin Real.cos) (pairA : GameBall ℝ) pairB).2.velocity
      ≤ (pairA : GameBall ℝ).velocity.dot (pairA : GameBall ℝ).velocity
        + (pairB : GameBall ℝ).velocity.dot (pairB : GameBall ℝ).velocity := by
  have hov : ((pairA : GameBall ℝ).position.sub (pairB : GameBall ℝ).position).length
      (MathLib.mk Real.sqrt Real.sin Real.cos) < (pairA : GameBall ℝ).radius + pairB.radius := by
    rw [pair_length]; simp [pairA, pairB, mkBall]
  exact ⟨real_exact, pair_distinct, hov,
    (C27_kinetic_energy_non_increase _ real_exact pairA pairB pair_distinct hov).2.2.1⟩

end Conservation

/-! ## Theorems: the bounce off a segment -/

section SegmentBounce

variable {K : Type} [LinearOrderedField K]

/-- The exact root is monotone. -/
theorem MathLib.Exact.sqrt_le_sqrt {m : MathLib K} (hm : m.Exact) {x y : K} (hx : 0 ≤ x)
    (hxy : x ≤ y) : m.sqrt x ≤ m.sqrt y := by
  have hy : 0 ≤ y := le_trans hx hxy
  by_contra h
  have hlt : m.sqrt y < m.sqrt x := not_le.mp h
  have h1 := hm.sqrt_mul_self hx
  have h2 := hm.sqrt_mul_self hy
  have h3 : m.sqrt y * m.sqrt y < m.sqrt x * m.sqrt x :=
    mul_self_lt_mul_self (hm.sqrt_nonneg hy) hlt
  linarith

end SegmentBounce

/-! ## Theorems: the steps of the integrator -/

section IntegratorSteps

variable {K : Type} [LinearOrderedField K]

/-- The state after lines 62–63. -/
theorem applyGravityAndMove_spec (A : GameBall K) :
    (applyGravityAndMove A).velocity
      = ⟨A.velocity.x, A.velocity.y - GRAVITY * FIXED_PHYSICS_DELTA_TIME, A.velocity.z⟩ ∧
    (applyGravityAndMove A).position
      = ⟨A.position.x + A.velocity.x * FIXED_PHYSICS_DELTA_TIME,
         A.position.y + (A.velocity.y - GRAVITY * FIXED_PHYSICS_DELTA_TIME)
           * FIXED_PHYSICS_DELTA_TIME,
         A.position.z + A.velocity.z * FIXED_PHYSICS_DELTA_TIME⟩ ∧
    (applyGravityAndMove A).orientation = A.orientation := ⟨rfl, rfl, rfl⟩

/-- Lines 64–71: the horizontal velocity after friction and snap. -/
theorem applyFriction_spec (m : MathLib K) (b : GameBall K) :
    (VELOCITY_STOP_THRESHOLD ≤ Vec2.length m ⟨b.velocity.x * BALL_FRICTION_FACTOR,
        b.velocity.z * BALL_FRICTION_FACTOR⟩ →
      (applyFriction m b).velocity.x = b.velocity.x * BALL_FRICTION_FACTOR ∧
      (applyFriction m b).velocity.z = b.velocity.z * BALL_FRICTION_FACTOR) ∧
    (Vec2.length m ⟨b.velocity.x * BALL_FRICTION_FACTOR, b.velocity.z * BALL_FRICTION_FACTOR⟩
        < VELOCITY_STOP_THRESHOLD →
      (applyFriction m b).velocity.x = 0 ∧ (applyFriction m b).velocity.z = 0) ∧
    (applyFriction m b).orientation = b.orientation := by
  unfold applyFriction
  simp only
  refine ⟨?_, ?_, ?_⟩
  · intro h
    rw [if_neg (not_lt.mpr h)]
    exact ⟨rfl, rfl⟩
  · intro h
    rw [if_pos h]
    exact ⟨rfl, rfl⟩
  · split <;> rfl

/-- Lines 88–96 on any ball state. -/
theorem floorCollision_spec (X : GameBall K) :
    (X.position.y - X.radius < FELT_SURFACE_Y_ACTUAL →
      (floorCollision X).position.y = FELT_SURFACE_Y_ACTUAL + X.radius ∧
      (VELOCITY_STOP_THRESHOLD ≤ |RESTITUTION_COEFF * X.velocity.y| →
        (floorCollision X).velocity.y = -RESTITUTION_COEFF * X.velocity.y) ∧
      (|RESTITUTION_COEFF * X.velocity.y| < VELOCITY_STOP_THRESHOLD →
        (floorCollision X).velocity.y = 0)) ∧
    (FELT_SURFACE_Y_ACTUAL ≤ X.position.y - X.radius → floorCollision X = X) := by
  have habs : |X.velocity.y * -RESTITUTION_COEFF| = |RESTITUTION_COEFF * X.velocity.y| := by
    rw [mul_neg, abs_neg, mul_comm]
  constructor
  · intro h
    unfold floorCollision
    rw [if_pos h]
    refine ⟨rfl, ?_, ?_⟩
    · intro h2
      rw [← habs] at h2
      show (if |X.velocity.y * -RESTITUTION_COEFF| < VELOCITY_STOP_THRESHOLD then 0
        else X.velocity.y * -RESTITUTION_COEFF) = _
      rw [if_neg (not_lt.mpr h2)]
      ring
    · intro h2
      rw [← habs] at h2
      show (if |X.velocity.y * -RESTITUTION_COEFF| < VELOCITY_STOP_THRESHOLD then 0
        else X.velocity.y * -RESTITUTION_COEFF) = _
      rw [if_pos h2]
  · intro h
    unfold floorCollision
    rw [if_neg (not_lt.mpr h)]

/-- The ball on which the floor step of the integrator acts has the position and the vertical
velocity left by lines 62–63. -/
theorem before_floor_fields (m : MathLib K) (A : GameBall K) :
    (applyRolling m (applyFriction m (applyGravityAndMove A))).position
      = (applyGravityAndMove A).position ∧
    (applyRolling m (applyFriction m (applyGravityAndMove A))).velocity.y
      = (applyGravityAndMove A).velocity.y ∧
    (applyRolling m (applyFriction m (applyGravityAndMove A))).radius = A.radius ∧
    (applyRolling m (applyFriction m (applyGravityAndMove A))).velocity.x
      = (applyFriction m (applyGravityAndMove A)).velocity.x ∧
    (applyRolling m (applyFriction m (applyGravityAndMove A))).velocity.z
      = (applyFriction m (applyGravityAndMove A)).velocity.z := by
  obtain ⟨r1, -, -, r4, r5⟩ := applyRolling_fields m (applyFriction m (applyGravityAndMove A))
  obtain ⟨a1, -, -, a4, a5⟩ := applyFriction_fields m (applyGravityAndMove A)
  obtain ⟨g1, -⟩ := applyGravityAndMove_fields A
  refine ⟨by rw [r4, a4], by rw [r5, a5], by rw [r1, a1, g1], by rw [r5], by rw [r5]⟩

/-- The floor step inside the integrator, in terms of the ball after lines 62–63. -/
theorem floor_step_in_integrate (m : MathLib K) (A : GameBall K) :
    integrate m A = floorCollision (applyRolling m (applyFriction m (applyGravityAndMove A))) ∧
    (applyRolling m (applyFriction m (applyGravityAndMove A))).position.y
      = (applyGravityAndMove A).position.y ∧
    (applyRolling m (applyFriction m (applyGravityAndMove A))).velocity.y
      = (applyGravityAndMove A).velocity.y ∧
    (applyRolling m (applyFriction m (applyGravityAndMove A))).radius = A.radius ∧
    ((applyGravityAndMove A).position.y - A.radius < FELT_SURFACE_Y_ACTUAL →
      (integrate m A).position.y = FELT_SURFACE_Y_ACTUAL + A.radius ∧
      (VELOCITY_STOP_THRESHOLD ≤ |RESTITUTION_COEFF * (applyGravityAndMove A).velocity.y| →
        (integrate m A).velocity.y = -RESTITUTION_COEFF * (applyGravityAndMove A).velocity.y) ∧
      (|RESTITUTION_COEFF * (applyGravityAndMove A).velocity.y| < VELOCITY_STOP_THRESHOLD →
        (integrate m A).velocity.y = 0)) ∧
    (FELT_SURFACE_Y_ACTUAL ≤ (applyGravityAndMove A).position.y - A.radius →
      (integrate m A).position.y = (applyGravityAndMove A).position.y ∧
      (integrate m A).velocity.y = (applyGravityAndMove A).velocity.y ∧
      integrate m A = applyRolling m (applyFriction m (applyGravityAndMove A))) ∧
    (∀ X : GameBall K,
      (X.position.y - X.radius < FELT_SURFACE_Y_ACTUAL →
        (floorCollision X).position.y = FELT_SURFACE_Y_ACTUAL + X.radius ∧
        (VELOCITY_STOP_THRESHOLD ≤ |RESTITUTION_COEFF * X.velocity.y| →
          (floorCollision X).velocity.y = -RESTITUTION_COEFF * X.velocity.y) ∧
        (|RESTITUTION_COEFF * X.velocity.y| < VELOCITY_STOP_THRESHOLD →
          (floorCollision X).velocity.y = 0)) ∧
      (FELT_SURFACE_Y_ACTUAL ≤ X.position.y - X.radius → floorCollision X = X)) := by
  obtain ⟨bp, bv, br, -, -⟩ := before_floor_fields m A
  have bpy : (applyRolling m (applyFriction m (applyGravityAndMove A))).position.y
      = (applyGravityAndMove A).position.y := by rw [bp]
  obtain ⟨f1, f2⟩ := floorCollision_spec (applyRolling m (applyFriction m (applyGravityAndMove A)))
  rw [bpy, bv, br] at f1
  rw [bpy, br] at f2
  refine ⟨rfl, bpy, bv, br, f1, ?_, floorCollision_spec⟩
  intro h
  have e : integrate m A = applyRolling m (applyFriction m (applyGravityAndMove A)) := f2 h
  rw [e]
  exact ⟨bpy, bv, rfl⟩

/-- C23. Floor collision: the integrator ends with the floor step, applied to the ball whose
position and vertical velocity are those after gravity and position integration (lines 62–63).
If then `position.y - radius < FELT_SURFACE_Y_ACTUAL`, `position.y` is set to
`FELT_SURFACE_Y_ACTUAL + radius` and `velocity.y` is replaced by `-0.8 * velocity.y` when
`|0.8 * velocity.y| ≥ 0.01` and by exactly 0 otherwise; if
`position.y - radius ≥ FELT_SURFACE_Y_ACTUAL`, neither `position.y` nor `velocity.y` is changed
by this step (nor anything else). -/
theorem C23_floor_collision (m : MathLib K) (A : GameBall K) :
    let b := applyGravityAndMove A
    integrate m A = floorCollision (applyRolling m (applyFriction m b)) ∧
    (applyRolling m (applyFriction m b)).position.y = b.position.y ∧
    (applyRolling m (applyFriction m b)).velocity.y = b.velocity.y ∧
    (applyRolling m (applyFriction m b)).radius = A.radius ∧
    (b.position.y - A.radius < FELT_SURFACE_Y_ACTUAL →
      (integrate m A).position.y = FELT_SURFACE_Y_ACTUAL + A.radius ∧
      (VELOCITY_STOP_THRESHOLD ≤ |RESTITUTION_COEFF * b.velocity.y| →
        (integrate m A).velocity.y = -RESTITUTION_COEFF * b.velocity.y) ∧
      (|RESTITUTION_COEFF * b.velocity.y| < VELOCITY_STOP_THRESHOLD →
        (integrate m A).velocity.y = 0)) ∧
    (FELT_SURFACE_Y_ACTUAL ≤ b.position.y - A.radius →
      (integrate m A).position.y = b.position.y ∧ (integrate m A).velocity.y = b.velocity.y ∧
      integrate m A = applyRolling m (applyFriction m b)) ∧
    (∀ X : GameBall K,
      (X.position.y - X.radius < FELT_SURFACE_Y_ACTUAL →
        (floorCollision X).position.y = FELT_SURFACE_Y_ACTUAL + X.radius ∧
        (VELOCITY_STOP_THRESHOLD ≤ |RESTITUTION_COEFF * X.velocity.y| →
          (floorCollision X).velocity.y = -RESTITUTION_COEFF * X.velocity.y) ∧
        (|RESTITUTION_COEFF * X.velocity.y| < VELOCITY_STOP_THRESHOLD →
          (floorCollision X).velocity.y = 0)) ∧
      (FELT_SURFACE_Y_ACTUAL ≤ X.position.y - X.radius → floorCollision X = X)) ∧
    (RESTITUTION_COEFF : K) = 8 / 10 ∧ (VELOCITY_STOP_THRESHOLD : K) = 1 / 100 := by
  intro b
  obtain ⟨h1, h2, h3, h4, h5, h6, h7⟩ := floor_step_in_integrate m A
  exact ⟨h1, h2, h3, h4, h5, h6, h7, rfl, rfl⟩

end IntegratorSteps

/-! ## Theorems: the integrator inside a sub-step -/

section IntegratorSubStep

variable {K : Type} [LinearOrderedField K] [FloorRing K]

/-- C22. Integrator step: let `A` be an active sphere of the world, with velocity `(vx, vy, vz)`
and position `p`, that no sphere of lower index has written when its turn comes in the sub-step,
whose position after the move is not below the floor, and that (once integrated) overlaps no
active sphere of higher index, is within its radius of no segment and passes the capture test of
no pocket.  With `dt = 1/120`, `g = 9.8`, `k = 0.99`, at the end of the sub-step its position is
`p + (vx, vy - g*dt, vz) * dt`, its vertical velocity is `vy - g*dt`, and its horizontal velocity
is `(k*vx, k*vz)` if the magnitude of `(k*vx, k*vz)` is `≥ 0.01` and `(0, 0)` otherwise. -/
theorem C22_integrator_step (m : MathLib K) (sc : Scene K) (w : World K)
    (i : Nat) (A : GameBall K) (_hA : w.balls[i]? = some A)
    (hturn : (stateBefore m sc w i).balls[i]? = some A) (hact : A.active = true)
    (habove : FELT_SURFACE_Y_ACTUAL ≤ A.position.y
      + (A.velocity.y - GRAVITY * FIXED_PHYSICS_DELTA_TIME) * FIXED_PHYSICS_DELTA_TIME
      - A.radius)
    (hno : ∀ j B, i < j → (stateBefore m sc w i).balls[j]? = some B → B.active = true →
      ¬ ((integrate m A).position.sub B.position).length m < (integrate m A).radius + B.radius)
    (hseg : ∀ seg, seg ∈ sc.pocketSegments ∨ seg ∈ sc.tableSegments →
      ¬ segmentDistance m (integrate m A).position seg < (integrate m A).radius)
    (hpk : ∀ pocket, pocket ∈ sc.pockets → ¬ inPocket m (integrate m A) pocket) :
    ∃ X, (subStep m sc w).balls[i]? = some X ∧
      X.position = A.position.add
        ((Vec3.mk A.velocity.x (A.velocity.y - GRAVITY * FIXED_PHYSICS_DELTA_TIME)
          A.velocity.z).scale FIXED_PHYSICS_DELTA_TIME) ∧
      X.velocity.y = A.velocity.y - GRAVITY * FIXED_PHYSICS_DELTA_TIME ∧
      (VELOCITY_STOP_THRESHOLD ≤ Vec2.length m ⟨A.velocity.x * BALL_FRICTION_FACTOR,
          A.velocity.z * BALL_FRICTION_FACTOR⟩ →
        X.velocity.x = A.velocity.x * BALL_FRICTION_FACTOR ∧
        X.velocity.z = A.velocity.z * BALL_FRICTION_FACTOR) ∧
      (Vec2.length m ⟨A.velocity.x * BALL_FRICTION_FACTOR, A.velocity.z * BALL_FRICTION_FACTOR⟩
          < VELOCITY_STOP_THRESHOLD →
        X.velocity.x = 0 ∧ X.velocity.z = 0) ∧
      (FIXED_PHYSICS_DELTA_TIME : K) = 1 / 120 ∧ (GRAVITY : K) = 98 / 10 ∧
      (BALL_FRICTION_FACTOR : K) = 99 / 100 ∧ (VELOCITY_STOP_THRESHOLD : K) = 1 / 100 := by
  have hsub := subStep_untouched m sc w i A hturn hact hno hseg
  rw [pocketLoop_of_none m sc.pockets _ _ hpk] at hsub
  obtain ⟨bp, bv, -, bx, bz⟩ := before_floor_fields m A
  obtain ⟨gv, gp, -⟩ := applyGravityAndMove_spec A
  have hfree : FELT_SURFACE_Y_ACTUAL ≤ (applyGravityAndMove A).position.y - A.radius := by
    rw [gp]; exact habove
  obtain ⟨-, -, -, -, -, hint, -⟩ := floor_step_in_integrate m A
  have e := (hint hfree).2.2
  obtain ⟨a1, a2, -⟩ := applyFriction_spec m (applyGravityAndMove A)
  rw [gv] at a1 a2
  refine ⟨integrate m A, hsub, ?_, ?_, ?_, ?_, rfl, rfl, rfl, rfl⟩
  · rw [e, bp]
    rfl
  · rw [e, bv, gv]
  · intro h
    rw [e, bx, bz]
    exact a1 h
  · intro h
    rw [e, bx, bz]
    exact a2 h

/-- Witness for C22: `flyingBall` alone over the rationals: it moves up by `(1/200) / 120` and
its vertical velocity becomes `1/200`. -/
theorem C22_integrator_step_witness :
    (flyingWorld : World ℚ).balls[0]? = some flyingBall ∧
    (flyingBall : GameBall ℚ).active = true ∧
    FELT_SURFACE_Y_ACTUAL ≤ (flyingBall : GameBall ℚ).position.y
      + ((flyingBall : GameBall ℚ).velocity.y - GRAVITY * FIXED_PHYSICS_DELTA_TIME)
        * FIXED_PHYSICS_DELTA_TIME
      - (flyingBall : GameBall ℚ).radius ∧
    ∃ X : GameBall ℚ, (subStep ratMath emptyScene (flyingWorld : World ℚ)).balls[0]? = some X ∧
      X.position = ⟨0, 1 / 24000, 0⟩ ∧ X.velocity = ⟨0, 1 / 200, 0⟩ := by
  have habove : FELT_SURFACE_Y_ACTUAL ≤ (flyingBall : GameBall ℚ).position.y
      + ((flyingBall : GameBall ℚ).velocity.y - GRAVITY * FIXED_PHYSICS_DELTA_TIME)
        * FIXED_PHYSICS_DELTA_TIME
      - (flyingBall : GameBall ℚ).radius := by
    show (FELT_SURFACE_Y_ACTUAL : ℚ) ≤ 0
      + (98 / 1200 + 1 / 200 - GRAVITY * FIXED_PHYSICS_DELTA_TIME) * FIXED_PHYSICS_DELTA_TIME
      - BALL_VIRTUAL_RADIUS
    unfold FELT_SURFACE_Y_ACTUAL BALL_Y_AXIS BALL_VIRTUAL_RADIUS GRAVITY FIXED_PHYSICS_DELTA_TIME
    norm_num
  refine ⟨rfl, rfl, habove, ?_⟩
  obtain ⟨X, hX, hp, hvy, -, hslow, -⟩ := C22_integrator_step ratMath emptyScene
    (flyingWorld : World ℚ) 0 flyingBall rfl rfl rfl habove
    (by
      intro j B hj hB
      have hnone : (stateBefore ratMath emptyScene (flyingWorld : World ℚ) 0).balls[j]?
          = none := by
        apply List.getElem?_eq_none
        show 1 ≤ j
        omega
      rw [hnone] at hB
      cases hB)
    (by
      intro seg hseg
      rcases hseg with h | h <;> cases h)
    (by intro pocket hp; cases hp)
  obtain ⟨hx, hz⟩ := hslow (by
    show ((0 : ℚ) * BALL_FRICTION_FACTOR) * (0 * BALL_FRICTION_FACTOR)
      + (0 * BALL_FRICTION_FACTOR) * (0 * BALL_FRICTION_FACTOR) < VELOCITY_STOP_THRESHOLD
    unfold BALL_FRICTION_FACTOR VELOCITY_STOP_THRESHOLD
    norm_num)
  refine ⟨X, hX, ?_, ?_⟩
  · rw [hp]
    simp only [flyingBall, mkBall, Vec3.add, Vec3.scale, GRAVITY, FIXED_PHYSICS_DELTA_TIME]
    norm_num
  · ext
    · exact hx
    · rw [hvy]
      simp only [flyingBall, mkBall, GRAVITY, FIXED_PHYSICS_DELTA_TIME]
      norm_num
    · exact hz

end IntegratorSubStep

/-! ## Theorems: completeness of the broad phase on a fresh grid -/

section BroadPhase

variable {K : Type} [LinearOrderedField K] [FloorRing K]

omit [FloorRing K] in
theorem cell_size_pos : (0 : K) < GRID_CELL_SIZE := by
  unfold GRID_CELL_SIZE BALL_VIRTUAL_RADIUS
  norm_num

/-- Truncation toward zero of two numbers less than 1 apart: one side. -/
theorem truncToInt_le_succ (a b : K) (h : b < a + 1) : truncToInt b ≤ truncToInt a + 1 := by
  unfold truncToInt
  by_cases ha : 0 ≤ a
  · rw [if_pos ha]
    by_cases hb : 0 ≤ b
    · rw [if_pos hb]
      have : ⌊b⌋ ≤ ⌊a + 1⌋ := Int.floor_le_floor (le_of_lt h)
      rw [Int.floor_add_one] at this
      exact this
    · rw [if_neg hb]
      have h1 : ⌈b⌉ ≤ 0 := by
        rw [Int.ceil_le]
        exact_mod_cast le_of_lt (not_le.mp hb)
      have h2 : 0 ≤ ⌊a⌋ := Int.floor_nonneg.mpr ha
      omega
  · rw [if_neg ha]
    by_cases hb : 0 ≤ b
    · rw [if_pos hb]
      have h1 : ⌊b⌋ < 1 := by
        rw [Int.floor_lt]
        have : b < 1 := by linarith [not_le.mp ha]
        exact_mod_cast this
      have h2 : -1 < ⌈a⌉ := by
        rw [Int.lt_ceil]
        have : -1 < a := by linarith
        exact_mod_cast this
      omega
    · rw [if_neg hb]
      have : ⌈b⌉ ≤ ⌈a + 1⌉ := Int.ceil_le_ceil (le_of_lt h)
      rw [Int.ceil_add_one] at this
      exact this

/-- Truncation toward zero of two numbers less than 1 apart. -/
theorem truncToInt_close (a b : K) (h : |a - b| < 1) :
    |truncToInt a - truncToInt b| ≤ 1 := by
  rw [abs_lt] at h
  have h1 := truncToInt_le_succ a b (by linarith)
  have h2 := truncToInt_le_succ b a (by linarith)
  rw [abs_le]
  constructor <;> omega

omit [FloorRing K] in
/-- Clamping to an interval does not increase a distance of at most 1. -/
theorem clamp_close (x y lo hi : Int) (hlh : lo ≤ hi) (h : |x - y| ≤ 1) :
    |clamp x lo hi - clamp y lo hi| ≤ 1 := by
  rw [abs_le] at h
  unfold clamp
  rw [abs_le]
  simp only [min_def, max_def]
  split_ifs <;> constructor <;> omega

/-- Positions less than a cell size apart along `x` have clamped columns at most 1 apart. -/
theorem cellCol_close (p q : Vec3 K) (h : |p.x - q.x| < GRID_CELL_SIZE) :
    |cellCol p - cellCol q| ≤ 1 := by
  have hc : (0 : K) < GRID_CELL_SIZE := cell_size_pos
  unfold cellCol
  apply clamp_close _ _ _ _ (by rw [GRID_COLS_eq]; norm_num)
  apply truncToInt_close
  have e : (p.x + TABLE_HALF_WIDTH) / GRID_CELL_SIZE - (q.x + TABLE_HALF_WIDTH) / GRID_CELL_SIZE
      = (p.x - q.x) / GRID_CELL_SIZE := by
    field_simp
  rw [e, abs_div, abs_of_pos hc, div_lt_one hc]
  exact h

/-- Positions less than a cell size apart along `z` have clamped rows at most 1 apart. -/
theorem cellRow_close (p q : Vec3 K) (h : |p.z - q.z| < GRID_CELL_SIZE) :
    |cellRow p - cellRow q| ≤ 1 := by
  have hc : (0 : K) < GRID_CELL_SIZE := cell_size_pos
  unfold cellRow
  apply clamp_close _ _ _ _ (by rw [GRID_ROWS_eq]; norm_num)
  apply truncToInt_close
  have e : (p.z + TABLE_HALF_DEPTH) / GRID_CELL_SIZE - (q.z + TABLE_HALF_DEPTH) / GRID_CELL_SIZE
      = (p.z - q.z) / GRID_CELL_SIZE := by
    field_simp
  rw [e, abs_div, abs_of_pos hc, div_lt_one hc]
  exact h

omit [FloorRing K] in
/-- A coordinate difference is at most the distance of the centres. -/
theorem abs_coord_le_length (m : MathLib K) (hm : m.Exact) (p q : Vec3 K) :
    |p.x - q.x| ≤ (p.sub q).length m ∧ |p.z - q.z| ≤ (p.sub q).length m := by
  have hx : (p.x - q.x) * (p.x - q.x) ≤ (p.sub q).dot (p.sub q) := by
    simp only [Vec3.dot, Vec3.sub]
    nlinarith [mul_self_nonneg (p.y - q.y), mul_self_nonneg (p.z - q.z)]
  have hz : (p.z - q.z) * (p.z - q.z) ≤ (p.sub q).dot (p.sub q) := by
    simp only [Vec3.dot, Vec3.sub]
    nlinarith [mul_self_nonneg (p.y - q.y), mul_self_nonneg (p.x - q.x)]
  constructor
  · rw [← hm.sqrt_mul_self_abs]
    exact hm.sqrt_le_sqrt (mul_self_nonneg _) hx
  · rw [← hm.sqrt_mul_self_abs]
    exact hm.sqrt_le_sqrt (mul_self_nonneg _) hz

omit [FloorRing K] in
/-- A cell of the grid at most one column and one row away is among the visited cells. -/
theorem mem_visitedCells (col row c r : Int) (hc : |c - col| ≤ 1) (hr : |r - row| ≤ 1)
    (hc0 : 0 ≤ c) (hc1 : c < GRID_COLS) (hr0 : 0 ≤ r) (hr1 : r < GRID_ROWS) :
    (c, r) ∈ visitedCells col row := by
  rw [abs_le] at hc hr
  unfold visitedCells
  rw [List.mem_filter]
  constructor
  · unfold neighbourCells
    rw [List.mem_flatMap]
    refine ⟨c - col, ?_, ?_⟩
    · have : c - col = -1 ∨ c - col = 0 ∨ c - col = 1 := by omega
      rcases this with h | h | h <;> rw [h] <;> simp
    · rw [List.mem_map]
      refine ⟨r - row, ?_, ?_⟩
      · have : r - row = -1 ∨ r - row = 0 ∨ r - row = 1 := by omega
        rcases this with h | h | h <;> rw [h] <;> simp
      · ext <;> simp
  · exact decide_eq_true ⟨hc0, hc1, hr0, hr1⟩

/-- An active ball is in the bucket of its clamped cell of the rebuilt grid. -/
theorem mem_own_bucket (balls : List (GameBall K)) (j : Nat) (B : GameBall K)
    (hB : balls[j]? = some B) (hact : B.active = true) :
    j ∈ gridBucket (updateSpatialGrid balls) (cellCol B.position) (cellRow B.position) := by
  have hj : j < balls.length := by
    by_contra h
    rw [List.getElem?_eq_none (not_lt.mp h)] at hB
    cases hB
  obtain ⟨c0, c1⟩ := cellCol_range B.position
  obtain ⟨r0, r1⟩ := cellRow_range B.position
  show j ∈ bucketAt (updateSpatialGrid balls) (cellCol B.position).toNat
    (cellRow B.position).toNat
  rw [mem_bucketAt]
  refine ⟨by omega, by omega, hj, ?_⟩
  unfold inCell
  rw [hB]
  simp only [hact, Bool.true_and, Bool.and_eq_true, decide_eq_true_eq]
  constructor <;> omega

omit [FloorRing K] in
/-- An index in the bucket of a visited cell is among the candidates. -/
theorem mem_candidates (grid : Grid) (col row c r : Int) (j : Nat)
    (hcell : (c, r) ∈ visitedCells col row) (hj : j ∈ gridBucket grid c r) :
    j ∈ candidates grid col row := by
  unfold candidates
  rw [List.mem_flatMap]
  exact ⟨(c, r), hcell, hj⟩

/-- C29 (amended). Broad-phase completeness on a fresh grid, in exact arithmetic (exact sum,
quotient and truncation in the cell coordinates, exact square root in the distance): any two
positions whose `x` coordinates
differ by less than `GRID_CELL_SIZE` and whose `z` coordinates differ by less than
`GRID_CELL_SIZE` have clamped cell columns at most 1 apart and clamped cell rows at most 1 apart;
hence, in the grid just rebuilt by `updateSpatialGrid`, for two active spheres with centre
distance `<` sum of radii `≤ GRID_CELL_SIZE`, each sphere is in the bucket of its own cell, that
cell is one of the cells of the 3×3 block around the cell of the other sphere that the
neighbourhood loops visit, and so each index is among the candidates met by the loops of the
other. -/
theorem C29_broad_phase_completeness (m : MathLib K) (hm : m.Exact)
    (balls : List (GameBall K)) (i j : Nat) (A B : GameBall K)
    (hA : balls[i]? = some A) (hB : balls[j]? = some B)
    (hactA : A.active = true) (hactB : B.active = true)
    (hov : (A.position.sub B.position).length m < A.radius + B.radius)
    (hsum : A.radius + B.radius ≤ GRID_CELL_SIZE) :
    (∀ p q : Vec3 K, |p.x - q.x| < GRID_CELL_SIZE → |p.z - q.z| < GRID_CELL_SIZE →
      |cellCol p - cellCol q| ≤ 1 ∧ |cellRow p - cellRow q| ≤ 1) ∧
    (|cellCol B.position - cellCol A.position| ≤ 1 ∧
      |cellRow B.position - cellRow A.position| ≤ 1) ∧
    j ∈ gridBucket (updateSpatialGrid balls) (cellCol B.position) (cellRow B.position) ∧
    (cellCol B.position, cellRow B.position)
      ∈ visitedCells (cellCol A.position) (cellRow A.position) ∧
    j ∈ candidates (updateSpatialGrid balls) (cellCol A.position) (cellRow A.position) ∧
    i ∈ gridBucket (updateSpatialGrid balls) (cellCol A.position) (cellRow A.position) ∧
    (cellCol A.position, cellRow A.position)
      ∈ visitedCells (cellCol B.position) (cellRow B.position) ∧
    i ∈ candidates (updateSpatialGrid balls) (cellCol B.position) (cellRow B.position) := by
  have hgen : ∀ p q : Vec3 K, |p.x - q.x| < GRID_CELL_SIZE → |p.z - q.z| < GRID_CELL_SIZE →
      |cellCol p - cellCol q| ≤ 1 ∧ |cellRow p - cellRow q| ≤ 1 :=
    fun p q hx hz => ⟨cellCol_close p q hx, cellRow_close p q hz⟩
  obtain ⟨dx, dz⟩ := abs_coord_le_length m hm A.position B.position
  have hx : |A.position.x - B.position.x| < GRID_CELL_SIZE :=
    lt_of_le_of_lt dx (lt_of_lt_of_le hov hsum)
  have hz : |A.position.z - B.position.z| < GRID_CELL_SIZE :=
    lt_of_le_of_lt dz (lt_of_lt_of_le hov hsum)
  obtain ⟨cAB, rAB⟩ := hgen A.position B.position hx hz
  have cBA : |cellCol B.position - cellCol A.position| ≤ 1 := by rw [abs_sub_comm]; exact cAB
  have rBA : |cellRow B.position - cellRow A.position| ≤ 1 := by rw [abs_sub_comm]; exact rAB
  obtain ⟨a0, a1⟩ := cellCol_range A.position
  obtain ⟨a2, a3⟩ := cellRow_range A.position
  obtain ⟨b0, b1⟩ := cellCol_range B.position
  obtain ⟨b2, b3⟩ := cellRow_range B.position
  have hjB := mem_own_bucket balls j B hB hactB
  have hiA := mem_own_bucket balls i A hA hactA
  have hcB : (cellCol B.position, cellRow B.position)
      ∈ visitedCells (cellCol A.position) (cellRow A.position) :=
    mem_visitedCells _ _ _ _ cBA rBA b0 (by rw [GRID_COLS_eq]; exact b1) b2
      (by rw [GRID_ROWS_eq]; exact b3)
  have hcA : (cellCol A.position, cellRow A.position)
      ∈ visitedCells (cellCol B.position) (cellRow B.position) :=
    mem_visitedCells _ _ _ _ cAB rAB a0 (by rw [GRID_COLS_eq]; exact a1) a2
      (by rw [GRID_ROWS_eq]; exact a3)
  exact ⟨hgen, ⟨cBA, rBA⟩, hjB, hcB, mem_candidates _ _ _ _ _ _ hcB hjB, hiA, hcA,
    mem_candidates _ _ _ _ _ _ hcA hiA⟩

/-- Witness for C29: the two stacked balls over the reals, at distance `BALL_VIRTUAL_RADIUS`. -/
theorem C29_broad_phase_completeness_witness :
    (MathLib.mk Real.sqrt Real.sin Real.cos).Exact ∧
    ((lowerBall : GameBall ℝ).position.sub (upperBall : GameBall ℝ).position).length
      (MathLib.mk Real.sqrt Real.sin Real.cos) < (lowerBall : GameBall ℝ).radius + upperBall.radius ∧
    (lowerBall : GameBall ℝ).radius + (upperBall : GameBall ℝ).radius ≤ GRID_CELL_SIZE ∧
    1 ∈ candidates (updateSpatialGrid (stackedWorld : World ℝ).balls)
      (cellCol (lowerBall : GameBall ℝ).position) (cellRow (lowerBall : GameBall ℝ).position) := by
  have hlen : ((lowerBall : GameBall ℝ).position.sub (upperBall : GameBall ℝ).position).length
      (MathLib.mk Real.sqrt Real.sin Real.cos) = BALL_VIRTUAL_RADIUS := by
    have hr : (0 : ℝ) ≤ BALL_VIRTUAL_RADIUS := by unfold BALL_VIRTUAL_RADIUS; norm_num
    simp only [lowerBall, upperBall, mkBall, Vec3.length, Vec3.sub, Vec3.dot, sub_self, mul_zero,
      zero_add, add_zero, sub_add_cancel_left, neg_mul_neg]
    exact real_exact.sqrt_sq hr
  have hov : ((lowerBall : GameBall ℝ).position.sub (upperBall : GameBall ℝ).position).length
      (MathLib.mk Real.sqrt Real.sin Real.cos)
      < (lowerBall : GameBall ℝ).radius + upperBall.radius := by
    rw [hlen]
    show (BALL_VIRTUAL_RADIUS : ℝ) < BALL_VIRTUAL_RADIUS + BALL_VIRTUAL_RADIUS
    unfold BALL_VIRTUAL_RADIUS
    norm_num
  have hsum : (lowerBall : GameBall ℝ).radius + (upperBall : GameBall ℝ).radius
      ≤ GRID_CELL_SIZE := by
    show (BALL_VIRTUAL_RADIUS : ℝ) + BALL_VIRTUAL_RADIUS ≤ GRID_CELL_SIZE
    unfold GRID_CELL_SIZE BALL_VIRTUAL_RADIUS
    norm_num
  exact ⟨real_exact, hov, hsum,
    (C29_broad_phase_completeness (MathLib.mk Real.sqrt Real.sin Real.cos) real_exact
      (stackedWorld : World ℝ).balls 0 1 lowerBall upperBall rfl rfl rfl rfl hov hsum).2.2.2.2.1⟩

end BroadPhase

/-! ## Theorems: a ball resting on the felt -/

/-- The rebound velocity stays between `0.16 * g * dt` and `0.8 * g * dt` from the first sub-step
on, and is given by a closed form. -/
theorem reboundVelocity_bounds (K : Type) [LinearOrderedField K] (n : Nat) :
    (0 : K) ≤ reboundVelocity n ∧
    (reboundVelocity n : K) ≤ 8 / 10 * (98 / 10 / 120) ∧
    (16 / 100 * (98 / 10 / 120) : K) ≤ reboundVelocity (n + 1) ∧
    (reboundVelocity n : K) = 4 / 9 * (98 / 10 / 120) * (1 - (-(4 / 5)) ^ n) := by
  induction n with
  | zero =>
    refine ⟨le_refl _, ?_, ?_, ?_⟩
    · show (0 : K) ≤ _
      norm_num
    · show _ ≤ ((0 : K) - GRAVITY * FIXED_PHYSICS_DELTA_TIME) * -RESTITUTION_COEFF
      unfold GRAVITY FIXED_PHYSICS_DELTA_TIME RESTITUTION_COEFF
      norm_num
    · show (0 : K) = _
      norm_num
  | succ n ih =>
    obtain ⟨h0, h1, h2, h3⟩ := ih
    have e : (reboundVelocity (n + 1) : K)
        = (reboundVelocity n - 98 / 10 / 120) * -(8 / 10) := by
      show (reboundVelocity n - GRAVITY * FIXED_PHYSICS_DELTA_TIME) * -RESTITUTION_COEFF = _
      unfold GRAVITY FIXED_PHYSICS_DELTA_TIME RESTITUTION_COEFF
      ring
    have e2 : (reboundVelocity (n + 1 + 1) : K)
        = (reboundVelocity (n + 1) - 98 / 10 / 120) * -(8 / 10) := by
      show (reboundVelocity (n + 1) - GRAVITY * FIXED_PHYSICS_DELTA_TIME) * -RESTITUTION_COEFF
        = _
      unfold GRAVITY FIXED_PHYSICS_DELTA_TIME RESTITUTION_COEFF
      ring
    have h4 : (reboundVelocity (n + 1) : K) ≤ 8 / 10 * (98 / 10 / 120) := by
      rw [e]; linarith
    refine ⟨by linarith, h4, ?_, ?_⟩
    · rw [e2]; linarith
    · rw [e, h3, pow_succ]
      ring

section Resting

variable {K : Type} [LinearOrderedField K] [FloorRing K]

omit [FloorRing K] in
/-- The integrator on a ball of radius `BALL_VIRTUAL_RADIUS` at the resting height, without
horizontal velocity and with a vertical velocity of at most `0.8 * g * dt`: the floor step is
taken, the position is unchanged and the vertical velocity `vy` becomes `(vy - g*dt) * -0.8`,
which the stop threshold does not zero. -/
theorem integrate_bouncing (m : MathLib K) (hm : m.Exact) (X : GameBall K)
    (hrad : X.radius = BALL_VIRTUAL_RADIUS) (hy : X.position.y = BALL_Y_AXIS)
    (hvx : X.velocity.x = 0) (hvz : X.velocity.z = 0)
    (h1 : X.velocity.y ≤ 8 / 10 * (98 / 10 / 120)) :
    (integrate m X).position = X.position ∧
    (integrate m X).velocity
      = ⟨0, (X.velocity.y - GRAVITY * FIXED_PHYSICS_DELTA_TIME) * -RESTITUTION_COEFF, 0⟩ ∧
    (applyGravityAndMove X).position.y - X.radius < FELT_SURFACE_Y_ACTUAL ∧
    ¬ |(applyGravityAndMove X).velocity.y * -RESTITUTION_COEFF| < VELOCITY_STOP_THRESHOLD := by
  obtain ⟨gv, gp, -⟩ := applyGravityAndMove_spec X
  have gvy : (applyGravityAndMove X).velocity.y
      = X.velocity.y - GRAVITY * FIXED_PHYSICS_DELTA_TIME := by rw [gv]
  have gpy : (applyGravityAndMove X).position.y = X.position.y
      + (X.velocity.y - GRAVITY * FIXED_PHYSICS_DELTA_TIME) * FIXED_PHYSICS_DELTA_TIME := by
    rw [gp]
  have gpx : (applyGravityAndMove X).position.x = X.position.x := by
    rw [gp, hvx]; simp
  have gpz : (applyGravityAndMove X).position.z = X.position.z := by
    rw [gp, hvz]; simp
  have hlow : (applyGravityAndMove X).position.y - X.radius < FELT_SURFACE_Y_ACTUAL := by
    rw [gpy, hy, hrad]
    unfold FELT_SURFACE_Y_ACTUAL GRAVITY FIXED_PHYSICS_DELTA_TIME
    have : (X.velocity.y - 98 / 10 * (1 / 120)) * (1 / 120) < 0 := by
      apply mul_neg_of_neg_of_pos _ (by norm_num)
      linarith
    linarith
  have habs : (1 / 100 : K) ≤ (X.velocity.y - 98 / 10 * (1 / 120)) * -(8 / 10) := by
    linarith
  have hbig : VELOCITY_STOP_THRESHOLD
      ≤ |RESTITUTION_COEFF * (applyGravityAndMove X).velocity.y| := by
    rw [gvy]
    unfold VELOCITY_STOP_THRESHOLD RESTITUTION_COEFF GRAVITY FIXED_PHYSICS_DELTA_TIME
    rw [abs_of_nonpos (by nlinarith)]
    linarith
  have hnot : ¬ |(applyGravityAndMove X).velocity.y * -RESTITUTION_COEFF|
      < VELOCITY_STOP_THRESHOLD := by
    rw [mul_neg, abs_neg, mul_comm]
    exact not_lt.mpr hbig
  have hzero : Vec2.length m ⟨(applyGravityAndMove X).velocity.x * BALL_FRICTION_FACTOR,
      (applyGravityAndMove X).velocity.z * BALL_FRICTION_FACTOR⟩ < VELOCITY_STOP_THRESHOLD := by
    rw [gv]
    simp only [hvx, hvz, Vec2.length, Vec2.dot, zero_mul, add_zero, hm.sqrt_zero]
    unfold VELOCITY_STOP_THRESHOLD
    norm_num
  obtain ⟨fx, fz⟩ := (applyFriction_spec m (applyGravityAndMove X)).2.1 hzero
  obtain ⟨bp, -, -, bx, bz⟩ := before_floor_fields m X
  obtain ⟨-, -, -, -, hfl, -⟩ := floor_step_in_integrate m X
  obtain ⟨py, vbig, -⟩ := hfl hlow
  obtain ⟨-, -, -, f4, f5, f6, f7, -⟩ := floorCollision_fields
    (applyRolling m (applyFriction m (applyGravityAndMove X)))
  refine ⟨?_, ?_, hlow, hnot⟩
  · ext
    · show (floorCollision (applyRolling m (applyFriction m (applyGravityAndMove X)))).position.x
        = _
      rw [f4, bp, gpx]
    · rw [py, hy, hrad]
      unfold FELT_SURFACE_Y_ACTUAL
      ring
    · show (floorCollision (applyRolling m (applyFriction m (applyGravityAndMove X)))).position.z
        = _
      rw [f5, bp, gpz]
  · ext
    · show (floorCollision (applyRolling m (applyFriction m (applyGravityAndMove X)))).velocity.x
        = _
      rw [f6, bx, fx]
    · rw [vbig hbig, gvy]
      show _ = (X.velocity.y - GRAVITY * FIXED_PHYSICS_DELTA_TIME) * -RESTITUTION_COEFF
      ring
    · show (floorCollision (applyRolling m (applyFriction m (applyGravityAndMove X)))).velocity.z
        = _
      rw [f7, bz, fz]

theorem subStep_length (m : MathLib K) (sc : Scene K) (w : World K) :
    (subStep m sc w).balls.length = w.balls.length := by
  rw [subStep_eq_stateBefore, stateBefore_length]

theorem iterate_subStep_length (m : MathLib K) (sc : Scene K) (n : Nat) :
    ∀ w : World K, ((subStep m sc)^[n] w).balls.length = w.balls.length := by
  induction n with
  | zero => intro w; rfl
  | succ n ih =>
    intro w
    rw [Function.iterate_succ_apply, ih, subStep_length]

/-- The state after `n` sub-steps of a ball that rests on the felt and touches nothing. -/
theorem resting_after (m : MathLib K) (hm : m.Exact) (sc : Scene K) (w : World K)
    (i : Nat) (A : GameBall K) (hA : w.balls[i]? = some A) (hact : A.active = true)
    (hrad : A.radius = BALL_VIRTUAL_RADIUS) (hy : A.position.y = BALL_Y_AXIS)
    (hv : A.velocity = ⟨0, 0, 0⟩)
    (n : Nat)
    (hturn : ∀ k, k < n → (stateBefore m sc ((subStep m sc)^[k] w) i).balls[i]?
      = ((subStep m sc)^[k] w).balls[i]?)
    (hno : ∀ k j B, k < n → i < j →
      (stateBefore m sc ((subStep m sc)^[k] w) i).balls[j]? = some B → B.active = true →
      ¬ (A.position.sub B.position).length m < A.radius + B.radius)
    (hseg : ∀ seg, seg ∈ sc.pocketSegments ∨ seg ∈ sc.tableSegments →
      ¬ segmentDistance m A.position seg < A.radius)
    (hpk : ∀ pocket, pocket ∈ sc.pockets → ¬ inPocket m A pocket) :
    ∀ n', n' ≤ n → ∃ X, ((subStep m sc)^[n'] w).balls[i]? = some X ∧ X.active = true ∧
      X.radius = A.radius ∧ X.position = A.position ∧
      X.velocity = ⟨0, reboundVelocity n', 0⟩ := by
  intro n'
  induction n' with
  | zero => intro _; exact ⟨A, hA, hact, rfl, rfl, hv⟩
  | succ n' ih =>
    intro hle
    obtain ⟨X, hX, xact, xrad, xpos, xvel⟩ := ih (by omega)
    obtain ⟨-, b1, -, -⟩ := reboundVelocity_bounds K n'
    have xvy : X.velocity.y = reboundVelocity n' := by rw [xvel]
    obtain ⟨ipos, ivel, -, -⟩ := integrate_bouncing m hm X (by rw [xrad, hrad])
      (by rw [xpos, hy]) (by rw [xvel]) (by rw [xvel]) (by rw [xvy]; exact b1)
    obtain ⟨irad, iact, -⟩ := integrate_fields m X
    have hturn' : (stateBefore m sc ((subStep m sc)^[n'] w) i).balls[i]? = some X := by
      rw [hturn n' (by omega), hX]
    have hsub := subStep_untouched m sc ((subStep m sc)^[n'] w) i X hturn' xact
      (by
        intro j B hij hB hBact
        rw [ipos, irad, xpos, xrad]
        exact hno n' j B (by omega) hij hB hBact)
      (by
        intro seg hs
        rw [ipos, irad, xpos, xrad]
        exact hseg seg hs)
    have hpk' : ∀ pocket, pocket ∈ sc.pockets → ¬ inPocket m (integrate m X) pocket := by
      intro pocket hp
      have := hpk pocket hp
      unfold inPocket at this ⊢
      rw [ipos, irad, xpos, xrad]
      exact this
    rw [pocketLoop_of_none m sc.pockets _ _ hpk'] at hsub
    refine ⟨integrate m X, ?_, ?_, ?_, ?_, ?_⟩
    · rw [Function.iterate_succ_apply']
      exact hsub
    · rw [iact, xact]
    · rw [irad, xrad]
    · rw [ipos, xpos]
    · rw [ivel, xvy]
      rfl

/-- C28. A resting sphere never settles vertically: in exact arithmetic, let `A` be an active
sphere of radius `BALL_VIRTUAL_RADIUS` with `position.y = BALL_Y_AXIS` and velocity `(0,0,0)`
that in each of the first `n` sub-steps no sphere of lower index has written when its turn
comes, and that overlaps no active sphere of higher index, is within its radius of no segment and
passes the capture test of no pocket.  After `n` sub-steps it is active, its position is
unchanged, its horizontal velocity is `(0,0)` and its vertical velocity is
`(4/9) * (9.8/120) * (1 - (-0.8)^n)`: `0.8 * 9.8/120` for `n = 1`, `0.16 * 9.8/120` for `n = 2`,
and for every `n ≥ 1` not zero and `> 0.01`, the stop threshold.  In the sub-step that follows
(so in every sub-step) the floor collision is taken and the vertical stop-threshold test fails:
the zeroing is never triggered. -/
theorem C28_resting_sphere_never_settles (m : MathLib K) (hm : m.Exact) (sc : Scene K)
    (w : World K) (i : Nat) (A : GameBall K) (hA : w.balls[i]? = some A)
    (hact : A.active = true) (hrad : A.radius = BALL_VIRTUAL_RADIUS)
    (hy : A.position.y = BALL_Y_AXIS) (hv : A.velocity = ⟨0, 0, 0⟩)
    (n : Nat)
    (hturn : ∀ k, k < n → (stateBefore m sc ((subStep m sc)^[k] w) i).balls[i]?
      = ((subStep m sc)^[k] w).balls[i]?)
    (hno : ∀ k j B, k < n → i < j →
      (stateBefore m sc ((subStep m sc)^[k] w) i).balls[j]? = some B → B.active = true →
      ¬ (A.position.sub B.position).length m < A.radius + B.radius)
    (hseg : ∀ seg, seg ∈ sc.pocketSegments ∨ seg ∈ sc.tableSegments →
      ¬ segmentDistance m A.position seg < A.radius)
    (hpk : ∀ pocket, pocket ∈ sc.pockets → ¬ inPocket m A pocket) :
    ∃ X, ((subStep m sc)^[n] w).balls[i]? = some X ∧ X.active = true ∧
      X.position = A.position ∧ X.velocity.x = 0 ∧ X.velocity.z = 0 ∧
      X.velocity.y = 4 / 9 * (98 / 10 / 120) * (1 - (-(4 / 5)) ^ n) ∧
      (n = 1 → X.velocity.y = 8 / 10 * (98 / 10) / 120) ∧
      (n = 2 → X.velocity.y = 16 / 100 * (98 / 10) / 120) ∧
      (1 ≤ n → X.velocity.y ≠ 0 ∧ VELOCITY_STOP_THRESHOLD ≤ X.velocity.y ∧
        1 / 100 < X.velocity.y) ∧
      ((applyGravityAndMove X).position.y - X.radius < FELT_SURFACE_Y_ACTUAL ∧
        ¬ |(applyGravityAndMove X).velocity.y * -RESTITUTION_COEFF|
          < VELOCITY_STOP_THRESHOLD) := by
  obtain ⟨X, hX, xact, xrad, xpos, xvel⟩ :=
    resting_after m hm sc w i A hA hact hrad hy hv n hturn hno hseg hpk n (le_refl n)
  obtain ⟨-, b1, -, bc⟩ := reboundVelocity_bounds K n
  have xvy : X.velocity.y = reboundVelocity n := by rw [xvel]
  obtain ⟨-, -, hlow, hnot⟩ := integrate_bouncing m hm X (by rw [xrad, hrad])
    (by rw [xpos, hy]) (by rw [xvel]) (by rw [xvel]) (by rw [xvy]; exact b1)
  refine ⟨X, hX, xact, xpos, by rw [xvel], by rw [xvel], by rw [xvy]; exact bc, ?_, ?_, ?_,
    hlow, hnot⟩
  · intro h1
    rw [xvy, bc, h1]
    norm_num
  · intro h2
    rw [xvy, bc, h2]
    norm_num
  · intro hn
    obtain ⟨k, hk⟩ : ∃ k, n = k + 1 := ⟨n - 1, by omega⟩
    have hlo := (reboundVelocity_bounds K k).2.2.1
    rw [← hk, ← xvy] at hlo
    have h3 : (1 / 100 : K) < X.velocity.y := by
      have : (1 / 100 : K) < 16 / 100 * (98 / 10 / 120) := by norm_num
      linarith
    refine ⟨?_, ?_, h3⟩
    · intro h0
      rw [h0] at h3
      norm_num at h3
    · unfold VELOCITY_STOP_THRESHOLD
      exact le_of_lt h3

/-- Witness for C28: `lowerBall` alone in a scene without segments and pockets, over the reals,
after two sub-steps. -/
theorem C28_resting_sphere_never_settles_witness :
    (MathLib.mk Real.sqrt Real.sin Real.cos).Exact ∧
    (wallWorld : World ℝ).balls[0]? = some lowerBall ∧
    (lowerBall : GameBall ℝ).radius = BALL_VIRTUAL_RADIUS ∧
    (lowerBall : GameBall ℝ).position.y = BALL_Y_AXIS ∧
    (lowerBall : GameBall ℝ).velocity = ⟨0, 0, 0⟩ ∧
    ∃ X : GameBall ℝ, ((subStep (MathLib.mk Real.sqrt Real.sin Real.cos) emptyScene)^[2]
        (wallWorld : World ℝ)).balls[0]? = some X ∧
      X.position = (lowerBall : GameBall ℝ).position ∧
      X.velocity.y = 16 / 100 * (98 / 10) / 120 := by
  refine ⟨real_exact, rfl, rfl, rfl, rfl, ?_⟩
  obtain ⟨X, hX, -, hp, -, -, -, -, h2, -⟩ := C28_resting_sphere_never_settles
    (MathLib.mk Real.sqrt Real.sin Real.cos) real_exact emptyScene (wallWorld : World ℝ) 0
    lowerBall rfl rfl rfl rfl rfl 2
    (by intro k _; rw [stateBefore_zero])
    (by
      intro k j B _ hj hB
      have hnone : (stateBefore (MathLib.mk Real.sqrt Real.sin Real.cos) emptyScene
          ((subStep (MathLib.mk Real.sqrt Real.sin Real.cos) emptyScene)^[k]
            (wallWorld : World ℝ)) 0).balls[j]? = none := by
        apply List.getElem?_eq_none
        rw [stateBefore_length, iterate_subStep_length]
        show 1 ≤ j
        omega
      rw [hnone] at hB
      cases hB)
    (by
      intro seg hseg
      rcases hseg with h | h <;> cases h)
    (by intro pocket hp; cases hp)
  exact ⟨X, hX, hp, h2 rfl⟩

end Resting

/-! ## Theorems: floor containment as an invariant of the sub-steps -/

section Containment

variable {K : Type} [LinearOrderedField K] [FloorRing K]

end Containment

set_option maxRecDepth 100000

/-! ## Theorems: binary32 arithmetic -/

theorem bitLengthAux_le (fuel n : Nat) (hn : 0 < n) (hf : 0 < fuel) :
    2 ^ (bitLengthAux fuel n - 1) ≤ n := by
  induction fuel generalizing n with
  | zero => omega
  | succ f ih =>
    unfold bitLengthAux
    rw [if_neg (by omega)]
    simp only [Nat.add_sub_cancel]
    rcases Nat.eq_zero_or_pos f with hf0 | hf0
    · subst hf0
      simp only [bitLengthAux, pow_zero]
      omega
    rcases Nat.eq_zero_or_pos (n / 2) with h2 | h2
    · rw [h2]
      have : bitLengthAux f 0 = 0 := by
        cases f with
        | zero => rfl
        | succ g => simp [bitLengthAux]
      rw [this, pow_zero]
      omega
    · have h := ih (n / 2) h2 hf0
      have hb : 0 < bitLengthAux f (n / 2) := by
        cases f with
        | zero => omega
        | succ g =>
          unfold bitLengthAux
          rw [if_neg (by omega)]
          omega
      have e : bitLengthAux f (n / 2) = (bitLengthAux f (n / 2) - 1) + 1 := by omega
      rw [e, pow_succ]
      omega

theorem bitLength_le (n : Nat) (hn : 0 < n) : 2 ^ (bitLength n - 1) ≤ n :=
  bitLengthAux_le 400 n hn (by norm_num)

theorem roundHalfEven_ge (n sh : Nat) : n / 2 ^ sh ≤ roundHalfEven n sh := by
  unfold roundHalfEven
  simp only
  split_ifs <;> omega

theorem round_isPositive (N e : Int) (hN : 0 < N) (he : -149 ≤ e) :
    (Binary32.round N e).isPositive = true := by
  have hnat : 0 < N.natAbs := Int.natAbs_pos.mpr (ne_of_gt hN)
  have hneg : ¬ N < 0 := not_lt.mpr (le_of_lt hN)
  have hq : 0 < (if max (e + (bitLength N.natAbs : Int) - 24) (-149) ≤ e
      then N.natAbs * 2 ^ (e - max (e + (bitLength N.natAbs : Int) - 24) (-149)).toNat
      else roundHalfEven N.natAbs
        (max (e + (bitLength N.natAbs : Int) - 24) (-149) - e).toNat) := by
    split_ifs with h
    · positivity
    · have h1 : max (e + (bitLength N.natAbs : Int) - 24) (-149)
          = e + (bitLength N.natAbs : Int) - 24 := by
        rcases max_cases (e + (bitLength N.natAbs : Int) - 24) (-149) with ⟨h1, _⟩ | ⟨h1, _⟩
        · exact h1
        · rw [h1] at h; omega
      rw [h1] at h ⊢
      have hlen : 24 < bitLength N.natAbs := by omega
      have hsh : (e + (bitLength N.natAbs : Int) - 24 - e).toNat = bitLength N.natAbs - 24 := by
        omega
      rw [hsh]
      refine lt_of_lt_of_le ?_ (roundHalfEven_ge _ _)
      apply Nat.div_pos _ (by positivity)
      refine le_trans ?_ (bitLength_le _ hnat)
      exact Nat.pow_le_pow_right (by norm_num) (by omega)
  have key : ∀ (q : Nat) (e1 : Int), 0 < q → -149 ≤ e1 →
      (if (if q = 2 ^ 24 then 2 ^ 23 else q) = 0 then Binary32.finite 0 0
       else if 104 < (if q = 2 ^ 24 then e1 + 1 else e1) then Binary32.inf (decide (N < 0))
       else Binary32.finite
         (if N < 0 then -((if q = 2 ^ 24 then 2 ^ 23 else q : Nat) : Int)
          else ((if q = 2 ^ 24 then 2 ^ 23 else q : Nat) : Int))
         (if q = 2 ^ 24 then e1 + 1 else e1)).isPositive = true := by
    intro q e1 hq0 he1
    have hq2 : 0 < (if q = 2 ^ 24 then 2 ^ 23 else q) := by
      split_ifs
      · norm_num
      · exact hq0
    have he2 : -149 ≤ (if q = 2 ^ 24 then e1 + 1 else e1) := by
      split_ifs <;> omega
    rw [if_neg (by omega), if_neg hneg]
    simp only [hneg, decide_False]
    by_cases h104 : 104 < (if q = 2 ^ 24 then e1 + 1 else e1)
    · rw [if_pos h104]
      rfl
    · rw [if_neg h104]
      simp only [Binary32.isPositive, Bool.and_eq_true, decide_eq_true_eq]
      exact ⟨by exact_mod_cast hq2, he2⟩
  exact key _ _ hq (le_max_right _ _)

theorem add_isPositive (a b : Binary32) (ha : a.isPositive = true) (hb : b.isPositive = true) :
    (a.add b).isPositive = true := by
  cases a with
  | finite m1 e1 =>
    cases b with
    | finite m2 e2 =>
      simp only [Binary32.isPositive, Bool.and_eq_true, decide_eq_true_eq] at ha hb
      unfold Binary32.add
      apply round_isPositive
      · have h1 : 0 < m1 * 2 ^ (e1 - min e1 e2).toNat :=
          mul_pos ha.1 (pow_pos (by norm_num) _)
        have h2 : 0 < m2 * 2 ^ (e2 - min e1 e2).toNat :=
          mul_pos hb.1 (pow_pos (by norm_num) _)
        omega
      · exact le_min ha.2 hb.2
    | inf s => exact hb
    | nan => cases hb
  | inf s =>
    cases b with
    | finite m2 e2 => exact ha
    | inf t =>
      cases s
      · cases t
        · rfl
        · cases hb
      · cases ha
    | nan => cases hb
  | nan => cases ha

theorem zero_lt_of_isPositive (a : Binary32) (ha : a.isPositive = true) :
    Binary32.zero.lt a = true := by
  cases a with
  | finite m e =>
    simp only [Binary32.isPositive, Bool.and_eq_true, decide_eq_true_eq] at ha
    simp only [Binary32.zero, Binary32.lt, zero_mul, decide_eq_true_eq]
    exact mul_pos ha.1 (pow_pos (by norm_num) _)
  | inf s =>
    cases s
    · rfl
    · cases ha
  | nan => cases ha

theorem round_zero (e : Int) : Binary32.round 0 e = Binary32.zero := by
  have hb : bitLength (0 : Int).natAbs = 0 := rfl
  have hr : ∀ sh : Nat, roundHalfEven 0 sh = 0 := by
    intro sh
    unfold roundHalfEven
    simp only [Nat.zero_div, Nat.zero_mod]
    rw [if_pos (by positivity)]
  have hq : (if max (e + ((0 : Nat) : Int) - 24) (-149) ≤ e
      then (0 : Int).natAbs * 2 ^ (e - max (e + ((0 : Nat) : Int) - 24) (-149)).toNat
      else roundHalfEven (0 : Int).natAbs
        (max (e + ((0 : Nat) : Int) - 24) (-149) - e).toNat) = 0 := by
    split_ifs
    · simp
    · exact hr _
  unfold Binary32.round
  simp only [hb, hq]
  rfl

theorem sub_self_of_isFinite (a : Binary32) (ha : a.isFinite = true) :
    a.sub a = Binary32.zero := by
  cases a with
  | finite m e =>
    simp only [Binary32.sub, Binary32.neg, Binary32.add, min_self, sub_self, Int.toNat_zero,
      pow_zero, mul_one, add_neg_cancel]
    exact round_zero e
  | inf s => cases ha
  | nan => cases ha

theorem add_nan (a : Binary32) : a.add .nan = .nan := by
  cases a <;> rfl

theorem sub_nan (a : Binary32) : a.sub .nan = .nan := by
  cases a <;> rfl

theorem nan_mul (a : Binary32) : Binary32.nan.mul a = .nan := rfl

theorem mul_nan (a : Binary32) : a.mul .nan = .nan := by
  cases a <;> rfl

theorem nan_add (a : Binary32) : Binary32.nan.add a = .nan := rfl

theorem nan_div (a : Binary32) : Binary32.nan.div a = .nan := rfl

theorem lt_nan (a : Binary32) : a.lt .nan = false := by
  cases a <;> rfl

/-- Lines 114–130 in binary32 at coincident centres: the difference of the centres is the zero
vector, the overlap test succeeds, the normalisation divides by 0 and every component of the
positions and velocities of both balls becomes NaN. -/
theorem sphereSphere32_coincident (A B : GameBall Binary32) (hpos : A.position = B.position)
    (hx : A.position.x.isFinite = true) (hy : A.position.y.isFinite = true)
    (hz : A.position.z.isFinite = true)
    (hrA : A.radius.isPositive = true) (hrB : B.radius.isPositive = true) :
    A.position.sub32 B.position = Vec3.zero32 ∧
    (A.position.sub32 B.position).length32 = Binary32.zero ∧
    (A.position.sub32 B.position).length32.lt (A.radius.add B.radius) = true ∧
    ((A.position.sub32 B.position).dot32 (A.position.sub32 B.position)).sqrt = Binary32.zero ∧
    (Binary32.ofInt 1).div
      ((A.position.sub32 B.position).dot32 (A.position.sub32 B.position)).sqrt = .inf false ∧
    (A.position.sub32 B.position).normalize32 = ⟨.nan, .nan, .nan⟩ ∧
    sphereSphere32 A B
      = ({ A with position := ⟨.nan, .nan, .nan⟩, velocity := ⟨.nan, .nan, .nan⟩ },
         { B with position := ⟨.nan, .nan, .nan⟩, velocity := ⟨.nan, .nan, .nan⟩ }) := by
  have hd : A.position.sub32 B.position = Vec3.zero32 := by
    rw [← hpos]
    simp only [Vec3.sub32, sub_self_of_isFinite _ hx, sub_self_of_isFinite _ hy,
      sub_self_of_isFinite _ hz, Vec3.zero32]
  have hlen : Vec3.zero32.length32 = Binary32.zero := by decide
  have hsq : (Vec3.zero32.dot32 Vec3.zero32).sqrt = Binary32.zero := by decide
  have hinv : (Binary32.ofInt 1).div (Vec3.zero32.dot32 Vec3.zero32).sqrt = .inf false := by
    decide
  have hn : Vec3.zero32.normalize32 = ⟨.nan, .nan, .nan⟩ := by decide
  have hov : Vec3.zero32.length32.lt (A.radius.add B.radius) = true := by
    rw [hlen]
    exact zero_lt_of_isPositive _ (add_isPositive _ _ hrA hrB)
  have hres : sphereSphere32 A B
      = ({ A with position := ⟨.nan, .nan, .nan⟩, velocity := ⟨.nan, .nan, .nan⟩ },
         { B with position := ⟨.nan, .nan, .nan⟩, velocity := ⟨.nan, .nan, .nan⟩ }) := by
    unfold sphereSphere32
    simp only [hd, hov, if_true, hn]
    simp only [Vec3.scale32, Vec3.lscale32, Vec3.add32, Vec3.sub32,
      Vec3.dot32, nan_mul, mul_nan, add_nan, sub_nan, nan_add, lt_nan, Bool.false_eq_true,
      if_false]
  rw [hd]
  exact ⟨rfl, hlen, hov, hsq, hinv, hn, hres⟩

theorem round_cases (N e : Int) :
    Binary32.round N e = .finite 0 0 ∨ (∃ s, Binary32.round N e = .inf s) ∨
    ∃ m e1, Binary32.round N e = .finite m e1 ∧ m ≠ 0 ∧ -149 ≤ e1 := by
  have key : ∀ (q : Nat) (e1 : Int), -149 ≤ e1 →
      (let r : Binary32 :=
        (if (if q = 2 ^ 24 then 2 ^ 23 else q) = 0 then Binary32.finite 0 0
         else if 104 < (if q = 2 ^ 24 then e1 + 1 else e1) then Binary32.inf (decide (N < 0))
         else Binary32.finite
           (if N < 0 then -((if q = 2 ^ 24 then 2 ^ 23 else q : Nat) : Int)
            else ((if q = 2 ^ 24 then 2 ^ 23 else q : Nat) : Int))
           (if q = 2 ^ 24 then e1 + 1 else e1))
       r = .finite 0 0 ∨ (∃ s, r = .inf s) ∨ ∃ m e2, r = .finite m e2 ∧ m ≠ 0 ∧ -149 ≤ e2) := by
    intro q e1 he1
    simp only
    have he2 : -149 ≤ (if q = 2 ^ 24 then e1 + 1 else e1) := by
      split_ifs <;> omega
    by_cases h0 : (if q = 2 ^ 24 then 2 ^ 23 else q) = 0
    · left
      rw [if_pos h0]
    · rw [if_neg h0]
      by_cases h104 : 104 < (if q = 2 ^ 24 then e1 + 1 else e1)
      · right; left
        rw [if_pos h104]
        exact ⟨_, rfl⟩
      · right; right
        rw [if_neg h104]
        refine ⟨_, _, rfl, ?_, he2⟩
        generalize (if q = 2 ^ 24 then 2 ^ 23 else q) = q2 at h0
        by_cases hN : N < 0
        · rw [if_pos hN]; omega
        · rw [if_neg hN]; omega
  exact key _ _ (le_max_right _ _)

theorem add_cases (a b : Binary32) :
    a.add b = .nan ∨ a.add b = .finite 0 0 ∨ (∃ s, a.add b = .inf s) ∨
    ∃ m e1, a.add b = .finite m e1 ∧ m ≠ 0 ∧ -149 ≤ e1 := by
  cases a with
  | finite m1 e1 =>
    cases b with
    | finite m2 e2 => exact Or.inr (round_cases _ _)
    | inf s => exact Or.inr (Or.inr (Or.inl ⟨s, rfl⟩))
    | nan => exact Or.inl rfl
  | inf s =>
    cases b with
    | finite m2 e2 => exact Or.inr (Or.inr (Or.inl ⟨s, rfl⟩))
    | inf t =>
      by_cases h : s = t
      · right; right; left
        exact ⟨s, by simp only [Binary32.add, h, if_true]⟩
      · left
        simp only [Binary32.add, h, if_false]
    | nan => exact Or.inl rfl
  | nan => exact Or.inl rfl

theorem sqrt_isPositive (m e : Int) (hm : 0 < m) (he : -149 ≤ e) :
    (Binary32.sqrt (.finite m e)).isPositive = true := by
  simp only [Binary32.sqrt, if_neg (not_lt.mpr (le_of_lt hm))]
  apply round_isPositive
  · have hn : 0 < m.natAbs * 2 ^ (if (e - 60) % 2 = 0 then 60 else 61) :=
      Nat.mul_pos (Int.natAbs_pos.mpr (ne_of_gt hm)) (by positivity)
    generalize m.natAbs * 2 ^ (if (e - 60) % 2 = 0 then 60 else 61) = n at hn
    generalize isqrt n = s
    by_cases hs : s * s = n
    · rw [if_pos hs]
      have : 0 < s := by
        rcases Nat.eq_zero_or_pos s with h | h
        · subst h; omega
        · exact h
      omega
    · rw [if_neg hs]
      omega
  · split_ifs <;> omega

/-- Lines 114–119 in binary32: when the overlap branch is entered and the squared distance
`dot(d, d)` is not 0, the length by which `glm::normalize(d)` divides is a positive number. -/
theorem divisor32_pos (A B : GameBall Binary32)
    (hov : (A.position.sub32 B.position).length32.lt (A.radius.add B.radius) = true)
    (hne : (A.position.sub32 B.position).dot32 (A.position.sub32 B.position)
      ≠ Binary32.zero) :
    ∃ m e, ((A.position.sub32 B.position).dot32 (A.position.sub32 B.position)).sqrt
      = .finite m e ∧ 0 < m := by
  unfold Vec3.length32 at hov
  have hc := add_cases
    (((A.position.sub32 B.position).x.mul (A.position.sub32 B.position).x).add
      ((A.position.sub32 B.position).y.mul (A.position.sub32 B.position).y))
    ((A.position.sub32 B.position).z.mul (A.position.sub32 B.position).z)
  have hdot : (A.position.sub32 B.position).dot32 (A.position.sub32 B.position)
      = (((A.position.sub32 B.position).x.mul (A.position.sub32 B.position).x).add
        ((A.position.sub32 B.position).y.mul (A.position.sub32 B.position).y)).add
        ((A.position.sub32 B.position).z.mul (A.position.sub32 B.position).z) := rfl
  rw [← hdot] at hc
  generalize (A.position.sub32 B.position).dot32 (A.position.sub32 B.position) = x at hov hne hc
  generalize A.radius.add B.radius = s at hov
  rcases hc with h | h | ⟨t, h⟩ | ⟨m, e, h, hm0, he⟩
  · subst h
    cases s <;> cases hov
  · exact absurd h hne
  · subst h
    cases t <;> cases s <;> cases hov
  · subst h
    rcases lt_trichotomy m 0 with hneg | hz | hpos
    · simp only [Binary32.sqrt, hneg, if_true] at hov
      cases s <;> cases hov
    · exact absurd hz hm0
    · have hp := sqrt_isPositive m e hpos he
      generalize Binary32.sqrt (.finite m e) = y at hov hp
      cases y with
      | finite m1 e1 =>
        simp only [Binary32.isPositive, Bool.and_eq_true, decide_eq_true_eq] at hp
        exact ⟨m1, e1, rfl, hp.1⟩
      | inf t =>
        cases t
        · cases s <;> cases hov
        · cases hp
      | nan => cases hp

theorem resolvePair32_coincident (A B : GameBall Binary32) (hpos : A.position = B.position)
    (hx : A.position.x.isFinite = true) (hy : A.position.y.isFinite = true)
    (hz : A.position.z.isFinite = true)
    (hrA : A.radius.isPositive = true) (hrB : B.radius.isPositive = true)
    (i j : Nat) (balls : List (GameBall Binary32)) (hij : i < j)
    (hA : balls[i]? = some A) (hB : balls[j]? = some B) (hact : B.active = true) :
    resolvePair32 i balls j
      = (balls.set i { A with position := ⟨.nan, .nan, .nan⟩, velocity := ⟨.nan, .nan, .nan⟩ }).set
          j { B with position := ⟨.nan, .nan, .nan⟩, velocity := ⟨.nan, .nan, .nan⟩ } := by
  obtain ⟨-, -, -, -, -, -, hres⟩ := sphereSphere32_coincident A B hpos hx hy hz hrA hrB
  unfold resolvePair32
  rw [if_neg (by omega), hA, hB]
  simp only [hact, Bool.not_true, Bool.false_eq_true, if_false, hres]

/-! ## Theorems: floor containment in binary32 -/

/-- C10 (counterexample). Two balls of radius 0.02625f at rest at (0, 0, 0) and (0, 0, 0.03f):
the centres are 0.03f apart, less than the sum of the radii, and the pair step of lines 114–122,
computed in binary32, puts them at z = -12079595 * 2^-30 and z = 11072962 * 2^-28, which are
closer than the sum of the radii (by 2^-30): a residual penetration remains. -/
theorem C10_counterexample :
    0 < Vec3.distSq32 nearA32.position nearB32.position ∧
    Real.sqrt ((Vec3.distSq32 nearA32.position nearB32.position : ℚ) : ℝ)
      < ((nearA32.radius.toRat + nearB32.radius.toRat : ℚ) : ℝ) ∧
    (nearA32.position.sub32 nearB32.position).length32.lt
      (nearA32.radius.add nearB32.radius) = true ∧
    (sphereSphere32 nearA32 nearB32).1.position
      = ⟨.finite 0 0, .finite 0 0, .finite (-12079595) (-30)⟩ ∧
    (sphereSphere32 nearA32 nearB32).2.position
      = ⟨.finite 0 0, .finite 0 0, .finite 11072962 (-28)⟩ ∧
    Real.sqrt ((Vec3.distSq32 (sphereSphere32 nearA32 nearB32).1.position
        (sphereSphere32 nearA32 nearB32).2.position : ℚ) : ℝ)
      < ((nearA32.radius.toRat + nearB32.radius.toRat : ℚ) : ℝ) := by
  have hA : nearA32.position = ⟨.finite 0 0, .finite 0 0, .finite 0 0⟩ := by decide
  have hB : nearB32.position = ⟨.finite 0 0, .finite 0 0, .finite 16106127 (-29)⟩ := by decide
  have hrA : nearA32.radius = .finite 14092861 (-29) := by decide
  have hrB : nearB32.radius = .finite 14092861 (-29) := by decide
  have h1 : (sphereSphere32 nearA32 nearB32).1.position
      = ⟨.finite 0 0, .finite 0 0, .finite (-12079595) (-30)⟩ := by decide
  have h2 : (sphereSphere32 nearA32 nearB32).2.position
      = ⟨.finite 0 0, .finite 0 0, .finite 11072962 (-28)⟩ := by decide
  have hs : (0 : ℝ) < ((nearA32.radius.toRat + nearB32.radius.toRat : ℚ) : ℝ) := by
    rw [hrA, hrB]
    simp only [Binary32.toRat]
    norm_num
  refine ⟨?_, ?_, by decide, h1, h2, ?_⟩
  · rw [hA, hB]
    simp only [Vec3.distSq32, Vec3.toRat, Binary32.toRat, Vec3.sub, Vec3.dot]
    norm_num
  · rw [Real.sqrt_lt' hs, hA, hB, hrA, hrB]
    simp only [Vec3.distSq32, Vec3.toRat, Binary32.toRat, Vec3.sub, Vec3.dot]
    norm_num
  · rw [Real.sqrt_lt' hs, h1, h2, hrA, hrB]
    simp only [Vec3.distSq32, Vec3.toRat, Binary32.toRat, Vec3.sub, Vec3.dot]
    norm_num

/-- C11 (counterexample). A ball of radius 0.02625f at rest at the origin and the segment from
(0.005f, 0, -1) to (0.005f, 0, 1): the segment is not degenerate, the centre is at distance
0.005f from it, less than the radius, and the segment response of lines 161–172 (the same for
lines 135–146), computed in binary32, moves the centre to x = -11408506 * 2^-29, at distance
radius - 2^-30 from the segment: the distance to the closest point of the segment is still less
than the radius, also as the code itself recomputes it. -/
theorem C11_counterexample :
    (Vec2.mk nearWall32.toRat.p1.x nearWall32.toRat.p1.z)
      ≠ (Vec2.mk nearWall32.toRat.p2.x nearWall32.toRat.p2.z) ∧
    0 < segmentDistSq32 nearA32.position nearWall32 ∧
    Real.sqrt ((segmentDistSq32 nearA32.position nearWall32 : ℚ) : ℝ)
      < ((nearA32.radius.toRat : ℚ) : ℝ) ∧
    (segmentDistance32 nearA32.position nearWall32).lt nearA32.radius = true ∧
    (tableSegmentResponse32 nearA32 nearWall32).position
      = ⟨.finite (-11408506) (-29), .finite 0 0, .finite 0 0⟩ ∧
    (pocketSegmentResponse32 nearA32 nearWall32).position
      = ⟨.finite (-11408506) (-29), .finite 0 0, .finite 0 0⟩ ∧
    (tableSegmentResponse32 nearA32 nearWall32).radius = nearA32.radius ∧
    Real.sqrt ((segmentDistSq32 (tableSegmentResponse32 nearA32 nearWall32).position
        nearWall32 : ℚ) : ℝ) < ((nearA32.radius.toRat : ℚ) : ℝ) ∧
    (segmentDistance32 (tableSegmentResponse32 nearA32 nearWall32).position nearWall32).lt
      nearA32.radius = true := by
  have hA : nearA32.position = ⟨.finite 0 0, .finite 0 0, .finite 0 0⟩ := by decide
  have hW : nearWall32 = ⟨⟨.finite 10737418 (-31), .finite 0 0, .finite (-8388608) (-23)⟩,
      ⟨.finite 10737418 (-31), .finite 0 0, .finite 8388608 (-23)⟩⟩ := by decide
  have hrA : nearA32.radius = .finite 14092861 (-29) := by decide
  have h1 : (tableSegmentResponse32 nearA32 nearWall32).position
      = ⟨.finite (-11408506) (-29), .finite 0 0, .finite 0 0⟩ := by decide
  have hs : (0 : ℝ) < ((nearA32.radius.toRat : ℚ) : ℝ) := by
    rw [hrA]
    simp only [Binary32.toRat]
    norm_num
  refine ⟨?_, ?_, ?_, by decide, h1, by decide, by decide, ?_, by decide⟩
  · rw [hW]
    simp only [BoundingSegment.toRat, Vec3.toRat, Binary32.toRat]
    intro h
    have := congrArg Vec2.y h
    norm_num at this
  · rw [hA, hW]
    simp only [segmentDistSq32, closestPoint, clamp, BoundingSegment.toRat, Vec3.toRat,
      Binary32.toRat, Vec2.sub, Vec2.dot, Vec2.add, Vec2.scale]
    norm_num
  · rw [Real.sqrt_lt' hs, hA, hW, hrA]
    simp only [segmentDistSq32, closestPoint, clamp, BoundingSegment.toRat, Vec3.toRat,
      Binary32.toRat, Vec2.sub, Vec2.dot, Vec2.add, Vec2.scale]
    norm_num
  · rw [Real.sqrt_lt' hs, h1, hW, hrA]
    simp only [segmentDistSq32, closestPoint, clamp, BoundingSegment.toRat, Vec3.toRat,
      Binary32.toRat, Vec2.sub, Vec2.dot, Vec2.add, Vec2.scale]
    norm_num

/-- C26 (counterexample). Two overlapping balls of radius 0.02625f with distinct centres, the
first at the origin with velocity (0, 0, 0.5f), the second at (0.01f, 0, 0.01f) with velocity
(0.5f, 0, -1): after the pair step of lines 114–130, computed in binary32, the sum of the
velocities and the sum of the positions have changed, as exact values and as binary32 sums. -/
theorem C26_counterexample :
    0 < Vec3.distSq32 hitA32.position hitB32.position ∧
    Real.sqrt ((Vec3.distSq32 hitA32.position hitB32.position : ℚ) : ℝ)
      < ((hitA32.radius.toRat + hitB32.radius.toRat : ℚ) : ℝ) ∧
    (hitA32.position.sub32 hitB32.position).length32.lt
      (hitA32.radius.add hitB32.radius) = true ∧
    (sphereSphere32 hitA32 hitB32).1.position
      = ⟨.finite (-14561605) (-30), .finite 0 0, .finite (-14561605) (-30)⟩ ∧
    (sphereSphere32 hitA32 hitB32).2.position
      = ⟨.finite 12649512 (-29), .finite 0 0, .finite 12649512 (-29)⟩ ∧
    (sphereSphere32 hitA32 hitB32).1.velocity
      = ⟨.finite (-15099493) (-25), .finite 0 0, .finite 13421784 (-28)⟩ ∧
    (sphereSphere32 hitA32 hitB32).2.velocity
      = ⟨.finite 15938354 (-24), .finite 0 0, .finite (-9227470) (-24)⟩ ∧
    (sphereSphere32 hitA32 hitB32).1.velocity.toRat.add
        (sphereSphere32 hitA32 hitB32).2.velocity.toRat
      ≠ hitA32.velocity.toRat.add hitB32.velocity.toRat ∧
    (sphereSphere32 hitA32 hitB32).1.position.toRat.add
        (sphereSphere32 hitA32 hitB32).2.position.toRat
      ≠ hitA32.position.toRat.add hitB32.position.toRat ∧
    (sphereSphere32 hitA32 hitB32).1.velocity.add32 (sphereSphere32 hitA32 hitB32).2.velocity
      ≠ hitA32.velocity.add32 hitB32.velocity ∧
    (sphereSphere32 hitA32 hitB32).1.position.add32 (sphereSphere32 hitA32 hitB32).2.position
      ≠ hitA32.position.add32 hitB32.position := by
  have hA : hitA32.position = ⟨.finite 0 0, .finite 0 0, .finite 0 0⟩ := by decide
  have hB : hitB32.position
      = ⟨.finite 10737418 (-30), .finite 0 0, .finite 10737418 (-30)⟩ := by decide
  have hvA : hitA32.velocity = ⟨.finite 0 0, .finite 0 0, .finite 8388608 (-24)⟩ := by decide
  have hvB : hitB32.velocity
      = ⟨.finite 8388608 (-24), .finite 0 0, .finite (-8388608) (-23)⟩ := by decide
  have hrA : hitA32.radius = .finite 14092861 (-29) := by decide
  have hrB : hitB32.radius = .finite 14092861 (-29) := by decide
  have h1 : (sphereSphere32 hitA32 hitB32).1.position
      = ⟨.finite (-14561605) (-30), .finite 0 0, .finite (-14561605) (-30)⟩ := by decide
  have h2 : (sphereSphere32 hitA32 hitB32).2.position
      = ⟨.finite 12649512 (-29), .finite 0 0, .finite 12649512 (-29)⟩ := by decide
  have h3 : (sphereSphere32 hitA32 hitB32).1.velocity
      = ⟨.finite (-15099493) (-25), .finite 0 0, .finite 13421784 (-28)⟩ := by decide
  have h4 : (sphereSphere32 hitA32 hitB32).2.velocity
      = ⟨.finite 15938354 (-24), .finite 0 0, .finite (-9227470) (-24)⟩ := by decide
  have hs : (0 : ℝ) < ((hitA32.radius.toRat + hitB32.radius.toRat : ℚ) : ℝ) := by
    rw [hrA, hrB]
    simp only [Binary32.toRat]
    norm_num
  refine ⟨?_, ?_, by decide, h1, h2, h3, h4, ?_, ?_, by decide, by decide⟩
  · rw [hA, hB]
    simp only [Vec3.distSq32, Vec3.toRat, Binary32.toRat, Vec3.sub, Vec3.dot]
    norm_num
  · rw [Real.sqrt_lt' hs, hA, hB, hrA, hrB]
    simp only [Vec3.distSq32, Vec3.toRat, Binary32.toRat, Vec3.sub, Vec3.dot]
    norm_num
  · rw [h3, h4, hvA, hvB]
    simp only [Vec3.toRat, Binary32.toRat, Vec3.add]
    intro h
    have := congrArg Vec3.x h
    norm_num at this
  · rw [h1, h2, hA, hB]
    simp only [Vec3.toRat, Binary32.toRat, Vec3.add]
    intro h
    have := congrArg Vec3.x h
    norm_num at this

/-- C27 (counterexample). Two overlapping balls of radius 0.02625f with distinct centres, the
first at rest at (0, 0, 0.1f), the second at (0.02f, 0, 0.08f) with velocity (1, 0, 1), a glancing
contact: after the velocity resolution of lines 124–129, computed in binary32, the exact value
of `|vA'|^2 + |vB'|^2` is greater than that of `|vA|^2 + |vB|^2`. -/
theorem C27_counterexample :
    0 < Vec3.distSq32 glanceA32.position glanceB32.position ∧
    Real.sqrt ((Vec3.distSq32 glanceA32.position glanceB32.position : ℚ) : ℝ)
      < ((glanceA32.radius.toRat + glanceB32.radius.toRat : ℚ) : ℝ) ∧
    (glanceA32.position.sub32 glanceB32.position).length32.lt
      (glanceA32.radius.add glanceB32.radius) = true ∧
    (sphereSphere32 glanceA32 glanceB32).1.velocity
      = ⟨.finite (-10676954) (-47), .finite 0 0, .finite 10676955 (-47)⟩ ∧
    (sphereSphere32 glanceA32 glanceB32).2.velocity
      = ⟨.finite 8388609 (-23), .finite 0 0, .finite 16777215 (-24)⟩ ∧
    glanceA32.velocity.toRat.dot glanceA32.velocity.toRat
        + glanceB32.velocity.toRat.dot glanceB32.velocity.toRat
      < (sphereSphere32 glanceA32 glanceB32).1.velocity.toRat.dot
          (sphereSphere32 glanceA32 glanceB32).1.velocity.toRat
        + (sphereSphere32 glanceA32 glanceB32).2.velocity.toRat.dot
          (sphereSphere32 glanceA32 glanceB32).2.velocity.toRat := by
  have hA : glanceA32.position = ⟨.finite 0 0, .finite 0 0, .finite 13421773 (-27)⟩ := by
    decide
  have hB : glanceB32.position
      = ⟨.finite 10737418 (-29), .finite 0 0, .finite 10737418 (-27)⟩ := by decide
  have hvA : glanceA32.velocity = ⟨.finite 0 0, .finite 0 0, .finite 0 0⟩ := by decide
  have hvB : glanceB32.velocity
      = ⟨.finite 8388608 (-23), .finite 0 0, .finite 8388608 (-23)⟩ := by decide
  have hrA : glanceA32.radius = .finite 14092861 (-29) := by decide
  have hrB : glanceB32.radius = .finite 14092861 (-29) := by decide
  have h3 : (sphereSphere32 glanceA32 glanceB32).1.velocity
      = ⟨.finite (-10676954) (-47), .finite 0 0, .finite 10676955 (-47)⟩ := by decide
  have h4 : (sphereSphere32 glanceA32 glanceB32).2.velocity
      = ⟨.finite 8388609 (-23), .finite 0 0, .finite 16777215 (-24)⟩ := by decide
  have hs : (0 : ℝ) < ((glanceA32.radius.toRat + glanceB32.radius.toRat : ℚ) : ℝ) := by
    rw [hrA, hrB]
    simp only [Binary32.toRat]
    norm_num
  refine ⟨?_, ?_, by decide, h3, h4, ?_⟩
  · rw [hA, hB]
    simp only [Vec3.distSq32, Vec3.toRat, Binary32.toRat, Vec3.sub, Vec3.dot]
    norm_num
  · rw [Real.sqrt_lt' hs, hA, hB, hrA, hrB]
    simp only [Vec3.distSq32, Vec3.toRat, Binary32.toRat, Vec3.sub, Vec3.dot]
    norm_num
  · rw [h3, h4, hvA, hvB]
    simp only [Vec3.toRat, Binary32.toRat, Vec3.dot]
    norm_num

/-- C29 (counterexample). Two active balls of radius 0.0525f at x = 0x1.bf7ce4p-4 and
x = 0x1.b6c8aep-3, same y and z: the x coordinates differ by less than `GRID_CELL_SIZE`, the
centre distance is less than the sum of the radii, which is `GRID_CELL_SIZE`, and the overlap
test of line 117 succeeds; but the clamped columns computed in binary32 (lines 33, 35) are 5 and
7, so that neither bucket lies in the 3x3 block of cells around the cell of the other ball. -/
theorem C29_counterexample :
    |cellA32.position.toRat.x - cellB32.position.toRat.x| < GRID_CELL_SIZE32.toRat ∧
    |cellA32.position.toRat.z - cellB32.position.toRat.z| < GRID_CELL_SIZE32.toRat ∧
    cellA32.active = true ∧ cellB32.active = true ∧
    Real.sqrt ((Vec3.distSq32 cellA32.position cellB32.position : ℚ) : ℝ)
      < ((cellA32.radius.toRat + cellB32.radius.toRat : ℚ) : ℝ) ∧
    cellA32.radius.toRat + cellB32.radius.toRat ≤ GRID_CELL_SIZE32.toRat ∧
    (cellA32.position.sub32 cellB32.position).length32.lt
      (cellA32.radius.add cellB32.radius) = true ∧
    cellCol32 cellA32.position = some 5 ∧ cellCol32 cellB32.position = some 7 ∧
    cellRow32 cellA32.position = some 10 ∧ cellRow32 cellB32.position = some 10 := by
  have hA : cellA32.position = ⟨.finite 14663282 (-27), .finite 0 0, .finite 0 0⟩ := by decide
  have hB : cellB32.position = ⟨.finite 14378071 (-26), .finite 0 0, .finite 0 0⟩ := by decide
  have hrA : cellA32.radius = .finite 14092861 (-28) := by decide
  have hrB : cellB32.radius = .finite 14092861 (-28) := by decide
  have hc : GRID_CELL_SIZE32 = .finite 14092861 (-27) := by decide
  have hs : (0 : ℝ) < ((cellA32.radius.toRat + cellB32.radius.toRat : ℚ) : ℝ) := by
    rw [hrA, hrB]
    simp only [Binary32.toRat]
    norm_num
  refine ⟨?_, ?_, rfl, rfl, ?_, ?_, by decide, by decide, by decide, by decide, by decide⟩
  · rw [hA, hB, hc]
    simp only [Vec3.toRat, Binary32.toRat]
    rw [abs_lt]
    constructor <;> norm_num
  · rw [hA, hB, hc]
    simp only [Vec3.toRat, Binary32.toRat]
    rw [abs_lt]
    constructor <;> norm_num
  · rw [Real.sqrt_lt' hs, hA, hB, hrA, hrB]
    simp only [Vec3.distSq32, Vec3.toRat, Binary32.toRat, Vec3.sub, Vec3.dot]
    norm_num
  · rw [hrA, hrB, hc]
    simp only [Binary32.toRat]
    norm_num

/-- C30 (counterexample). A ball of radius 0.02625f at rest at (0.09f, 0, 0.08f) and the
segment from (0.1f, 0, 0.1f) to (0.3f, 0, 0.3f), which is not degenerate: the response of lines
161–172, computed in binary32, gives the position (11846144 * 2^-27, 0, 10270513 * 2^-27) for the
segment and (11846143 * 2^-27, 0, 10270512 * 2^-27) for the segment with its end points
exchanged; the same holds for the loop of lines 135–146. -/
theorem C30_counterexample :
    (Vec2.mk diagonal32.toRat.p1.x diagonal32.toRat.p1.z)
      ≠ (Vec2.mk diagonal32.toRat.p2.x diagonal32.toRat.p2.z) ∧
    diagonalSwapped32 = ⟨diagonal32.p2, diagonal32.p1⟩ ∧
    (tableSegmentResponse32 cornerBall32 diagonal32).position
      = ⟨.finite 11846144 (-27), .finite 0 0, .finite 10270513 (-27)⟩ ∧
    (tableSegmentResponse32 cornerBall32 diagonalSwapped32).position
      = ⟨.finite 11846143 (-27), .finite 0 0, .finite 10270512 (-27)⟩ ∧
    (pocketSegmentResponse32 cornerBall32 diagonal32).position
      = ⟨.finite 11846144 (-27), .finite 0 0, .finite 10270513 (-27)⟩ ∧
    (pocketSegmentResponse32 cornerBall32 diagonalSwapped32).position
      = ⟨.finite 11846143 (-27), .finite 0 0, .finite 10270512 (-27)⟩ ∧
    (tableSegmentResponse32 cornerBall32 diagonal32).position.toRat
      ≠ (tableSegmentResponse32 cornerBall32 diagonalSwapped32).position.toRat := by
  have hW : diagonal32 = ⟨⟨.finite 13421773 (-27), .finite 0 0, .finite 13421773 (-27)⟩,
      ⟨.finite 10066330 (-25), .finite 0 0, .finite 10066330 (-25)⟩⟩ := by decide
  have h1 : (tableSegmentResponse32 cornerBall32 diagonal32).position
      = ⟨.finite 11846144 (-27), .finite 0 0, .finite 10270513 (-27)⟩ := by decide
  have h2 : (tableSegmentResponse32 cornerBall32 diagonalSwapped32).position
      = ⟨.finite 11846143 (-27), .finite 0 0, .finite 10270512 (-27)⟩ := by decide
  refine ⟨?_, rfl, h1, h2, by decide, by decide, ?_⟩
  · rw [hW]
    simp only [BoundingSegment.toRat, Vec3.toRat, Binary32.toRat]
    intro h
    have := congrArg Vec2.x h
    norm_num at this
  · rw [h1, h2]
    simp only [Vec3.toRat, Binary32.toRat]
    intro h
    have := congrArg Vec3.x h
    norm_num at this

/-- C25 (counterexample). Two balls of radius 0.02625f at (1e-30f, 0, 0) and (0, 0, 0): the
centres are distinct, but the squared distance computed by `glm::dot` in binary32 underflows to
0, so that the overlap branch of line 117 is entered with `dist = 0`, the length used as divisor
by `glm::normalize` is 0 and the corrected positions are infinite or NaN. -/
theorem C25_counterexample :
    tinyA32.position.toRat ≠ nearA32.position.toRat ∧
    0 < tinyA32.radius.toRat ∧ 0 < nearA32.radius.toRat ∧
    tinyA32.position.sub32 nearA32.position
      = ⟨.finite 10633824 (-123), .finite 0 0, .finite 0 0⟩ ∧
    (tinyA32.position.sub32 nearA32.position).dot32 (tinyA32.position.sub32 nearA32.position)
      = .finite 0 0 ∧
    (tinyA32.position.sub32 nearA32.position).length32 = .finite 0 0 ∧
    (tinyA32.position.sub32 nearA32.position).length32.lt
      (tinyA32.radius.add nearA32.radius) = true ∧
    (Binary32.ofInt 1).div
      ((tinyA32.position.sub32 nearA32.position).dot32
        (tinyA32.position.sub32 nearA32.position)).sqrt = .inf false ∧
    (tinyA32.position.sub32 nearA32.position).normalize32 = ⟨.inf false, .nan, .nan⟩ ∧
    (sphereSphere32 tinyA32 nearA32).1.position = ⟨.inf false, .nan, .nan⟩ ∧
    (sphereSphere32 tinyA32 nearA32).2.position = ⟨.inf true, .nan, .nan⟩ := by
  have hA : tinyA32.position = ⟨.finite 10633824 (-123), .finite 0 0, .finite 0 0⟩ := by decide
  have hB : nearA32.position = ⟨.finite 0 0, .finite 0 0, .finite 0 0⟩ := by decide
  have hrA : tinyA32.radius = .finite 14092861 (-29) := by decide
  have hrB : nearA32.radius = .finite 14092861 (-29) := by decide
  refine ⟨?_, ?_, ?_, by decide, by decide, by decide, by decide, by decide, by decide,
    by decide, by decide⟩
  · rw [hA, hB]
    simp only [Vec3.toRat, Binary32.toRat]
    intro h
    have := congrArg Vec3.x h
    norm_num at this
  · rw [hrA]
    simp only [Binary32.toRat]
    norm_num
  · rw [hrB]
    simp only [Binary32.toRat]
    norm_num


/-! ## Theorems: the divisor of the collision normal -/

section Divisor

variable {K : Type} [LinearOrderedField K]

/-- C25 (amended). Unguarded degenerate normal.  In binary32: when two spheres with positive
radii have exactly coincident finite centres, the difference of the centres is the zero vector,
the distance is 0, the overlap test `dist < sum_r` succeeds, `glm::normalize` divides 1 by the
length 0 and multiplies the zero vector by the resulting infinity, so that the normal and then
every component of the positions and velocities of both spheres is NaN; the body of the loop over
a bucket writes these values for every pair of indices `i < j` with the second sphere active,
without any other test.  Conversely, whenever the overlap branch is entered and the squared
distance computed by `glm::dot` is not 0, the length used as divisor is a strictly positive
number; in exact arithmetic this is the case for all distinct centres. -/
theorem C25_unguarded_degenerate_normal (m : MathLib K) (hm : m.Exact)
    (A B : GameBall Binary32) (hpos : A.position = B.position)
    (hx : A.position.x.isFinite = true) (hy : A.position.y.isFinite = true)
    (hz : A.position.z.isFinite = true)
    (hrA : A.radius.isPositive = true) (hrB : B.radius.isPositive = true) :
    (A.position.sub32 B.position = Vec3.zero32 ∧
      (A.position.sub32 B.position).length32 = Binary32.zero ∧
      (A.position.sub32 B.position).length32.lt (A.radius.add B.radius) = true ∧
      ((A.position.sub32 B.position).dot32 (A.position.sub32 B.position)).sqrt
        = Binary32.zero ∧
      (Binary32.ofInt 1).div
        ((A.position.sub32 B.position).dot32 (A.position.sub32 B.position)).sqrt
        = .inf false ∧
      (A.position.sub32 B.position).normalize32 = ⟨.nan, .nan, .nan⟩ ∧
      sphereSphere32 A B
        = ({ A with position := ⟨.nan, .nan, .nan⟩, velocity := ⟨.nan, .nan, .nan⟩ },
           { B with position := ⟨.nan, .nan, .nan⟩, velocity := ⟨.nan, .nan, .nan⟩ })) ∧
    (∀ (i j : Nat) (balls : List (GameBall Binary32)), i < j → balls[i]? = some A →
      balls[j]? = some B → B.active = true →
      resolvePair32 i balls j
        = (balls.set i
            { A with position := ⟨.nan, .nan, .nan⟩, velocity := ⟨.nan, .nan, .nan⟩ }).set j
            { B with position := ⟨.nan, .nan, .nan⟩, velocity := ⟨.nan, .nan, .nan⟩ }) ∧
    (∀ A1 B1 : GameBall Binary32,
      (A1.position.sub32 B1.position).length32.lt (A1.radius.add B1.radius) = true →
      (A1.position.sub32 B1.position).dot32 (A1.position.sub32 B1.position) ≠ Binary32.zero →
      ∃ q e, ((A1.position.sub32 B1.position).dot32 (A1.position.sub32 B1.position)).sqrt
        = .finite q e ∧ 0 < q) ∧
    (∀ A2 B2 : GameBall K, A2.position ≠ B2.position →
      0 < (A2.position.sub B2.position).dot (A2.position.sub B2.position) ∧
      0 < m.sqrt ((A2.position.sub B2.position).dot (A2.position.sub B2.position)) ∧
      (A2.position.sub B2.position).length m
        = m.sqrt ((A2.position.sub B2.position).dot (A2.position.sub B2.position)) ∧
      (A2.position.sub B2.position).normalize m = (A2.position.sub B2.position).scale
        (1 / m.sqrt ((A2.position.sub B2.position).dot (A2.position.sub B2.position)))) := by
  refine ⟨sphereSphere32_coincident A B hpos hx hy hz hrA hrB, ?_, ?_, ?_⟩
  · intro i j balls hij hA hB hact
    exact resolvePair32_coincident A B hpos hx hy hz hrA hrB i j balls hij hA hB hact
  · intro A1 B1 hov hne
    exact divisor32_pos A1 B1 hov hne
  · intro A2 B2 hne
    exact ⟨Vec3.dot_sub_self_pos hne, hm.sqrt_pos (Vec3.dot_sub_self_pos hne), rfl, rfl⟩

/-- Witness for C25: the balls `hitA32` and `nearA32` of radius 0.02625f, both at the origin:
the pair step writes NaN into the positions and velocities of both. -/
theorem C25_unguarded_degenerate_normal_witness :
    (MathLib.mk Real.sqrt Real.sin Real.cos).Exact ∧
    hitA32.position = nearA32.position ∧
    hitA32.position.x.isFinite = true ∧ hitA32.position.y.isFinite = true ∧
    hitA32.position.z.isFinite = true ∧
    hitA32.radius.isPositive = true ∧ nearA32.radius.isPositive = true ∧
    sphereSphere32 hitA32 nearA32
      = ({ hitA32 with position := ⟨.nan, .nan, .nan⟩, velocity := ⟨.nan, .nan, .nan⟩ },
         { nearA32 with position := ⟨.nan, .nan, .nan⟩, velocity := ⟨.nan, .nan, .nan⟩ }) :=
  ⟨real_exact, rfl, rfl, rfl, rfl, by decide, by decide,
    (C25_unguarded_degenerate_normal (MathLib.mk Real.sqrt Real.sin Real.cos) real_exact
      hitA32 nearA32 rfl rfl rfl rfl (by decide) (by decide)).1.2.2.2.2.2.2⟩

end Divisor

end Colisoes
